import Mathlib

/-!
# VFH* local obstacle avoidance (`src/vfhstar.cpp`): embedding and properties

The controller `yuiwong::VfhStar` is embedded function by function.

Conventions of the embedding.

* A C++ `double` is a rational number: arithmetic is exact, there is no
  rounding, no infinity and no NaN (a division by zero yields `0`).
* A C++ `int` is an `Int`; a conversion `double -> int` truncates toward zero
  (`toInt`).  Loop counters that only count upwards from `0` are `Nat`.
* `std::vector<double>` is `List ℚ`.  The two-dimensional cell tables are total
  functions of the two indices, `cellSector` is a total function of its three
  indices returning the `std::vector<int>` stored there.
* A read past the end of a vector has no defined value in C++; here it yields
  `Platform.wild i`, a value the theorems quantify over.  A write past the end
  is dropped.
* The functions of `<math.h>` that are not rational (`sqrt`, `atan2`, `asin`,
  `tan`, `cos`, `sin`, `hypot`) are fields of `Platform`.
* The clock `NowSecond()` is an input of `init` and `update`.
-/

namespace Vfh

/-! ## Platform: libm and out-of-range reads -/

/-- The services the translation unit takes from its platform. -/
structure Platform where
  sqrt : ℚ → ℚ
  atan2 : ℚ → ℚ → ℚ
  asin : ℚ → ℚ
  tan : ℚ → ℚ
  cos : ℚ → ℚ
  sin : ℚ → ℚ
  hypot : ℚ → ℚ → ℚ
  /-- value fetched by a vector read at the out-of-range index `i` -/
  wild : Int → ℚ

/-! ## Numeric helpers -/

/-- Conversion `double -> int` of C++: truncation toward zero. -/
def toInt (q : ℚ) : Int := if 0 ≤ q then ⌊q⌋ else ⌈q⌉

/-- The `::rint` of `<math.h>` in the default rounding mode: the nearest
integer, a tie going to the even neighbour. -/
def rint (q : ℚ) : Int :=
  if q - (⌊q⌋ : ℚ) < 1 / 2 then ⌊q⌋
  else if 1 / 2 < q - (⌊q⌋ : ℚ) then ⌊q⌋ + 1
  else if ⌊q⌋ % 2 = 0 then ⌊q⌋ else ⌊q⌋ + 1

/-- The constant `M_PI` of `<math.h>`: the double nearest to π, exactly. -/
def M_PI : ℚ := 884279719003555 / 281474976710656

/-- The constant `std::numeric_limits<double>::max()`. -/
def DBL_MAX : ℚ := 2 ^ 1024 - 2 ^ 971

/-- Modelled from the spec: `HPi` of `yuiwong/angle.hpp` (header not among the
sources), the angle π/2 ("π/2 is straight ahead"). -/
def HPi : ℚ := M_PI / 2

/-- Modelled from the spec: `DPi` of `yuiwong/angle.hpp` (header not among the
sources), the full circle 2π. -/
def DPi : ℚ := 2 * M_PI

/-- Modelled from the spec: `TQCircle` of `yuiwong/angle.hpp` (header not among
the sources), the three-quarter circle 3π/2. -/
def TQCircle : ℚ := 3 * M_PI / 2

/-- Modelled from the spec: `DegreeToRadian` of `yuiwong/angle.hpp` (header not
among the sources), degrees to radians. -/
def DegreeToRadian (d : ℚ) : ℚ := d * M_PI / 180

/-- Modelled from the spec: `DoubleCompare` of `yuiwong/math.hpp` (header not
among the sources).  The spec reads `DoubleCompare(a, b) > 0` as `a > b`,
`< 0` as `a < b` and `== 0` as `a = b`: the three-way comparison.  The second
argument defaults to `0` in the source and is always written out here. -/
def DoubleCompare (a b : ℚ) : Int := if a < b then -1 else if b < a then 1 else 0

/-- Modelled from the spec: `NormalizeAnglePositive` of `yuiwong/angle.hpp`
(header not among the sources), the representative of an angle in [0, 2π). -/
def NormalizeAnglePositive (a : ℚ) : ℚ := a - DPi * (⌊a / DPi⌋ : ℚ)

/-- Modelled from the spec: `NormalizeAngle` of `yuiwong/angle.hpp` (header not
among the sources), the representative of an angle in (−π, π]. -/
def NormalizeAngle (a : ℚ) : ℚ :=
  if M_PI < NormalizeAnglePositive a then NormalizeAnglePositive a - DPi
  else NormalizeAnglePositive a

/-- Modelled from the spec: `DeltaAngle` of `yuiwong/angle.hpp` (header not
among the sources), the shortest-arc angular difference from the first angle
to the second. -/
def DeltaAngle (a b : ℚ) : ℚ := NormalizeAngle (b - a)

/-- Element `i` of a vector; `Platform.wild` past the end. -/
def rd (P : Platform) (v : List ℚ) (i : Int) : ℚ :=
  if i < 0 then P.wild i else v.getD i.toNat (P.wild i)

/-- Assignment `t[x][y] = v` on a two-dimensional table. -/
def set2 {α : Type} (t : Nat → Nat → α) (x y : Nat) (v : α) : Nat → Nat → α :=
  fun a b => if a = x ∧ b = y then v else t a b

/-- Assignment `t[k][x][y] = v` on a three-dimensional table. -/
def set3 {α : Type} (t : Nat → Nat → Nat → α) (k x y : Nat) (v : α) :
    Nat → Nat → Nat → α :=
  fun c a b => if c = k ∧ a = x ∧ b = y then v else t c a b

/-! ## Data model -/

/-- The parameter bundle `VfhStar::Param`. -/
structure Param where
  cellWidth : ℚ
  windowDiameter : Int
  sectorAngle : ℚ
  maxSpeed : ℚ
  maxSpeedNarrowOpening : ℚ
  maxSpeedWideOpening : ℚ
  zeroSafetyDistance : ℚ
  maxSafetyDistance : ℚ
  zeroMaxTurnrate : ℚ
  maxMaxTurnrate : ℚ
  zeroFreeSpaceCutoff : ℚ
  maxFreeSpaceCutoff : ℚ
  zeroObsCutoff : ℚ
  maxObsCutoff : ℚ
  maxAcceleration : ℚ
  desiredDirectionWeight : ℚ
  currentDirectionWeight : ℚ
  minTurnRadiusSafetyFactor : ℚ
  robotRadius : ℚ

/-- The default bundle, `VfhStar::Param::Param()`. -/
def Param.default : Param where
  cellWidth := 1 / 10
  windowDiameter := 60
  sectorAngle := DegreeToRadian 5
  maxSpeed := 4 / 10
  maxSpeedNarrowOpening := 5 / 100
  maxSpeedWideOpening := 4 / 10
  zeroSafetyDistance := 1 / 100
  maxSafetyDistance := 3 / 10
  zeroMaxTurnrate := DegreeToRadian 80
  maxMaxTurnrate := DegreeToRadian 40
  zeroFreeSpaceCutoff := 4000000
  maxFreeSpaceCutoff := 2000000
  zeroObsCutoff := 4000000
  maxObsCutoff := 2000000
  maxAcceleration := 1 / 10
  desiredDirectionWeight := 5
  currentDirectionWeight := 1
  minTurnRadiusSafetyFactor := 1
  robotRadius := 2 / 10

/-- The members of a `VfhStar` object. -/
structure VfhStar where
  cellWidth : ℚ
  windowDiameter : Int
  sectorAngle : ℚ
  maxSpeed : ℚ
  maxSpeedNarrowOpening : ℚ
  maxSpeedWideOpening : ℚ
  zeroSafetyDistance : ℚ
  maxSafetyDistance : ℚ
  zeroMaxTurnrate : ℚ
  maxMaxTurnrate : ℚ
  zeroFreeBinaryHistogram : ℚ
  maxFreeBinaryHistogram : ℚ
  zeroObsBinaryHistogram : ℚ
  maxObsBinaryHistogram : ℚ
  maxAcceleration : ℚ
  desiredDirectionWeight : ℚ
  currentDirectionWeight : ℚ
  minTurnRadiusSafetyFactor : ℚ
  robotRadius : ℚ
  desiredDirection : ℚ
  pickedDirection : ℚ
  lastUpdateTime : ℚ
  lastChosenLinearX : ℚ
  lastPickedDirection : ℚ
  cellSectorTablesCount : Int
  centerX : Int
  centerY : Int
  histogramSize : Int
  currentMaxSpeed : ℚ
  minTurningRadius : List ℚ
  cellDirection : Nat → Nat → ℚ
  cellBaseMag : Nat → Nat → ℚ
  cellMag : Nat → Nat → ℚ
  cellDistance : Nat → Nat → ℚ
  cellEnlarge : Nat → Nat → ℚ
  cellSector : Nat → Nat → Nat → List Int
  histogram : List ℚ
  lastBinaryHistogram : List ℚ
  goalDistance : ℚ
  goalDistanceTolerance : ℚ
  blockedCircleRadius : ℚ
  maxSpeedForPickedDirection : ℚ
  candidateAngle : List ℚ
  candidateSpeed : List ℚ

/-- The scan `std::array<double, 361>`. -/
abbrev Scan := Fin 361 → ℚ

/-- Element `laserRanges[idx]`; `Platform.wild` outside the array. -/
def rdScan (P : Platform) (laserRanges : Scan) (idx : Int) : ℚ :=
  if h : 0 ≤ idx ∧ idx.toNat < 361 then laserRanges ⟨idx.toNat, h.2⟩ else P.wild idx

/-- The constructor `VfhStar::VfhStar(Param const&)`.  The members it does not
mention keep the value `raw` holds for them, except the vectors, which start
empty. -/
def VfhStar.new (param : Param) (raw : VfhStar) : VfhStar :=
  { raw with
    cellWidth := param.cellWidth
    windowDiameter := param.windowDiameter
    sectorAngle := param.sectorAngle
    maxSpeed := param.maxSpeed
    maxSpeedNarrowOpening := param.maxSpeedNarrowOpening
    maxSpeedWideOpening := param.maxSpeedWideOpening
    zeroSafetyDistance := param.zeroSafetyDistance
    maxSafetyDistance := param.maxSafetyDistance
    zeroMaxTurnrate := param.zeroMaxTurnrate
    maxMaxTurnrate := param.maxMaxTurnrate
    zeroFreeBinaryHistogram := param.zeroFreeSpaceCutoff
    maxFreeBinaryHistogram := param.maxFreeSpaceCutoff
    zeroObsBinaryHistogram := param.zeroObsCutoff
    maxObsBinaryHistogram := param.maxObsCutoff
    maxAcceleration := param.maxAcceleration
    desiredDirectionWeight := param.desiredDirectionWeight
    currentDirectionWeight := param.currentDirectionWeight
    minTurnRadiusSafetyFactor := param.minTurnRadiusSafetyFactor
    robotRadius := param.robotRadius
    desiredDirection := HPi
    pickedDirection := HPi
    lastUpdateTime := -1
    lastChosenLinearX := 0
    lastPickedDirection := HPi
    cellSectorTablesCount :=
      if DoubleCompare param.zeroSafetyDistance param.maxSafetyDistance = 0 then 1 else 20
    minTurningRadius := []
    histogram := []
    lastBinaryHistogram := []
    candidateAngle := []
    candidateSpeed := [] }

/-! ## Kinematic helpers -/

/-- The method `VfhStar::getSafetyDistance` (it returns an `int`). -/
def getSafetyDistance (s : VfhStar) (speed : ℚ) : Int :=
  let d := s.zeroSafetyDistance + speed * (s.maxSafetyDistance - s.zeroSafetyDistance)
  toInt (if DoubleCompare d 0 < 0 then 0 else d)

/-- The method `VfhStar::getMaxTurnrate`. -/
def getMaxTurnrate (s : VfhStar) (speed : ℚ) : ℚ :=
  let val := s.zeroMaxTurnrate - speed * (s.zeroMaxTurnrate - s.maxMaxTurnrate)
  if DoubleCompare val 0 < 0 then 0 else val

/-- The method `VfhStar::getFreeBinaryHistogram`. -/
def getFreeBinaryHistogram (s : VfhStar) (speed : ℚ) : ℚ :=
  s.zeroFreeBinaryHistogram - speed * (s.zeroFreeBinaryHistogram - s.maxFreeBinaryHistogram)

/-- The method `VfhStar::getObsBinaryHistogram`. -/
def getObsBinaryHistogram (s : VfhStar) (speed : ℚ) : ℚ :=
  s.zeroObsBinaryHistogram - speed * (s.zeroObsBinaryHistogram - s.maxObsBinaryHistogram)

/-- The method `VfhStar::getSpeedIndex`. -/
def getSpeedIndex (s : VfhStar) (speed : ℚ) : Int :=
  let idx : Int := ⌊((speed * 1000) / s.currentMaxSpeed) * (s.cellSectorTablesCount : ℚ)⌋
  if idx ≥ s.cellSectorTablesCount then s.cellSectorTablesCount - 1 else idx

/-- The method `VfhStar::getMinTurningRadiusIndex`: the clamped `idx` is
computed and the size `sz` is what the `return` statement yields. -/
def getMinTurningRadiusIndex (s : VfhStar) (speed : ℚ) : Int :=
  let idx : Int := toInt (speed * 1000)
  let sz : Int := s.minTurningRadius.length
  let _idx : Int := if idx ≥ sz then sz - 1 else idx
  sz

/-- The method `VfhStar::setCurrentMaxSpeed`: after the `resize(n)` every index
below `n` is assigned by the loop. -/
def setCurrentMaxSpeed (P : Platform) (s : VfhStar) (maxSpeed : ℚ) : VfhStar :=
  let currentMaxSpeed := min maxSpeed s.maxSpeed
  let n : Int := toInt (currentMaxSpeed * 1000) + 1
  { s with
    currentMaxSpeed := currentMaxSpeed
    minTurningRadius := (List.range n.toNat).map (fun x =>
      let dx : ℚ := (x : ℚ) / 1000
      let dtheta := getMaxTurnrate s (x : ℚ)
      (dx / P.tan dtheta) * s.minTurnRadiusSafetyFactor) }

/-- The method `VfhStar::allocate`. -/
def allocate (P : Platform) (s : VfhStar) : VfhStar :=
  setCurrentMaxSpeed P
    { s with
      cellDirection := fun _ _ => 0
      cellBaseMag := fun _ _ => 0
      cellMag := fun _ _ => 0
      cellDistance := fun _ _ => 0
      cellEnlarge := fun _ _ => 0
      cellSector := fun _ _ _ => []
      histogram := List.replicate s.histogramSize.toNat 0
      lastBinaryHistogram := List.replicate s.histogramSize.toNat 0 }
    s.maxSpeed

/-! ## `init`: the geometry tables -/

/-- The four variables declared before the cell loops of `init`. -/
structure SectorVars where
  neg_sector_to_neg_dir : ℚ
  neg_sector_to_plus_dir : ℚ
  plus_sector_to_neg_dir : ℚ
  plus_sector_to_plus_dir : ℚ

/-- The three-way branch `init` writes out four times, for a sector edge and a
direction edge: the value assigned to the matching `*_sector_to_*_dir`. -/
def sectorToDir (sector dir : ℚ) : ℚ :=
  if DoubleCompare (sector - dir) M_PI > 0 then dir - (sector - DPi)
  else if DoubleCompare (dir - sector) M_PI > 0 then sector - (dir + DPi)
  else dir - sector

/-- One pass of the loop `for (i = 0; i < n; ++i)` of `init`: the four
variables are overwritten. -/
def initSectorStep (s : VfhStar) (plusDirection negDirection : ℚ)
    (_v : SectorVars) (i : Nat) : SectorVars :=
  let plusSector : ℚ := ((i : ℚ) + 1) * s.sectorAngle
  let negSector : ℚ := (i : ℚ) * s.sectorAngle
  { neg_sector_to_neg_dir := sectorToDir negSector negDirection
    plus_sector_to_neg_dir := sectorToDir plusSector negDirection
    plus_sector_to_plus_dir := sectorToDir plusSector plusDirection
    neg_sector_to_plus_dir := sectorToDir negSector plusDirection }

/-- One pass of the loop over `cellSectorTabIdx` of `init`, for the cell
`(x, y)`. -/
def initTable (P : Platform) (x y : Nat) (acc : VfhStar × SectorVars)
    (cellSectorTabIdx : Nat) : VfhStar × SectorVars :=
  let s := acc.1
  let max_speed_this_table : Int :=
    toInt ((((cellSectorTabIdx : ℚ) + 1) / (s.cellSectorTablesCount : ℚ)) * s.maxSpeed)
  let enlarge : ℚ :=
    if DoubleCompare (s.cellDistance x y) 0 > 0 then
      P.asin ((s.robotRadius + (getSafetyDistance s (max_speed_this_table : ℚ) : ℚ))
        / s.cellDistance x y)
    else 0
  let plusDirection := s.cellDirection x y + enlarge
  let negDirection := s.cellDirection x y - enlarge
  let n : Int := toInt (DPi / s.sectorAngle)
  let v := (List.range n.toNat).foldl (initSectorStep s plusDirection negDirection) acc.2
  let i : Int := max n 0
  let neg_dir_bw : Bool :=
    decide (DoubleCompare v.neg_sector_to_neg_dir 0 ≥ 0
      ∧ DoubleCompare v.plus_sector_to_neg_dir 0 ≤ 0)
  let plus_dir_bw : Bool :=
    decide (DoubleCompare v.neg_sector_to_plus_dir 0 ≥ 0
      ∧ DoubleCompare v.plus_sector_to_plus_dir 0 ≤ 0)
  let dir_around_sector : Bool :=
    decide (DoubleCompare v.neg_sector_to_neg_dir 0 ≤ 0
      ∧ DoubleCompare v.neg_sector_to_plus_dir 0 ≥ 0)
  let plus_dir_bw : Bool :=
    if DoubleCompare v.plus_sector_to_neg_dir 0 ≤ 0
      ∧ DoubleCompare v.plus_sector_to_plus_dir 0 ≥ 0 then true else plus_dir_bw
  ({ s with
     cellEnlarge := set2 s.cellEnlarge x y enlarge
     cellSector := set3 s.cellSector cellSectorTabIdx x y
       (if plus_dir_bw || neg_dir_bw || dir_around_sector then [i] else []) }, v)

/-- The direction `init` stores in `cellDirection[x][y]` for the centre
`(centerX, centerY)`; `old` is the value the entry keeps when no branch assigns
it. -/
def initDirection (P : Platform) (centerX centerY : Int) (x y : Nat) (old : ℚ) : ℚ :=
  if (x : Int) < centerX then
    if (y : Int) < centerY then
      M_PI - P.atan2 ((centerY - (y : Int) : Int) : ℚ) ((centerX - (x : Int) : Int) : ℚ)
    else if (y : Int) = centerY then M_PI
    else if (y : Int) > centerY then
      M_PI + P.atan2 (((y : Int) - centerY : Int) : ℚ) ((centerX - (x : Int) : Int) : ℚ)
    else old
  else if (x : Int) = centerX then
    if (y : Int) < centerY then M_PI / 2
    else if (y : Int) = centerY then -1
    else if (y : Int) > centerY then (M_PI / 2) * 3
    else old
  else if (x : Int) > centerX then
    if (y : Int) < centerY then
      P.atan2 ((centerY - (y : Int) : Int) : ℚ) (((x : Int) - centerX : Int) : ℚ)
    else if (y : Int) = centerY then 0
    else if (y : Int) > centerY then
      (2 * M_PI)
        - P.atan2 (((y : Int) - centerY : Int) : ℚ) (((x : Int) - centerX : Int) : ℚ)
    else old
  else old

/-- The body of the two cell loops of `init`, for the cell `(x, y)`. -/
def initCell (P : Platform) (acc : VfhStar × SectorVars) (x y : Nat) :
    VfhStar × SectorVars :=
  let s := acc.1
  let dist : ℚ :=
    P.sqrt ((((s.centerX - (x : Int) : Int) : ℚ)) ^ 2 + (((s.centerY - (y : Int) : Int) : ℚ)) ^ 2)
      * s.cellWidth
  let s1 : VfhStar :=
    { s with
      cellMag := set2 s.cellMag x y 0
      cellDistance := set2 s.cellDistance x y dist
      cellBaseMag := set2 s.cellBaseMag x y ((3000 - dist * 1000) ^ 4 / 100000000)
      cellDirection := set2 s.cellDirection x y
        (initDirection P s.centerX s.centerY x y (s.cellDirection x y)) }
  (List.range s1.cellSectorTablesCount.toNat).foldl (initTable P x y) (s1, acc.2)

/-- The head of `VfhStar::init`, up to the cell loops: the centre, the histogram
size, `allocate()` and the two `std::fill`. -/
def initHead (P : Platform) (s : VfhStar) : VfhStar :=
  let centerX : Int := ⌊(s.windowDiameter : ℚ) / 2⌋
  let s0 : VfhStar :=
    { s with
      centerX := centerX
      centerY := centerX
      histogramSize := rint (DPi / s.sectorAngle) }
  let s1 := allocate P s0
  { s1 with
    histogram := s1.histogram.map (fun _ => 0)
    lastBinaryHistogram := s1.lastBinaryHistogram.map (fun _ => 1) }

/-- The four variables of `init` as declared, all `0`. -/
def SectorVars.zero : SectorVars where
  neg_sector_to_neg_dir := 0
  neg_sector_to_plus_dir := 0
  plus_sector_to_neg_dir := 0
  plus_sector_to_plus_dir := 0

/-- The two cell loops of `init`. -/
def initLoops (P : Platform) (s : VfhStar) : VfhStar × SectorVars :=
  (List.range s.windowDiameter.toNat).foldl
    (fun acc x => (List.range s.windowDiameter.toNat).foldl (fun acc y => initCell P acc x y) acc)
    (s, SectorVars.zero)

/-- The method `VfhStar::init`; `now` is the reading of `NowSecond()`. -/
def init (P : Platform) (s : VfhStar) (now : ℚ) : VfhStar :=
  { (initLoops P (initHead P s)).1 with lastUpdateTime := now }

/-! ## Primary, binary and masked polar histograms -/

/-- The cells `(x, y)` with `x < nx`, `y < ny` in the order of a loop over `x`
with an inner loop over `y`. -/
def cellsXY (nx ny : Nat) : List (Nat × Nat) :=
  (List.range nx).flatMap (fun x => (List.range ny).map (fun y => (x, y)))

/-- The cells `(x, y)` with `y < ny`, `x < nx` in the order of a loop over `y`
with an inner loop over `x`. -/
def cellsYX (ny nx : Nat) : List (Nat × Nat) :=
  (List.range ny).flatMap (fun y => (List.range nx).map (fun x => (x, y)))

/-- The test of `calculateCellsMagnitude` that the laser ray ends before the
far side of the cell `(x, y)`. -/
def cellHit (P : Platform) (s : VfhStar) (laserRanges : Scan) (x y : Nat) : Prop :=
  DoubleCompare (s.cellDistance x y + s.cellWidth / 2)
    (rdScan P laserRanges (rint (s.cellDirection x y * 2))) > 0

instance (P : Platform) (s : VfhStar) (laserRanges : Scan) (x y : Nat) :
    Decidable (cellHit P s laserRanges x y) := by
  unfold cellHit; infer_instance

/-- The test of `calculateCellsMagnitude` that a hit cell lies inside the
safety distance `r` and is not the centre cell. -/
def cellUnsafe (s : VfhStar) (r : ℚ) (x y : Nat) : Prop :=
  DoubleCompare (s.cellDistance x y) r < 0 ∧ ¬((x : Int) = s.centerX ∧ (y : Int) = s.centerY)

instance (s : VfhStar) (r : ℚ) (x y : Nat) : Decidable (cellUnsafe s r x y) := by
  unfold cellUnsafe; infer_instance

/-- The two loops of `calculateCellsMagnitude` over the cells still to visit:
the new `cellMag` and the returned flag. -/
def cellsMagnitudeLoop (P : Platform) (s : VfhStar) (laserRanges : Scan) (r : ℚ) :
    List (Nat × Nat) → (Nat → Nat → ℚ) → (Nat → Nat → ℚ) × Bool
  | [], cellMag => (cellMag, true)
  | (x, y) :: rest, cellMag =>
    if cellHit P s laserRanges x y then
      if cellUnsafe s r x y then (cellMag, false)
      else cellsMagnitudeLoop P s laserRanges r rest (set2 cellMag x y (s.cellBaseMag x y))
    else cellsMagnitudeLoop P s laserRanges r rest (set2 cellMag x y 0)

/-- The method `VfhStar::calculateCellsMagnitude`. -/
def calculateCellsMagnitude (P : Platform) (s : VfhStar) (laserRanges : Scan) (speed : ℚ) :
    VfhStar × Bool :=
  let safeSpeed : ℚ := (getSafetyDistance s speed : ℚ)
  let r := s.robotRadius + safeSpeed
  let n : Int := ⌈(s.windowDiameter : ℚ) / 2⌉
  let res := cellsMagnitudeLoop P s laserRanges r
    (cellsXY s.windowDiameter.toNat n.toNat) s.cellMag
  ({ s with cellMag := res.1 }, res.2)

/-- The method `VfhStar::buildPrimaryPolarHistogram`: the loop fills the vector
`cellSector[speedIndex][x][y]` with `cellMag[x][y]`, converted to `int`. -/
def buildPrimaryPolarHistogram (P : Platform) (s : VfhStar) (laserRanges : Scan)
    (speed : ℚ) : VfhStar × Bool :=
  let s1 : VfhStar := { s with histogram := s.histogram.map (fun _ => 0) }
  let c := calculateCellsMagnitude P s1 laserRanges speed
  if !c.2 then
    ({ c.1 with histogram := c.1.histogram.map (fun _ => 1) }, false)
  else
    let s2 := c.1
    let speedIndex : Int := getSpeedIndex s2 speed
    let n : Int := ⌈(s2.windowDiameter : ℚ) / 2⌉
    let cellSector := (cellsYX (n + 1).toNat s2.windowDiameter.toNat).foldl
      (fun t (c : Nat × Nat) =>
        set3 t speedIndex.toNat c.1 c.2
          ((t speedIndex.toNat c.1 c.2).map (fun _ => toInt (s2.cellMag c.1 c.2))))
      s2.cellSector
    ({ s2 with cellSector := cellSector }, true)

/-- The value the first loop of `buildBinaryPolarHistogram` stores in a bin
that holds `h`, when the previous binary histogram holds `last` there. -/
def binaryValue (s : VfhStar) (speed h last : ℚ) : ℚ :=
  if DoubleCompare h (getObsBinaryHistogram s speed) > 0 then 1
  else if DoubleCompare h (getFreeBinaryHistogram s speed) < 0 then 0
  else last

/-- The method `VfhStar::buildBinaryPolarHistogram`. -/
def buildBinaryPolarHistogram (P : Platform) (s : VfhStar) (speed : ℚ) : VfhStar :=
  let histogram := (List.range s.histogramSize.toNat).foldl
    (fun h x => h.set x (binaryValue s speed (rd P h x) (rd P s.lastBinaryHistogram x)))
    s.histogram
  let lastBinaryHistogram := (List.range s.histogramSize.toNat).foldl
    (fun l x => l.set x (rd P histogram x))
    s.lastBinaryHistogram
  { s with histogram := histogram, lastBinaryHistogram := lastBinaryHistogram }

/-- The body of the cell loops of `buildMaskedPolarHistogram`: the pair
`(phi_left, phi_right)` after the cell `(x, y)`. -/
def maskedCellStep (P : Platform) (s : VfhStar) (centerxright centerxleft centery : ℚ)
    (phi : ℚ × ℚ) (c : Nat × Nat) : ℚ × ℚ :=
  let x := c.1
  let y := c.2
  let phi_left := phi.1
  let phi_right := phi.2
  let angleahead := HPi
  if DoubleCompare (s.cellMag x y) 0 = 0 then phi
  else
    let d := s.cellDirection x y
    if DoubleCompare (DeltaAngle d angleahead) 0 > 0
        ∧ DoubleCompare (DeltaAngle d phi_right) 0 ≤ 0 then
      let distr := P.hypot (centerxright - (x : ℚ)) (centery - (y : ℚ)) * s.cellWidth
      if DoubleCompare distr s.blockedCircleRadius < 0 then (phi_left, d) else phi
    else if DoubleCompare (DeltaAngle d angleahead) 0 ≤ 0
        ∧ DoubleCompare (DeltaAngle d phi_left) 0 > 0 then
      let distl := P.hypot (centerxleft - (x : ℚ)) (centery - (y : ℚ)) * s.cellWidth
      if DoubleCompare distl s.blockedCircleRadius < 0 then (d, phi_right) else phi
    else phi

/-- The value the last loop of `buildMaskedPolarHistogram` stores in the bin
`x` that holds `h`. -/
def maskedValue (s : VfhStar) (phi_left phi_right : ℚ) (x : Nat) (h : ℚ) : ℚ :=
  let angle : ℚ := (x : ℚ) * s.sectorAngle
  let angleahead := HPi
  if DoubleCompare h 0 = 0
      ∧ ((DoubleCompare (DeltaAngle angle phi_right) 0 ≤ 0
          ∧ DoubleCompare (DeltaAngle angle angleahead) 0 ≥ 0)
        ∨ (DoubleCompare (DeltaAngle angle phi_left) 0 ≥ 0
          ∧ DoubleCompare (DeltaAngle angle angleahead) 0 ≤ 0)) then 0
  else 1

/-- The method `VfhStar::buildMaskedPolarHistogram`. -/
def buildMaskedPolarHistogram (P : Platform) (s : VfhStar) (speed : ℚ) : VfhStar :=
  let minTurningRadiusIdx : Int := getMinTurningRadiusIndex s speed
  let minTurningRadius : ℚ := rd P s.minTurningRadius minTurningRadiusIdx
  let centerxright : ℚ := (s.centerX : ℚ) + minTurningRadius / s.cellWidth
  let centerxleft : ℚ := (s.centerX : ℚ) - minTurningRadius / s.cellWidth
  let centery : ℚ := (s.centerY : ℚ)
  let s1 : VfhStar :=
    { s with
      blockedCircleRadius :=
        minTurningRadius + s.robotRadius + (getSafetyDistance s speed : ℚ) }
  let n : Int := ⌈(s1.windowDiameter : ℚ) / 2⌉
  let phi := (cellsYX n.toNat s1.windowDiameter.toNat).foldl
    (maskedCellStep P s1 centerxright centerxleft centery) (M_PI, 0)
  { s1 with
    histogram := (List.range s1.histogramSize.toNat).foldl
      (fun h x => h.set x (maskedValue s1 phi.1 phi.2 x (rd P h x)))
      s1.histogram }

/-! ## Direction selection -/

/-- The method `VfhStar::selectCandidateAngle`.  The loop state is
`(minweight, pickedDirection, maxSpeedForPickedDirection)`; the last component
receives the candidate angle `ca`. -/
def selectCandidateAngle (s : VfhStar) : VfhStar :=
  if s.candidateAngle.length ≤ 0 then
    { s with
      pickedDirection := s.lastPickedDirection
      maxSpeedForPickedDirection := 0
      lastPickedDirection := s.lastPickedDirection }
  else
    let r := s.candidateAngle.foldl
      (fun (acc : ℚ × ℚ × ℚ) ca =>
        let weight := s.desiredDirectionWeight * |DeltaAngle s.desiredDirection ca|
          + s.currentDirectionWeight * |DeltaAngle s.lastPickedDirection ca|
        if DoubleCompare weight acc.1 < 0 then (weight, ca, ca) else acc)
      (DBL_MAX, HPi, s.maxSpeedForPickedDirection)
    { s with
      pickedDirection := r.2.1
      maxSpeedForPickedDirection := r.2.2
      lastPickedDirection := r.2.1 }

/-- The first loop of `selectDirection`: the first index below
`histogramSize / 2` whose bin compares equal to `1`, `none` standing for the
initial `start = -1`. -/
def findStart (P : Platform) (s : VfhStar) : Option Nat :=
  (List.range (s.histogramSize.toNat / 2)).find?
    (fun i => decide (DoubleCompare (rd P s.histogram i) 1 = 0))

/-- The state of the border walk of `selectDirection`: the `std::pair<int, int>`
`newborder`, the flag `left` and the vector `border`. -/
structure Walk where
  newborder : Int × Int
  left : Bool
  border : List (Int × ℚ)

/-- One pass of the border walk of `selectDirection`, at the index `i`. -/
def walkStep (P : Platform) (s : VfhStar) (w : Walk) (i : Nat) : Walk :=
  let k : Nat := i % s.histogramSize.toNat
  let h := rd P s.histogram k
  let w1 : Walk :=
    if DoubleCompare h 0 = 0 ∧ w.left = true then
      { w with newborder := (toInt ((k : ℚ) * s.sectorAngle), w.newborder.2), left := false }
    else w
  if DoubleCompare h 1 = 0 ∧ w1.left = false then
    let second : Int := toInt ((((k : Int) - 1 : Int) : ℚ) * s.sectorAngle)
    let second : Int := toInt (NormalizeAnglePositive (second : ℚ))
    { newborder := (w1.newborder.1, second)
      left := true
      border := w1.border ++ [((w1.newborder.1, (second : ℚ)) : Int × ℚ)] }
  else w1

/-- The body of the loop of `selectDirection` over the openings: the candidate
vectors `(candidateAngle, candidateSpeed)` after the opening `b`. -/
def candidateStep (P : Platform) (s : VfhStar) (acc : List ℚ × List ℚ) (b : Int × ℚ) :
    List ℚ × List ℚ :=
  let veryNarrowO := DegreeToRadian 10
  let narrowO := DegreeToRadian 80
  let r40 := DegreeToRadian 40
  let angle := DeltaAngle (b.1 : ℚ) b.2
  if DoubleCompare |angle| veryNarrowO < 0 then acc
  else if DoubleCompare |angle| narrowO < 0 then
    let newangle : ℚ := (b.1 : ℚ) + (b.2 - (b.1 : ℚ)) / 2
    (acc.1 ++ [newangle], acc.2 ++ [min s.currentMaxSpeed s.maxSpeedNarrowOpening])
  else
    let newangle : ℚ := (b.1 : ℚ) + (b.2 - (b.1 : ℚ)) / 2
    let ca := acc.1 ++ [newangle]
    let cs := acc.2 ++ [s.currentMaxSpeed]
    let ca := ca ++ [NormalizeAnglePositive ((b.1 : ℚ) + r40)]
    let cs := cs ++ [min s.currentMaxSpeed s.maxSpeedWideOpening]
    let ca := ca ++ [NormalizeAnglePositive (b.2 - r40)]
    let cs := cs ++ [min s.currentMaxSpeed s.maxSpeedWideOpening]
    if DoubleCompare (DeltaAngle s.desiredDirection (rd P ca ((ca.length : Int) - 2))) 0 < 0
        ∧ DoubleCompare (DeltaAngle s.desiredDirection (rd P ca ((ca.length : Int) - 1))) 0 > 0
    then (ca ++ [s.desiredDirection], cs ++ [min s.currentMaxSpeed s.maxSpeedWideOpening])
    else (ca, cs)

/-- The method `VfhStar::selectDirection`. -/
def selectDirection (P : Platform) (s : VfhStar) : VfhStar :=
  let s1 : VfhStar := { s with candidateAngle := [], candidateSpeed := [] }
  match findStart P s1 with
  | none =>
    { s1 with
      pickedDirection := s1.desiredDirection
      lastPickedDirection := s1.desiredDirection
      maxSpeedForPickedDirection := s1.currentMaxSpeed }
  | some start =>
    let w := ((List.range (s1.histogramSize.toNat + 1)).map (fun j => start + j)).foldl
      (walkStep P s1) { newborder := (0, 0), left := true, border := [] }
    let c := w.border.foldl (candidateStep P s1) (s1.candidateAngle, s1.candidateSpeed)
    selectCandidateAngle { s1 with candidateAngle := c.1, candidateSpeed := c.2 }

/-! ## Motion -/

/-- The method `VfhStar::cannotTurnToGoal`. -/
def cannotTurnToGoal (P : Platform) (s : VfhStar) : Bool :=
  let goalx := s.goalDistance * P.cos s.desiredDirection
  let goaly := s.goalDistance * P.sin s.desiredDirection
  let dist_between_centres := P.hypot (goalx - s.blockedCircleRadius) goaly
  if DoubleCompare (dist_between_centres + s.goalDistanceTolerance) s.blockedCircleRadius < 0
  then true
  else
    let dist_between_centres := P.hypot (-goalx - s.blockedCircleRadius) goaly
    if DoubleCompare (dist_between_centres + s.goalDistanceTolerance) s.blockedCircleRadius < 0
    then true
    else false

/-- The library function `::copysign`. -/
def copysign (x y : ℚ) : ℚ := if y < 0 then -|x| else |x|

/-- The method `VfhStar::setMotion(actualSpeed, linearX, turnrate)`: the values
of the two reference parameters `(linearX, turnrate)` on return.  The incoming
value of `turnrate` is never read. -/
def setMotion (s : VfhStar) (actualSpeed linearX _turnrate : ℚ) : ℚ × ℚ :=
  let mx := getMaxTurnrate s actualSpeed
  if DoubleCompare linearX 0 ≤ 0 then (0, mx)
  else if DoubleCompare s.pickedDirection TQCircle ≥ 0
      ∧ DoubleCompare s.pickedDirection DPi < 0 then (linearX, -mx)
  else if DoubleCompare s.pickedDirection TQCircle < 0
      ∧ DoubleCompare s.pickedDirection M_PI ≥ 0 then (linearX, mx)
  else
    let tmp := DegreeToRadian 75
    let turnrate : ℚ := (rint (((s.pickedDirection - HPi) / tmp) * mx) : ℚ)
    if DoubleCompare |turnrate| mx > 0 then (linearX, copysign mx turnrate)
    else (linearX, turnrate)

/-- The inputs of one call of `update`, `now` being the reading of
`NowSecond()`. -/
structure Tick where
  laserRanges : Scan
  currentLinearX : ℚ
  goalDirection : ℚ
  goalDistance : ℚ
  goalDistanceTolerance : ℚ
  now : ℚ

/-- The outputs of one call of `update`. -/
structure Command where
  chosenLinearX : ℚ
  chosenAngularZ : ℚ

/-- The variable `currentPoseSpeed` of `update`. -/
def poseSpeed (s : VfhStar) (currentLinearX : ℚ) : ℚ :=
  let currentPoseSpeed : ℚ := if DoubleCompare currentLinearX 0 < 0 then 0 else currentLinearX
  if DoubleCompare currentPoseSpeed s.lastChosenLinearX < 0 then s.lastChosenLinearX
  else currentPoseSpeed

/-- The assignments at the head of `update`: the clock reading and the goal
are stored in the object. -/
def updateInputs (s : VfhStar) (t : Tick) : VfhStar :=
  { s with
    lastUpdateTime := t.now
    desiredDirection := t.goalDirection + HPi
    goalDistance := t.goalDistance
    goalDistanceTolerance := t.goalDistanceTolerance }

/-- The first half of `update`, up to and including the choice of the picked
direction. -/
def updateDirection (P : Platform) (s : VfhStar) (t : Tick) : VfhStar :=
  let s1 : VfhStar := updateInputs s t
  let currentPoseSpeed := poseSpeed s1 t.currentLinearX
  let b := buildPrimaryPolarHistogram P s1 t.laserRanges currentPoseSpeed
  if b.2 = false then
    { b.1 with
      pickedDirection := b.1.lastPickedDirection
      maxSpeedForPickedDirection := 0
      lastPickedDirection := b.1.lastPickedDirection }
  else
    selectDirection P
      (buildMaskedPolarHistogram P (buildBinaryPolarHistogram P b.1 currentPoseSpeed)
        currentPoseSpeed)

/-- The variable `speedIncr` of `update`, for the elapsed time `diffSeconds`
and the answer of `cannotTurnToGoal()`. -/
def speedIncrement (s : VfhStar) (diffSeconds : ℚ) (cannot : Bool) : ℚ :=
  let speedIncr : ℚ :=
    if diffSeconds > 3 / 10 ∨ diffSeconds < 0 then 1 / 100
    else s.maxAcceleration * diffSeconds
  let speedIncr : ℚ := if DoubleCompare |speedIncr| (1 / 10000) ≤ 0 then 1 / 10000 else speedIncr
  if cannot then -speedIncr else speedIncr

/-- The method `VfhStar::update`: the new state and the two outputs.  The call
`setMotion(chosenLinearX0, chosenTurnrate, currentPoseSpeed)` passes
`chosenLinearX0` as `actualSpeed`, `chosenTurnrate` as `linearX` and
`currentPoseSpeed` as `turnrate`. -/
def update (P : Platform) (s : VfhStar) (t : Tick) : VfhStar × Command :=
  let diffSeconds := t.now - s.lastUpdateTime
  let currentPoseSpeed := poseSpeed s t.currentLinearX
  let s1 := updateDirection P s t
  let speedIncr := speedIncrement s1 diffSeconds (cannotTurnToGoal P s1)
  let v := s1.lastChosenLinearX + speedIncr
  let chosenLinearX0 := min v s1.maxSpeedForPickedDirection
  let chosenTurnrate : ℚ := 0
  let m := setMotion s1 chosenLinearX0 chosenTurnrate currentPoseSpeed
  let chosenTurnrate := m.1
  ({ s1 with lastChosenLinearX := chosenLinearX0 },
   { chosenLinearX := chosenLinearX0, chosenAngularZ := NormalizeAngle chosenTurnrate })

/-- The states a controller built from `param` can be in: after `init`, and
after any number of calls of `update`. -/
inductive Reachable (P : Platform) (param : Param) : VfhStar → Prop
  | init (raw : VfhStar) (now : ℚ) : Reachable P param (init P (VfhStar.new param raw) now)
  | update (s : VfhStar) (t : Tick) : Reachable P param s → Reachable P param (update P s t).1

/-! ## A reference platform -/

/-- Rounding down to fifteen decimals. -/
def fx (q : ℚ) : ℚ := (⌊q * 10 ^ 15⌋ : ℚ) / 10 ^ 15

/-- Bisection for the integer square root: `lo * lo ≤ n < hi * hi`. -/
def isqrtLoop : Nat → Nat → Nat → Nat → Nat
  | 0, _, lo, _ => lo
  | fuel + 1, n, lo, hi =>
    if hi ≤ lo + 1 then lo
    else if ((lo + hi) / 2) * ((lo + hi) / 2) ≤ n then isqrtLoop fuel n ((lo + hi) / 2) hi
    else isqrtLoop fuel n lo ((lo + hi) / 2)

/-- Square root, to fifteen decimals. -/
def refSqrt (q : ℚ) : ℚ :=
  if q ≤ 0 then 0
  else ((isqrtLoop 256 ⌊q * 10 ^ 30⌋.toNat 0 (⌊q * 10 ^ 30⌋.toNat + 1) : Nat) : ℚ) / 10 ^ 15

/-- Partial sum of an alternating power series: the running `term`, the next
odd or even index `k`, and the factorial switch `fact`. -/
def altSeries (x2 : ℚ) (fact : Bool) : Nat → ℚ → Nat → ℚ
  | 0, _, _ => 0
  | fuel + 1, term, k =>
    (if fact then term else term / (k : ℚ))
      - altSeries x2 fact fuel
          (fx (if fact then term * x2 / (((k : ℚ) + 1) * ((k : ℚ) + 2)) else term * x2)) (k + 2)

/-- Sine, by its Taylor series after reduction to (−π, π]. -/
def refSin (x : ℚ) : ℚ :=
  fx (altSeries (NormalizeAngle x ^ 2) true 16 (NormalizeAngle x) 1)

/-- Cosine, by its Taylor series after reduction to (−π, π]. -/
def refCos (x : ℚ) : ℚ :=
  fx (altSeries (NormalizeAngle x ^ 2) true 16 1 0)

/-- Arc tangent on [0, 1]: two half-angle reductions, then the series. -/
def refAtan01 (t : ℚ) : ℚ :=
  let t1 := fx (t / (1 + refSqrt (1 + t ^ 2)))
  let t2 := fx (t1 / (1 + refSqrt (1 + t1 ^ 2)))
  fx (4 * altSeries (t2 ^ 2) false 12 t2 1)

/-- Arc tangent of a non-negative argument, kept inside [0, π/2]. -/
def refAtanPos (t : ℚ) : ℚ :=
  min HPi (max 0 (if t ≤ 1 then refAtan01 t else HPi - refAtan01 (1 / t)))

/-- The two-argument arc tangent. -/
def refAtan2 (y x : ℚ) : ℚ :=
  if 0 < x then (if 0 ≤ y then refAtanPos (y / x) else -refAtanPos (-y / x))
  else if x < 0 then (if 0 ≤ y then M_PI - refAtanPos (y / -x) else refAtanPos (y / x) - M_PI)
  else if 0 < y then HPi else if y < 0 then -HPi else 0

/-- Arc sine; `0` outside [−1, 1]. -/
def refAsin (x : ℚ) : ℚ := if |x| ≤ 1 then refAtan2 x (refSqrt (1 - x ^ 2)) else 0

/-- The reference platform: libm to about twelve decimals, and out-of-range
reads that fetch `0`. -/
def refPlatform : Platform where
  sqrt := refSqrt
  atan2 := refAtan2
  asin := refAsin
  tan := fun x => refSin x / refCos x
  cos := refCos
  sin := refSin
  hypot := fun x y => refSqrt (x ^ 2 + y ^ 2)
  wild := fun _ => 0

/-! ## Concrete objects used to instantiate the theorems -/

/-- An object whose storage is all zero, as handed to the constructor. -/
def zeroObject : VfhStar where
  cellWidth := 0
  windowDiameter := 0
  sectorAngle := 0
  maxSpeed := 0
  maxSpeedNarrowOpening := 0
  maxSpeedWideOpening := 0
  zeroSafetyDistance := 0
  maxSafetyDistance := 0
  zeroMaxTurnrate := 0
  maxMaxTurnrate := 0
  zeroFreeBinaryHistogram := 0
  maxFreeBinaryHistogram := 0
  zeroObsBinaryHistogram := 0
  maxObsBinaryHistogram := 0
  maxAcceleration := 0
  desiredDirectionWeight := 0
  currentDirectionWeight := 0
  minTurnRadiusSafetyFactor := 0
  robotRadius := 0
  desiredDirection := 0
  pickedDirection := 0
  lastUpdateTime := 0
  lastChosenLinearX := 0
  lastPickedDirection := 0
  cellSectorTablesCount := 0
  centerX := 0
  centerY := 0
  histogramSize := 0
  currentMaxSpeed := 0
  minTurningRadius := []
  cellDirection := fun _ _ => 0
  cellBaseMag := fun _ _ => 0
  cellMag := fun _ _ => 0
  cellDistance := fun _ _ => 0
  cellEnlarge := fun _ _ => 0
  cellSector := fun _ _ _ => []
  histogram := []
  lastBinaryHistogram := []
  goalDistance := 0
  goalDistanceTolerance := 0
  blockedCircleRadius := 0
  maxSpeedForPickedDirection := 0
  candidateAngle := []
  candidateSpeed := []

/-- The default bundle on a window of 6 × 6 cells. -/
def smallParam : Param := { Param.default with windowDiameter := 6 }

/-- The controller of `smallParam` on the reference platform, right after
`init` at time `0`. -/
def smallInit : VfhStar := init refPlatform (VfhStar.new smallParam zeroObject) 0

/-- A scan that reads `d` on every ray. -/
def constScan (d : ℚ) : Scan := fun _ => d

/-- A first tick on which every ray reads 5 cm: the robot is boxed in.  The
goal lies 5 m straight ahead. -/
def boxedTick : Tick where
  laserRanges := constScan (1 / 20)
  currentLinearX := 0
  goalDirection := 0
  goalDistance := 5
  goalDistanceTolerance := 0
  now := 1

/-- A first tick on an empty field (every ray reads 10 m), the robot at rest,
the goal 5 m straight ahead. -/
def clearTick : Tick where
  laserRanges := constScan 10
  currentLinearX := 0
  goalDirection := 0
  goalDistance := 5
  goalDistanceTolerance := 0
  now := 1

/-- A first tick on an empty field, the robot at rest, the goal 20 cm to the
robot's right (`goalDirection = -π/2`, so `desiredDirection = 0`). -/
def rightGoalTick : Tick where
  laserRanges := constScan 10
  currentLinearX := 0
  goalDirection := -HPi
  goalDistance := 1 / 5
  goalDistanceTolerance := 0
  now := 1

/-- The object of `smallInit` after the tick `clearTick`. -/
def afterClear : VfhStar := (update refPlatform smallInit clearTick).1

/-- A second tick, 50 ms after `clearTick`: the robot is boxed in, the goal is
still 5 m straight ahead. -/
def boxedLaterTick : Tick where
  laserRanges := constScan (1 / 20)
  currentLinearX := 0
  goalDirection := 0
  goalDistance := 5
  goalDistanceTolerance := 0
  now := 21 / 20

/-- A second tick, 250 ms after `clearTick` (the clock reads 1.25 s, so the
elapsed time is the double 0.25): the robot is boxed in and the goal lies 20 cm
to its right. -/
def boxedRightTick : Tick where
  laserRanges := constScan (1 / 20)
  currentLinearX := 0
  goalDirection := -HPi
  goalDistance := 1 / 5
  goalDistanceTolerance := 0
  now := 5 / 4

/-- The scan of the scenario "obstacle inside safety zone": sample 180 reads
5 cm, the other 360 samples read 10 m. -/
def aheadScan : Scan := fun i => if i.val = 180 then 1 / 20 else 10

/-- A masked histogram of 72 bins in which exactly the sectors `lo`, …, `hi`
are free (`0`) and every other sector is occupied (`1`). -/
def openingHistogram (lo hi : Nat) : List ℚ :=
  (List.range 72).map (fun i => if lo ≤ i ∧ i ≤ hi then 0 else 1)

/-- The object of `smallInit` (sector angle 5°) holding the masked histogram
in which the sectors 1..11 are free and every other sector is occupied. -/
def narrowOpeningState : VfhStar := { smallInit with histogram := openingHistogram 1 11 }

/-- The object of `smallInit` holding the masked histogram in which the sectors
1..30 are free and every other sector is occupied. -/
def wideOpeningState : VfhStar := { smallInit with histogram := openingHistogram 1 30 }

/-- The object `wideOpeningState` with the goal direction `1 + 3π/2`, so that
`desiredDirection = goalDirection + π/2 = 1 + 2π`. -/
def wideOpeningFarGoal : VfhStar :=
  { wideOpeningState with desiredDirection := (1 + TQCircle) + HPi }

/-- The object of `smallInit` with the picked direction exactly `3π/2`. -/
def threeQuarterState : VfhStar := { smallInit with pickedDirection := TQCircle }

/-- A freshly constructed object whose turn-rate parameters are swapped:
40°/s at rest and 80°/s at 1 m/s. -/
def swappedTurnrates : VfhStar :=
  VfhStar.new
    { Param.default with
      zeroMaxTurnrate := DegreeToRadian 40, maxMaxTurnrate := DegreeToRadian 80 }
    zeroObject

/-- A freshly constructed object whose `desiredDirectionWeight` is the largest
finite double, holding the single candidate angle `4` with speed cap `2/5`. -/
def heavyWeightState : VfhStar :=
  { VfhStar.new
      { Param.default with desiredDirectionWeight := DBL_MAX, currentDirectionWeight := 0 }
      zeroObject with
    candidateAngle := [4]
    candidateSpeed := [2 / 5] }

/-- The default bundle on a window of 6 × 6 cells with a sector angle of 11°. -/
def elevenDegreeParam : Param :=
  { Param.default with windowDiameter := 6, sectorAngle := DegreeToRadian 11 }

/-- The object of `smallInit` holding the three candidates `1`, `2`, `2` with
the speed caps `2/5`, `1/20`, `2/5`. -/
def threeCandidates : VfhStar :=
  { smallInit with candidateAngle := [1, 2, 2], candidateSpeed := [2 / 5, 1 / 20, 2 / 5] }


/-- The default bundle on a window of 3 × 3 cells. -/
def oddWindowParam : Param := { Param.default with windowDiameter := 3 }

/-- The default bundle on a window of 6 × 6 cells with a sector angle of 45°:
a histogram of 8 sectors. -/
def eightSectorParam : Param :=
  { Param.default with windowDiameter := 6, sectorAngle := DegreeToRadian 45 }

/-- The controller of `eightSectorParam` on the reference platform right after
`init`, holding the masked histogram in which the sectors 1, 2, 4 and 7 are
free and the sectors 0, 3, 5 and 6 are occupied. -/
def eightSectorState : VfhStar :=
  { init refPlatform (VfhStar.new eightSectorParam zeroObject) 0 with
    histogram := [1, 0, 0, 1, 0, 1, 1, 0] }
/-! ## Auxiliary notions for the proofs -/

/-- The members `update` never assigns: the object with every member that
`update` does assign blanked out. -/
def VfhStar.static (s : VfhStar) : VfhStar :=
  { s with
    desiredDirection := 0
    pickedDirection := 0
    lastUpdateTime := 0
    lastChosenLinearX := 0
    lastPickedDirection := 0
    cellMag := fun _ _ => 0
    cellSector := fun _ _ _ => []
    histogram := []
    lastBinaryHistogram := []
    goalDistance := 0
    goalDistanceTolerance := 0
    blockedCircleRadius := 0
    maxSpeedForPickedDirection := 0
    candidateAngle := []
    candidateSpeed := [] }

/-- The facts about the two histograms that hold between calls of `update`. -/
structure HistInv (s : VfhStar) : Prop where
  histogram_length : s.histogram.length = s.histogramSize.toNat
  last_length : s.lastBinaryHistogram.length = s.histogramSize.toNat
  last_binary : ∀ v ∈ s.lastBinaryHistogram, v = 0 ∨ v = 1

/-- The members the cell loops of `init` never assign: the object with the six
cell tables blanked out. -/
def VfhStar.untabled (s : VfhStar) : VfhStar :=
  { s with
    cellDirection := fun _ _ => 0
    cellBaseMag := fun _ _ => 0
    cellMag := fun _ _ => 0
    cellDistance := fun _ _ => 0
    cellEnlarge := fun _ _ => 0
    cellSector := fun _ _ _ => [] }

/-- The tick `t` reports a safety violation: the call of
`buildPrimaryPolarHistogram` in `update` returns `false`. -/
def safetyViolation (P : Platform) (s : VfhStar) (t : Tick) : Prop :=
  (buildPrimaryPolarHistogram P (updateInputs s t) t.laserRanges
    (poseSpeed (updateInputs s t) t.currentLinearX)).2 = false

instance (P : Platform) (s : VfhStar) (t : Tick) : Decidable (safetyViolation P s t) := by
  unfold safetyViolation; infer_instance

/-- The elapsed time `diffSeconds` of the tick `t`. -/
def Tick.diffSeconds (s : VfhStar) (t : Tick) : ℚ := t.now - s.lastUpdateTime

/-- The cost `selectCandidateAngle` computes for the candidate `ca` (the
variable `weight` of its loop). -/
def candidateCost (s : VfhStar) (ca : ℚ) : ℚ :=
  s.desiredDirectionWeight * |DeltaAngle s.desiredDirection ca|
    + s.currentDirectionWeight * |DeltaAngle s.lastPickedDirection ca|

/-- The object on which `update` calls `selectDirection` on a tick that reports
no safety violation: after the primary, binary and masked histogram steps. -/
def maskedState (P : Platform) (s : VfhStar) (t : Tick) : VfhStar :=
  buildMaskedPolarHistogram P
    (buildBinaryPolarHistogram P
      (buildPrimaryPolarHistogram P (updateInputs s t) t.laserRanges
        (poseSpeed (updateInputs s t) t.currentLinearX)).1
      (poseSpeed (updateInputs s t) t.currentLinearX))
    (poseSpeed (updateInputs s t) t.currentLinearX)

/-- The mapping the specification gives for `setMotion` (section 4.8, step 4),
in its own words: linear velocity ≤ 0 spins in place at `+mx`; a picked
direction in the open interval (3π/2, 2π) turns at `−mx`; one in [π, 3π/2)
turns at `+mx`; every other one takes the rounded forward-cone value clamped to
`±mx`.  The result is `(linearX, turnrate)`. -/
def setMotionSpec (s : VfhStar) (actualSpeed linearX : ℚ) : ℚ × ℚ :=
  let mx := getMaxTurnrate s actualSpeed
  if linearX ≤ 0 then (0, mx)
  else if TQCircle < s.pickedDirection ∧ s.pickedDirection < DPi then (linearX, -mx)
  else if M_PI ≤ s.pickedDirection ∧ s.pickedDirection < TQCircle then (linearX, mx)
  else
    (linearX,
      max (-mx) (min mx ((rint (((s.pickedDirection - HPi) / DegreeToRadian 75) * mx) : Int) : ℚ)))


/-- The border walk of `selectDirection`, started at the sector `start`: the
loop `for (i = start; i <= start + histogramSize; ++i)`. -/
def borderWalk (P : Platform) (s : VfhStar) (start : Nat) : Walk :=
  ((List.range (s.histogramSize.toNat + 1)).map (fun j => start + j)).foldl
    (walkStep P s) { newborder := (0, 0), left := true, border := [] }

/-- Sector `i`, taken modulo the size of the histogram `h`, is free: its bin
holds `0`. -/
def freeAt (h : List ℚ) (i : Nat) : Prop := h[i % h.length]? = some 0

instance (h : List ℚ) (i : Nat) : Decidable (freeAt h i) := by
  unfold freeAt; infer_instance

/-- Sector `i`, taken modulo the size of the histogram `h`, is occupied: its
bin holds `1`. -/
def occupiedAt (h : List ℚ) (i : Nat) : Prop := h[i % h.length]? = some 1

instance (h : List ℚ) (i : Nat) : Decidable (occupiedAt h i) := by
  unfold occupiedAt; infer_instance

/-- The sectors `a`, `a + 1`, …, `a + len − 1` (modulo the size) are a maximal
circular run of free sectors of the histogram `h`: there is at least one, all
of them are free, and neither the sector before the first nor the sector after
the last is free. -/
def isMaximalFreeRun (h : List ℚ) (a len : Nat) : Prop :=
  1 ≤ len ∧ (∀ j < len, freeAt h (a + j))
    ∧ ¬ freeAt h (a + h.length - 1) ∧ ¬ freeAt h (a + len)

instance (h : List ℚ) (a len : Nat) : Decidable (isMaximalFreeRun h a len) := by
  unfold isMaximalFreeRun; infer_instance

/-- The number of maximal circular runs of free sectors of the histogram `h`:
the pairs of a first sector `a` below the size and a number of sectors `len`
up to the size that make one. -/
def maximalFreeRuns (h : List ℚ) : Nat :=
  ((Finset.range h.length ×ˢ Finset.range (h.length + 1)).filter
    (fun p => isMaximalFreeRun h p.1 p.2)).card
/-! ## Basic facts -/

theorem DoubleCompare_neg_iff (a b : ℚ) : DoubleCompare a b < 0 ↔ a < b := by
  unfold DoubleCompare
  split_ifs with h1 h2
  · simp [h1]
  · simp [h1]
  · simp [h1]

theorem DoubleCompare_pos_iff (a b : ℚ) : DoubleCompare a b > 0 ↔ b < a := by
  unfold DoubleCompare
  split_ifs with h1 h2
  · simp; exact le_of_lt h1
  · simp [h2]
  · simp [h2]

theorem DoubleCompare_eq_zero_iff (a b : ℚ) : DoubleCompare a b = 0 ↔ a = b := by
  unfold DoubleCompare
  split_ifs with h1 h2
  · simp; exact ne_of_lt h1
  · simp; exact ne_of_gt h2
  · simp; exact le_antisymm (not_lt.mp h2) (not_lt.mp h1)

theorem DoubleCompare_nonpos_iff (a b : ℚ) : DoubleCompare a b ≤ 0 ↔ a ≤ b := by
  unfold DoubleCompare
  split_ifs with h1 h2
  · simp; exact le_of_lt h1
  · simp [h2]
  · simp; exact not_lt.mp h2

theorem DoubleCompare_nonneg_iff (a b : ℚ) : DoubleCompare a b ≥ 0 ↔ b ≤ a := by
  unfold DoubleCompare
  split_ifs with h1 h2
  · simp [h1]
  · simp; exact le_of_lt h2
  · simp; exact not_lt.mp h1

theorem M_PI_gt_three : (3 : ℚ) < M_PI := by norm_num [M_PI]

theorem M_PI_lt_four : M_PI < (4 : ℚ) := by norm_num [M_PI]

theorem M_PI_pos : (0 : ℚ) < M_PI := lt_trans (by norm_num) M_PI_gt_three

theorem NormalizeAnglePositive_zero : NormalizeAnglePositive 0 = 0 := by
  simp [NormalizeAnglePositive]

theorem NormalizeAngle_zero : NormalizeAngle 0 = 0 := by
  have h : ¬ M_PI < 0 := not_lt.mpr (le_of_lt M_PI_pos)
  simp [NormalizeAngle, NormalizeAnglePositive_zero, h]

/-- With `linearX` bound to `0`, `setMotion` takes its first branch and hands
`0` back in `linearX`. -/
theorem setMotion_zero_linearX (s : VfhStar) (actualSpeed turnrate : ℚ) :
    (setMotion s actualSpeed 0 turnrate).1 = 0 := by
  have h : DoubleCompare 0 0 ≤ 0 := (DoubleCompare_nonpos_iff 0 0).mpr le_rfl
  simp [setMotion, h]

/-- The angular output of `update` is `NormalizeAngle(0)`. -/
theorem update_chosenAngularZ_eq (P : Platform) (s : VfhStar) (t : Tick) :
    (update P s t).2.chosenAngularZ = 0 := by
  simp only [update, setMotion_zero_linearX, NormalizeAngle_zero]

theorem getMaxTurnrate_nonneg (s : VfhStar) (speed : ℚ) : 0 ≤ getMaxTurnrate s speed := by
  unfold getMaxTurnrate
  simp only [DoubleCompare_neg_iff]
  split_ifs with h
  · exact le_rfl
  · exact not_lt.mp h

/-! ## Frame facts: what the steps of `update` leave alone -/

theorem updateInputs_static (s : VfhStar) (t : Tick) :
    (updateInputs s t).static = s.static := rfl

theorem calculateCellsMagnitude_static (P : Platform) (s : VfhStar) (l : Scan) (v : ℚ) :
    (calculateCellsMagnitude P s l v).1.static = s.static := rfl

theorem buildPrimaryPolarHistogram_static (P : Platform) (s : VfhStar) (l : Scan) (v : ℚ) :
    (buildPrimaryPolarHistogram P s l v).1.static = s.static := by
  unfold buildPrimaryPolarHistogram
  simp only
  split <;> rfl

theorem buildBinaryPolarHistogram_static (P : Platform) (s : VfhStar) (v : ℚ) :
    (buildBinaryPolarHistogram P s v).static = s.static := rfl

theorem buildMaskedPolarHistogram_static (P : Platform) (s : VfhStar) (v : ℚ) :
    (buildMaskedPolarHistogram P s v).static = s.static := rfl

theorem selectCandidateAngle_static (s : VfhStar) :
    (selectCandidateAngle s).static = s.static := by
  unfold selectCandidateAngle
  split <;> rfl

theorem selectDirection_static (P : Platform) (s : VfhStar) :
    (selectDirection P s).static = s.static := by
  unfold selectDirection
  simp only
  split
  · rfl
  · rw [selectCandidateAngle_static]; rfl

theorem updateDirection_static (P : Platform) (s : VfhStar) (t : Tick) :
    (updateDirection P s t).static = s.static := by
  unfold updateDirection
  simp only
  split
  · exact (buildPrimaryPolarHistogram_static P _ _ _).trans (updateInputs_static s t)
  · rw [selectDirection_static, buildMaskedPolarHistogram_static,
      buildBinaryPolarHistogram_static, buildPrimaryPolarHistogram_static, updateInputs_static]

theorem update_static (P : Platform) (s : VfhStar) (t : Tick) :
    (update P s t).1.static = s.static :=
  updateDirection_static P s t

/-! ## Loops that assign every element of a vector in turn -/

theorem rd_natCast (P : Platform) (v : List ℚ) (x : Nat) :
    rd P v (x : Int) = v.getD x (P.wild x) := by
  simp [rd]

/-- A loop `for (x = 0; x < n; ++x) v[x] = F(x, v[x])`: the length is kept and
the element `i` becomes `F i v[i]` when `i < n`. -/
theorem foldl_set_range (P : Platform) (F : Nat → ℚ → ℚ) (l : List ℚ) (n : Nat) :
    ((List.range n).foldl (fun h x => h.set x (F x (rd P h x))) l).length = l.length
    ∧ ∀ i, ((List.range n).foldl (fun h x => h.set x (F x (rd P h x))) l)[i]?
        = (l[i]?).map (fun a => if i < n then F i a else a) := by
  induction n with
  | zero => simp
  | succ n ih =>
    obtain ⟨hlen, hget⟩ := ih
    rw [List.range_succ, List.foldl_append]
    simp only [List.foldl_cons, List.foldl_nil, List.length_set]
    refine ⟨hlen, fun i => ?_⟩
    rw [List.getElem?_set]
    by_cases hi : n = i
    · subst hi
      by_cases hl : n < l.length
      · have h1 : l[n]? = some l[n] := List.getElem?_eq_getElem hl
        have h2 := hget n
        rw [h1] at h2
        simp only [Option.map_some', lt_irrefl, if_false] at h2
        have h3 : rd P ((List.range n).foldl (fun h x => h.set x (F x (rd P h x))) l) (n : Int)
            = l[n] := by
          rw [rd_natCast, List.getD_eq_getElem?_getD, h2]; rfl
        simp only [if_true, hlen, hl, h1, Option.map_some', Nat.lt_succ_self, h3]
      · have h1 : l[n]? = none := List.getElem?_eq_none (not_lt.mp hl)
        simp [hlen, hl, h1]
    · rw [if_neg hi, hget i]
      have : (i < n + 1) = (i < n) := by
        apply propext
        constructor
        · intro h; omega
        · intro h; omega
      simp only [this]

/-! ## The binary histogram -/

theorem buildBinary_histogram_length (P : Platform) (s : VfhStar) (v : ℚ) :
    (buildBinaryPolarHistogram P s v).histogram.length = s.histogram.length :=
  (foldl_set_range P (fun x h => binaryValue s v h (rd P s.lastBinaryHistogram x))
    s.histogram s.histogramSize.toNat).1

theorem buildBinary_histogram_get (P : Platform) (s : VfhStar) (v : ℚ) (i : Nat) :
    (buildBinaryPolarHistogram P s v).histogram[i]?
      = (s.histogram[i]?).map (fun a =>
          if i < s.histogramSize.toNat then binaryValue s v a (rd P s.lastBinaryHistogram i)
          else a) :=
  (foldl_set_range P (fun x h => binaryValue s v h (rd P s.lastBinaryHistogram x))
    s.histogram s.histogramSize.toNat).2 i

theorem buildBinary_last_length (P : Platform) (s : VfhStar) (v : ℚ) :
    (buildBinaryPolarHistogram P s v).lastBinaryHistogram.length
      = s.lastBinaryHistogram.length :=
  (foldl_set_range P (fun x _ => rd P (buildBinaryPolarHistogram P s v).histogram x)
    s.lastBinaryHistogram s.histogramSize.toNat).1

theorem buildBinary_last_get (P : Platform) (s : VfhStar) (v : ℚ) (i : Nat) :
    (buildBinaryPolarHistogram P s v).lastBinaryHistogram[i]?
      = (s.lastBinaryHistogram[i]?).map (fun a =>
          if i < s.histogramSize.toNat then rd P (buildBinaryPolarHistogram P s v).histogram i
          else a) :=
  (foldl_set_range P (fun x _ => rd P (buildBinaryPolarHistogram P s v).histogram x)
    s.lastBinaryHistogram s.histogramSize.toNat).2 i

/-- Inside a histogram of `histogramSize` bins, the bin `i` of the binary
histogram follows the hysteresis rule, and the saved copy holds the same
value. -/
theorem buildBinary_bin (P : Platform) (s : VfhStar) (v : ℚ) (i : Nat)
    (hH : s.histogram.length = s.histogramSize.toNat)
    (hL : s.lastBinaryHistogram.length = s.histogramSize.toNat)
    (hi : i < s.histogramSize.toNat) :
    (buildBinaryPolarHistogram P s v).histogram[i]?
        = some (binaryValue s v (s.histogram.getD i 0) (s.lastBinaryHistogram.getD i 0))
    ∧ (buildBinaryPolarHistogram P s v).lastBinaryHistogram[i]?
        = some (binaryValue s v (s.histogram.getD i 0) (s.lastBinaryHistogram.getD i 0)) := by
  have hiH : i < s.histogram.length := hH ▸ hi
  have hiL : i < s.lastBinaryHistogram.length := hL ▸ hi
  have e1 : s.histogram[i]? = some s.histogram[i] := List.getElem?_eq_getElem hiH
  have e2 : s.lastBinaryHistogram[i]? = some s.lastBinaryHistogram[i] :=
    List.getElem?_eq_getElem hiL
  have r2 : rd P s.lastBinaryHistogram (i : Int) = s.lastBinaryHistogram[i] := by
    rw [rd_natCast, List.getD_eq_getElem?_getD, e2]; rfl
  have g1 : s.histogram.getD i 0 = s.histogram[i] := by
    rw [List.getD_eq_getElem?_getD, e1]; rfl
  have g2 : s.lastBinaryHistogram.getD i 0 = s.lastBinaryHistogram[i] := by
    rw [List.getD_eq_getElem?_getD, e2]; rfl
  have h1 : (buildBinaryPolarHistogram P s v).histogram[i]?
      = some (binaryValue s v s.histogram[i] s.lastBinaryHistogram[i]) := by
    rw [buildBinary_histogram_get, e1]
    simp only [Option.map_some', if_pos hi, r2]
  have r1 : rd P (buildBinaryPolarHistogram P s v).histogram (i : Int)
      = binaryValue s v s.histogram[i] s.lastBinaryHistogram[i] := by
    rw [rd_natCast, List.getD_eq_getElem?_getD, h1]; rfl
  refine ⟨by rw [h1, g1, g2], ?_⟩
  rw [buildBinary_last_get, e2]
  simp only [Option.map_some', if_pos hi, r1, g1, g2]

theorem binaryValue_cases (s : VfhStar) (v h p : ℚ) :
    binaryValue s v h p = 1 ∨ binaryValue s v h p = 0 ∨ binaryValue s v h p = p := by
  unfold binaryValue
  split_ifs <;> simp

theorem getD_mem_of_lt (l : List ℚ) (i : Nat) (h : i < l.length) : l.getD i 0 ∈ l := by
  rw [List.getD_eq_getElem?_getD, List.getElem?_eq_getElem h]
  exact List.getElem_mem h

/-- After `buildBinaryPolarHistogram` every entry of the histogram and of the
saved copy is `0` or `1`, when the saved copy held only `0` and `1` before. -/
theorem buildBinary_binary (P : Platform) (s : VfhStar) (v : ℚ)
    (hH : s.histogram.length = s.histogramSize.toNat)
    (hL : s.lastBinaryHistogram.length = s.histogramSize.toNat)
    (hB : ∀ a ∈ s.lastBinaryHistogram, a = 0 ∨ a = 1) :
    (∀ a ∈ (buildBinaryPolarHistogram P s v).histogram, a = 0 ∨ a = 1)
    ∧ (∀ a ∈ (buildBinaryPolarHistogram P s v).lastBinaryHistogram, a = 0 ∨ a = 1) := by
  have key : ∀ i, i < s.histogramSize.toNat →
      binaryValue s v (s.histogram.getD i 0) (s.lastBinaryHistogram.getD i 0) = 0
      ∨ binaryValue s v (s.histogram.getD i 0) (s.lastBinaryHistogram.getD i 0) = 1 := by
    intro i hi
    rcases binaryValue_cases s v (s.histogram.getD i 0) (s.lastBinaryHistogram.getD i 0)
      with h | h | h
    · exact Or.inr h
    · exact Or.inl h
    · rw [h]; exact hB _ (getD_mem_of_lt _ i (hL ▸ hi))
  constructor
  · intro a ha
    obtain ⟨i, hi, rfl⟩ := List.getElem_of_mem ha
    have hi' : i < s.histogramSize.toNat := by
      rw [buildBinary_histogram_length, hH] at hi; exact hi
    have := (buildBinary_bin P s v i hH hL hi').1
    rw [List.getElem?_eq_getElem hi] at this
    rw [Option.some.inj this]
    exact key i hi'
  · intro a ha
    obtain ⟨i, hi, rfl⟩ := List.getElem_of_mem ha
    have hi' : i < s.histogramSize.toNat := by
      rw [buildBinary_last_length, hL] at hi; exact hi
    have := (buildBinary_bin P s v i hH hL hi').2
    rw [List.getElem?_eq_getElem hi] at this
    rw [Option.some.inj this]
    exact key i hi'

/-! ## The histograms across `init` and `update` -/

theorem foldl_keep {α β γ : Type} (g : β → γ) (f : β → α → β)
    (h : ∀ b a, g (f b a) = g b) (l : List α) (b : β) : g (l.foldl f b) = g b := by
  induction l generalizing b with
  | nil => rfl
  | cons a l ih => rw [List.foldl_cons, ih, h]

theorem static_histogramSize {a b : VfhStar} (h : a.static = b.static) :
    a.histogramSize = b.histogramSize := by
  have e := congrArg VfhStar.histogramSize h
  exact e

theorem initCell_untabled (P : Platform) (acc : VfhStar × SectorVars) (x y : Nat) :
    (initCell P acc x y).1.untabled = acc.1.untabled := by
  unfold initCell
  simp only
  rw [foldl_keep (fun a : VfhStar × SectorVars => a.1.untabled) (initTable P x y)
    (fun _ _ => rfl)]
  rfl

theorem initLoops_untabled (P : Platform) (s : VfhStar) :
    (initLoops P s).1.untabled = s.untabled := by
  unfold initLoops
  exact foldl_keep (fun a : VfhStar × SectorVars => a.1.untabled) _
    (fun b x => foldl_keep (fun a : VfhStar × SectorVars => a.1.untabled) _
      (fun b y => initCell_untabled P b x y) _ b) _ _

theorem init_histInv (P : Platform) (s : VfhStar) (now : ℚ) : HistInv (init P s now) := by
  have h := initLoops_untabled P (initHead P s)
  have hh : (init P s now).histogram = (initHead P s).histogram := by
    have e := congrArg VfhStar.histogram h; exact e
  have hl : (init P s now).lastBinaryHistogram = (initHead P s).lastBinaryHistogram := by
    have e := congrArg VfhStar.lastBinaryHistogram h; exact e
  have hs : (init P s now).histogramSize = (initHead P s).histogramSize := by
    have e := congrArg VfhStar.histogramSize h; exact e
  refine ⟨?_, ?_, ?_⟩
  · rw [hh, hs]; simp [initHead, allocate, setCurrentMaxSpeed]
  · rw [hl, hs]; simp [initHead, allocate, setCurrentMaxSpeed]
  · rw [hl]
    intro v hv
    simp [initHead, allocate, setCurrentMaxSpeed] at hv
    exact Or.inr hv.2

theorem buildPrimary_last (P : Platform) (s : VfhStar) (l : Scan) (v : ℚ) :
    (buildPrimaryPolarHistogram P s l v).1.lastBinaryHistogram = s.lastBinaryHistogram := by
  unfold buildPrimaryPolarHistogram
  simp only
  split <;> rfl

theorem buildPrimary_histogram_length (P : Platform) (s : VfhStar) (l : Scan) (v : ℚ) :
    (buildPrimaryPolarHistogram P s l v).1.histogram.length = s.histogram.length := by
  unfold buildPrimaryPolarHistogram
  simp only
  split
  · simp [calculateCellsMagnitude]
  · simp [calculateCellsMagnitude]

theorem buildMasked_last (P : Platform) (s : VfhStar) (v : ℚ) :
    (buildMaskedPolarHistogram P s v).lastBinaryHistogram = s.lastBinaryHistogram := rfl

theorem buildMasked_histogram_length (P : Platform) (s : VfhStar) (v : ℚ) :
    (buildMaskedPolarHistogram P s v).histogram.length = s.histogram.length := by
  unfold buildMaskedPolarHistogram
  exact (foldl_set_range P _ s.histogram s.histogramSize.toNat).1

theorem selectCandidateAngle_hist (s : VfhStar) :
    (selectCandidateAngle s).histogram = s.histogram
    ∧ (selectCandidateAngle s).lastBinaryHistogram = s.lastBinaryHistogram := by
  unfold selectCandidateAngle
  split <;> exact ⟨rfl, rfl⟩

theorem selectDirection_hist (P : Platform) (s : VfhStar) :
    (selectDirection P s).histogram = s.histogram
    ∧ (selectDirection P s).lastBinaryHistogram = s.lastBinaryHistogram := by
  unfold selectDirection
  simp only
  split
  · exact ⟨rfl, rfl⟩
  · exact selectCandidateAngle_hist _

theorem buildPrimary_histInv (P : Platform) (s : VfhStar) (l : Scan) (v : ℚ)
    (h : HistInv s) : HistInv (buildPrimaryPolarHistogram P s l v).1 := by
  have hs : (buildPrimaryPolarHistogram P s l v).1.histogramSize = s.histogramSize :=
    static_histogramSize (buildPrimaryPolarHistogram_static P s l v)
  refine ⟨?_, ?_, ?_⟩
  · rw [buildPrimary_histogram_length, hs]; exact h.histogram_length
  · rw [buildPrimary_last, hs]; exact h.last_length
  · rw [buildPrimary_last]; exact h.last_binary

theorem buildBinary_histInv (P : Platform) (s : VfhStar) (v : ℚ) (h : HistInv s) :
    HistInv (buildBinaryPolarHistogram P s v) :=
  ⟨(buildBinary_histogram_length P s v).trans h.histogram_length,
   (buildBinary_last_length P s v).trans h.last_length,
   (buildBinary_binary P s v h.histogram_length h.last_length h.last_binary).2⟩

theorem buildMasked_histInv (P : Platform) (s : VfhStar) (v : ℚ) (h : HistInv s) :
    HistInv (buildMaskedPolarHistogram P s v) :=
  ⟨(buildMasked_histogram_length P s v).trans h.histogram_length, h.last_length, h.last_binary⟩

theorem selectDirection_histInv (P : Platform) (s : VfhStar) (h : HistInv s) :
    HistInv (selectDirection P s) := by
  have hs : (selectDirection P s).histogramSize = s.histogramSize :=
    static_histogramSize (selectDirection_static P s)
  obtain ⟨e1, e2⟩ := selectDirection_hist P s
  exact ⟨by rw [e1, hs]; exact h.histogram_length, by rw [e2, hs]; exact h.last_length,
    by rw [e2]; exact h.last_binary⟩

theorem updateDirection_histInv (P : Platform) (s : VfhStar) (t : Tick) (h : HistInv s) :
    HistInv (updateDirection P s t) := by
  have h0 : HistInv (updateInputs s t) := ⟨h.histogram_length, h.last_length, h.last_binary⟩
  unfold updateDirection
  simp only
  have hp := buildPrimary_histInv P (updateInputs s t) t.laserRanges
    (poseSpeed (updateInputs s t) t.currentLinearX) h0
  split
  · exact ⟨hp.histogram_length, hp.last_length, hp.last_binary⟩
  · exact selectDirection_histInv P _ (buildMasked_histInv P _ _ (buildBinary_histInv P _ _ hp))

theorem update_histInv (P : Platform) (s : VfhStar) (t : Tick) (h : HistInv s) :
    HistInv (update P s t).1 := by
  have h1 := updateDirection_histInv P s t h
  exact ⟨h1.histogram_length, h1.last_length, h1.last_binary⟩

theorem reachable_histInv (P : Platform) (param : Param) (s : VfhStar)
    (h : Reachable P param s) : HistInv s := by
  induction h with
  | init raw now => exact init_histInv P _ now
  | update s t _ ih => exact update_histInv P s t ih

/-! ## The linear command and the picked direction across `update` -/

theorem buildPrimary_memo (P : Platform) (s : VfhStar) (l : Scan) (v : ℚ) :
    (buildPrimaryPolarHistogram P s l v).1.lastChosenLinearX = s.lastChosenLinearX
    ∧ (buildPrimaryPolarHistogram P s l v).1.lastPickedDirection = s.lastPickedDirection := by
  unfold buildPrimaryPolarHistogram
  simp only
  split <;> exact ⟨rfl, rfl⟩

theorem buildBinary_lastChosenLinearX (P : Platform) (s : VfhStar) (v : ℚ) :
    (buildBinaryPolarHistogram P s v).lastChosenLinearX = s.lastChosenLinearX := rfl

theorem buildMasked_lastChosenLinearX (P : Platform) (s : VfhStar) (v : ℚ) :
    (buildMaskedPolarHistogram P s v).lastChosenLinearX = s.lastChosenLinearX := rfl

theorem selectCandidateAngle_lastChosenLinearX (s : VfhStar) :
    (selectCandidateAngle s).lastChosenLinearX = s.lastChosenLinearX := by
  unfold selectCandidateAngle
  split <;> rfl

theorem selectDirection_lastChosenLinearX (P : Platform) (s : VfhStar) :
    (selectDirection P s).lastChosenLinearX = s.lastChosenLinearX := by
  unfold selectDirection
  simp only
  split
  · rfl
  · exact selectCandidateAngle_lastChosenLinearX _

/-- The direction step of `update` on a tick that reports a safety violation. -/
theorem updateDirection_eq_of_violation (P : Platform) (s : VfhStar) (t : Tick)
    (h : safetyViolation P s t) :
    updateDirection P s t
      = { (buildPrimaryPolarHistogram P (updateInputs s t) t.laserRanges
            (poseSpeed (updateInputs s t) t.currentLinearX)).1 with
          pickedDirection := (buildPrimaryPolarHistogram P (updateInputs s t) t.laserRanges
            (poseSpeed (updateInputs s t) t.currentLinearX)).1.lastPickedDirection
          maxSpeedForPickedDirection := 0
          lastPickedDirection := (buildPrimaryPolarHistogram P (updateInputs s t) t.laserRanges
            (poseSpeed (updateInputs s t) t.currentLinearX)).1.lastPickedDirection } := by
  unfold safetyViolation at h
  unfold updateDirection
  exact if_pos h

/-- The direction step of `update` on a tick that reports no safety
violation. -/
theorem updateDirection_eq_of_safe (P : Platform) (s : VfhStar) (t : Tick)
    (h : ¬ safetyViolation P s t) :
    updateDirection P s t
      = selectDirection P
          (buildMaskedPolarHistogram P
            (buildBinaryPolarHistogram P
              (buildPrimaryPolarHistogram P (updateInputs s t) t.laserRanges
                (poseSpeed (updateInputs s t) t.currentLinearX)).1
              (poseSpeed (updateInputs s t) t.currentLinearX))
            (poseSpeed (updateInputs s t) t.currentLinearX)) := by
  unfold safetyViolation at h
  unfold updateDirection
  exact if_neg h

theorem updateDirection_lastChosenLinearX (P : Platform) (s : VfhStar) (t : Tick) :
    (updateDirection P s t).lastChosenLinearX = s.lastChosenLinearX := by
  by_cases h : safetyViolation P s t
  · rw [updateDirection_eq_of_violation P s t h]
    exact (buildPrimary_memo P (updateInputs s t) t.laserRanges
      (poseSpeed (updateInputs s t) t.currentLinearX)).1
  · rw [updateDirection_eq_of_safe P s t h, selectDirection_lastChosenLinearX,
      buildMasked_lastChosenLinearX, buildBinary_lastChosenLinearX,
      (buildPrimary_memo P (updateInputs s t) _ _).1]
    rfl

/-- On a tick that reports a safety violation the direction step of `update`
holds the last picked direction and sets the speed cap to `0`. -/
theorem updateDirection_of_violation (P : Platform) (s : VfhStar) (t : Tick)
    (h : safetyViolation P s t) :
    (updateDirection P s t).pickedDirection = s.lastPickedDirection
    ∧ (updateDirection P s t).lastPickedDirection = s.lastPickedDirection
    ∧ (updateDirection P s t).maxSpeedForPickedDirection = 0 := by
  rw [updateDirection_eq_of_violation P s t h]
  have e := (buildPrimary_memo P (updateInputs s t) t.laserRanges
    (poseSpeed (updateInputs s t) t.currentLinearX)).2
  exact ⟨e, e, rfl⟩

/-- The linear output of `update`: the last command plus the signed increment,
capped by the speed cap of the picked direction. -/
theorem update_chosenLinearX_eq (P : Platform) (s : VfhStar) (t : Tick) :
    (update P s t).2.chosenLinearX
      = min (s.lastChosenLinearX
          + speedIncrement (updateDirection P s t) (t.diffSeconds s)
              (cannotTurnToGoal P (updateDirection P s t)))
        (updateDirection P s t).maxSpeedForPickedDirection := by
  simp only [update, updateDirection_lastChosenLinearX, Tick.diffSeconds]

theorem update_fields (P : Platform) (s : VfhStar) (t : Tick) :
    (update P s t).1.pickedDirection = (updateDirection P s t).pickedDirection
    ∧ (update P s t).1.lastPickedDirection = (updateDirection P s t).lastPickedDirection
    ∧ (update P s t).1.maxSpeedForPickedDirection
        = (updateDirection P s t).maxSpeedForPickedDirection
    ∧ (update P s t).1.lastChosenLinearX = (update P s t).2.chosenLinearX :=
  ⟨rfl, rfl, rfl, rfl⟩

theorem static_maxAcceleration {a b : VfhStar} (h : a.static = b.static) :
    a.maxAcceleration = b.maxAcceleration := by
  have e := congrArg VfhStar.maxAcceleration h
  exact e

/-- The increment of `update` never exceeds the acceleration budget in size. -/
theorem speedIncrement_abs_le (s : VfhStar) (d : ℚ) (c : Bool)
    (hacc : 0 ≤ s.maxAcceleration) (h0 : 0 ≤ d) (h1 : d ≤ 3 / 10) :
    |speedIncrement s d c| ≤ s.maxAcceleration * d + 1 / 10000 := by
  have hprod : 0 ≤ s.maxAcceleration * d := mul_nonneg hacc h0
  have hcond : ¬ (d > 3 / 10 ∨ d < 0) := by
    intro h; rcases h with h | h
    · exact absurd h1 (not_le.mpr h)
    · exact absurd h0 (not_le.mpr h)
  unfold speedIncrement
  simp only [if_neg hcond, DoubleCompare_nonpos_iff, abs_of_nonneg hprod]
  split_ifs with h2 h3 h3 <;> rw [abs_le] <;> constructor <;> linarith

/-! ## Parameters in reachable states -/

theorem init_untabled (P : Platform) (s : VfhStar) (now : ℚ) :
    (init P s now).untabled = ({ initHead P s with lastUpdateTime := now } : VfhStar).untabled := by
  have h := initLoops_untabled P (initHead P s)
  unfold init
  exact congrArg (fun a : VfhStar => ({ a with lastUpdateTime := now } : VfhStar)) h

theorem init_turnrates (P : Platform) (param : Param) (raw : VfhStar) (now : ℚ) :
    (init P (VfhStar.new param raw) now).zeroMaxTurnrate = param.zeroMaxTurnrate
    ∧ (init P (VfhStar.new param raw) now).maxMaxTurnrate = param.maxMaxTurnrate := by
  have h := init_untabled P (VfhStar.new param raw) now
  have e1 := congrArg VfhStar.zeroMaxTurnrate h
  have e2 := congrArg VfhStar.maxMaxTurnrate h
  exact ⟨e1, e2⟩

theorem reachable_turnrates (P : Platform) (param : Param) (s : VfhStar)
    (h : Reachable P param s) :
    s.zeroMaxTurnrate = param.zeroMaxTurnrate ∧ s.maxMaxTurnrate = param.maxMaxTurnrate := by
  induction h with
  | init raw now => exact init_turnrates P param raw now
  | update s t _ ih =>
    have h := update_static P s t
    have e1 := congrArg VfhStar.zeroMaxTurnrate h
    have e2 := congrArg VfhStar.maxMaxTurnrate h
    exact ⟨e1.trans ih.1, e2.trans ih.2⟩

theorem getMaxTurnrate_zero (s : VfhStar) (h : 0 ≤ s.zeroMaxTurnrate) :
    getMaxTurnrate s 0 = s.zeroMaxTurnrate := by
  unfold getMaxTurnrate
  simp only [zero_mul, sub_zero, DoubleCompare_neg_iff, if_neg (not_lt.mpr h)]

theorem DegreeToRadian_pos (d : ℚ) (h : 0 < d) : 0 < DegreeToRadian d := by
  unfold DegreeToRadian
  exact div_pos (mul_pos h M_PI_pos) (by norm_num)

theorem updateDirection_maxAcceleration (P : Platform) (s : VfhStar) (t : Tick) :
    (updateDirection P s t).maxAcceleration = s.maxAcceleration :=
  static_maxAcceleration (updateDirection_static P s t)

/-- When no safety violation is found, `buildPrimaryPolarHistogram` returns the
histogram as its first `std::fill` left it: every bin `0`. -/
theorem buildPrimary_histogram_of_safe (P : Platform) (s : VfhStar) (l : Scan) (v : ℚ)
    (h : (buildPrimaryPolarHistogram P s l v).2 = true) :
    (buildPrimaryPolarHistogram P s l v).1.histogram = s.histogram.map (fun _ => 0) := by
  unfold buildPrimaryPolarHistogram at h ⊢
  simp only at h ⊢
  split
  · rename_i hc
    rw [if_pos hc] at h
    exact absurd h (by simp)
  · simp [calculateCellsMagnitude]

/-! ## The safety check of `calculateCellsMagnitude` -/

theorem mem_cellsXY (nx ny x y : Nat) : (x, y) ∈ cellsXY nx ny ↔ x < nx ∧ y < ny := by
  simp [cellsXY, List.mem_flatMap]

theorem mem_cellsYX (ny nx x y : Nat) : (x, y) ∈ cellsYX ny nx ↔ x < nx ∧ y < ny := by
  simp only [cellsYX, List.mem_flatMap, List.mem_map, List.mem_range, Prod.mk.injEq]
  constructor
  · rintro ⟨b, hb, a, ha, rfl, rfl⟩
    exact ⟨ha, hb⟩
  · rintro ⟨hx, hy⟩
    exact ⟨y, hy, x, hx, rfl, rfl⟩

/-- The loop of `calculateCellsMagnitude` returns `true` exactly when no cell
it visits is both hit and unsafe. -/
theorem cellsMagnitudeLoop_true_iff (P : Platform) (s : VfhStar) (l : Scan) (r : ℚ)
    (cells : List (Nat × Nat)) (mag : Nat → Nat → ℚ) :
    (cellsMagnitudeLoop P s l r cells mag).2 = true
      ↔ ∀ c ∈ cells, ¬ (cellHit P s l c.1 c.2 ∧ cellUnsafe s r c.1 c.2) := by
  induction cells generalizing mag with
  | nil => simp [cellsMagnitudeLoop]
  | cons c rest ih =>
    obtain ⟨x, y⟩ := c
    unfold cellsMagnitudeLoop
    by_cases hh : cellHit P s l x y
    · by_cases hu : cellUnsafe s r x y
      · simp only [if_pos hh, if_pos hu]
        constructor
        · intro h; exact absurd h (by simp)
        · intro h; exact absurd ⟨hh, hu⟩ (h (x, y) (List.mem_cons_self _ _))
      · simp only [if_pos hh, if_neg hu, ih]
        constructor
        · intro h c hc
          rcases List.mem_cons.mp hc with rfl | hc
          · exact fun hcu => hu hcu.2
          · exact h c hc
        · intro h c hc; exact h c (List.mem_cons_of_mem _ hc)
    · simp only [if_neg hh, ih]
      constructor
      · intro h c hc
        rcases List.mem_cons.mp hc with rfl | hc
        · exact fun hcu => hh hcu.1
        · exact h c hc
      · intro h c hc; exact h c (List.mem_cons_of_mem _ hc)

/-- `calculateCellsMagnitude` returns `true` exactly when no cell of the forward
half-grid is both hit and inside the safety distance. -/
theorem calculateCellsMagnitude_true_iff (P : Platform) (s : VfhStar) (l : Scan) (v : ℚ) :
    (calculateCellsMagnitude P s l v).2 = true
      ↔ ∀ x y : Nat, x < s.windowDiameter.toNat → y < (⌈(s.windowDiameter : ℚ) / 2⌉).toNat →
          ¬ (cellHit P s l x y
              ∧ cellUnsafe s (s.robotRadius + (getSafetyDistance s v : ℚ)) x y) := by
  unfold calculateCellsMagnitude
  simp only [cellsMagnitudeLoop_true_iff]
  constructor
  · intro h x y hx hy
    exact h (x, y) ((mem_cellsXY _ _ x y).mpr ⟨hx, hy⟩)
  · intro h c hc
    obtain ⟨x, y⟩ := c
    obtain ⟨hx, hy⟩ := (mem_cellsXY _ _ x y).mp hc
    exact h x y hx hy

/-- The flag `buildPrimaryPolarHistogram` returns is the flag of
`calculateCellsMagnitude`. -/
theorem buildPrimary_flag (P : Platform) (s : VfhStar) (l : Scan) (v : ℚ) :
    (buildPrimaryPolarHistogram P s l v).2
      = (calculateCellsMagnitude P { s with histogram := s.histogram.map (fun _ => 0) } l v).2 := by
  unfold buildPrimaryPolarHistogram
  simp only
  split
  · rename_i h
    simp only [Bool.not_eq_true'] at h
    rw [h]
  · rename_i h
    simp only [Bool.not_eq_true', Bool.not_eq_false] at h
    rw [h]

/-- `buildPrimaryPolarHistogram` reports no safety violation exactly when no
cell of the forward half-grid is both hit and inside the safety distance. -/
theorem buildPrimary_true_iff (P : Platform) (s : VfhStar) (l : Scan) (v : ℚ) :
    (buildPrimaryPolarHistogram P s l v).2 = true
      ↔ ∀ x y : Nat, x < s.windowDiameter.toNat → y < (⌈(s.windowDiameter : ℚ) / 2⌉).toNat →
          ¬ (cellHit P s l x y
              ∧ cellUnsafe s (s.robotRadius + (getSafetyDistance s v : ℚ)) x y) := by
  rw [buildPrimary_flag, calculateCellsMagnitude_true_iff]
  exact Iff.rfl

/-! ## The cell loops of `init` -/

/-- An inner loop `for (y = 0; y < ny; ++y)` whose body assigns the entry
`(x, y)` of a table from the old entry. -/
theorem foldl_row_get {β : Type} (g : β → Nat → Nat → ℚ) (step : β → Nat → Nat → β)
    (I : β → Prop) (V : Nat → Nat → ℚ → ℚ)
    (hI : ∀ b x y, I b → I (step b x y))
    (hg : ∀ b x y a c, I b →
      g (step b x y) a c = if a = x ∧ c = y then V x y (g b x y) else g b a c)
    (x ny : Nat) (b : β) (hb : I b) :
    I ((List.range ny).foldl (fun acc y => step acc x y) b)
    ∧ ∀ a c, g ((List.range ny).foldl (fun acc y => step acc x y) b) a c
        = if a = x ∧ c < ny then V a c (g b a c) else g b a c := by
  induction ny with
  | zero => simp [hb]
  | succ n ih =>
    obtain ⟨ihI, ihg⟩ := ih
    rw [List.range_succ, List.foldl_append]
    simp only [List.foldl_cons, List.foldl_nil]
    refine ⟨hI _ _ _ ihI, fun a c => ?_⟩
    rw [hg _ _ _ _ _ ihI, ihg, ihg]
    by_cases ha : a = x
    · subst ha
      by_cases hc : c = n
      · subst hc
        simp
      · have h1 : (c < n + 1) ↔ (c < n) := by omega
        simp [hc, h1]
    · simp [ha]

/-- The two cell loops `for x < nx`, `for y < ny` whose body assigns the entry
`(x, y)` of a table from the old entry. -/
theorem foldl_cells_get {β : Type} (g : β → Nat → Nat → ℚ) (step : β → Nat → Nat → β)
    (I : β → Prop) (V : Nat → Nat → ℚ → ℚ)
    (hI : ∀ b x y, I b → I (step b x y))
    (hg : ∀ b x y a c, I b →
      g (step b x y) a c = if a = x ∧ c = y then V x y (g b x y) else g b a c)
    (nx ny : Nat) (b : β) (hb : I b) :
    I ((List.range nx).foldl
        (fun acc x => (List.range ny).foldl (fun acc y => step acc x y) acc) b)
    ∧ ∀ a c, g ((List.range nx).foldl
          (fun acc x => (List.range ny).foldl (fun acc y => step acc x y) acc) b) a c
        = if a < nx ∧ c < ny then V a c (g b a c) else g b a c := by
  induction nx with
  | zero => simp [hb]
  | succ n ih =>
    obtain ⟨ihI, ihg⟩ := ih
    rw [List.range_succ, List.foldl_append]
    simp only [List.foldl_cons, List.foldl_nil]
    obtain ⟨rI, rg⟩ := foldl_row_get g step I V hI hg n ny _ ihI
    refine ⟨rI, fun a c => ?_⟩
    rw [rg, ihg]
    by_cases ha : a = n
    · subst ha
      by_cases hc : c < ny
      · simp [hc]
      · simp [hc]
    · have h1 : (a < n + 1) ↔ (a < n) := by omega
      simp [ha, h1]

theorem initCell_cellDirection (P : Platform) (acc : VfhStar × SectorVars) (x y a c : Nat) :
    (initCell P acc x y).1.cellDirection a c
      = if a = x ∧ c = y then
          initDirection P acc.1.centerX acc.1.centerY x y (acc.1.cellDirection x y)
        else acc.1.cellDirection a c := by
  unfold initCell
  simp only
  rw [foldl_keep (fun r : VfhStar × SectorVars => r.1.cellDirection) (initTable P x y)
    (fun _ _ => rfl)]
  rfl

theorem untabled_center {a b : VfhStar} (h : a.untabled = b.untabled) :
    a.centerX = b.centerX ∧ a.centerY = b.centerY := by
  have e1 := congrArg VfhStar.centerX h
  have e2 := congrArg VfhStar.centerY h
  exact ⟨e1, e2⟩

/-- After the cell loops of `init` the entry `(a, c)` of `cellDirection` inside
the window is the direction computed for that cell. -/
theorem initLoops_cellDirection (P : Platform) (s : VfhStar) (a c : Nat) :
    (initLoops P s).1.cellDirection a c
      = if a < s.windowDiameter.toNat ∧ c < s.windowDiameter.toNat then
          initDirection P s.centerX s.centerY a c (s.cellDirection a c)
        else s.cellDirection a c := by
  unfold initLoops
  exact (foldl_cells_get (fun r : VfhStar × SectorVars => r.1.cellDirection)
    (fun r x y => initCell P r x y)
    (fun r => r.1.untabled = s.untabled)
    (fun x y old => initDirection P s.centerX s.centerY x y old)
    (fun b x y hb => (initCell_untabled P b x y).trans hb)
    (fun b x y a c hb => by
      have hb' : b.1.untabled = s.untabled := hb
      show (initCell P b x y).1.cellDirection a c = _
      rw [initCell_cellDirection, (untabled_center hb').1, (untabled_center hb').2])
    s.windowDiameter.toNat s.windowDiameter.toNat (s, SectorVars.zero) rfl).2 a c

/-- The table `cellDirection` right after `init`. -/
theorem init_cellDirection (P : Platform) (s : VfhStar) (now : ℚ) (a c : Nat)
    (ha : a < s.windowDiameter.toNat) (hc : c < s.windowDiameter.toNat) :
    (init P s now).cellDirection a c
      = initDirection P ⌊(s.windowDiameter : ℚ) / 2⌋ ⌊(s.windowDiameter : ℚ) / 2⌋ a c 0 := by
  have h := initLoops_cellDirection P (initHead P s) a c
  have hw : (initHead P s).windowDiameter = s.windowDiameter := rfl
  rw [hw, if_pos ⟨ha, hc⟩] at h
  exact h

/-! ## Rounding -/

theorem rint_ge_floor (q : ℚ) : ⌊q⌋ ≤ rint q := by
  unfold rint
  split_ifs <;> omega

theorem rint_le_floor_succ (q : ℚ) : rint q ≤ ⌊q⌋ + 1 := by
  unfold rint
  split_ifs <;> omega

theorem rint_nonneg (q : ℚ) (h : 0 ≤ q) : 0 ≤ rint q :=
  le_trans (Int.floor_nonneg.mpr h) (rint_ge_floor q)

theorem rint_le_of_lt (q : ℚ) (n : Int) (h : q < (n : ℚ)) : rint q ≤ n := by
  have h1 : ⌊q⌋ < n := Int.floor_lt.mpr h
  have h2 := rint_le_floor_succ q
  omega

theorem toInt_eq_zero (q : ℚ) (h0 : 0 ≤ q) (h1 : q < 1) : toInt q = 0 := by
  unfold toInt
  rw [if_pos h0]
  exact Int.floor_eq_iff.mpr ⟨by simpa using h0, by simpa using h1⟩

/-! ## The default controller right after `init` -/

theorem init_fields (P : Platform) (param : Param) (raw : VfhStar) (now : ℚ) :
    (init P (VfhStar.new param raw) now).windowDiameter = param.windowDiameter
    ∧ (init P (VfhStar.new param raw) now).centerX = ⌊(param.windowDiameter : ℚ) / 2⌋
    ∧ (init P (VfhStar.new param raw) now).centerY = ⌊(param.windowDiameter : ℚ) / 2⌋
    ∧ (init P (VfhStar.new param raw) now).cellWidth = param.cellWidth
    ∧ (init P (VfhStar.new param raw) now).robotRadius = param.robotRadius
    ∧ (init P (VfhStar.new param raw) now).zeroSafetyDistance = param.zeroSafetyDistance
    ∧ (init P (VfhStar.new param raw) now).maxSafetyDistance = param.maxSafetyDistance := by
  have h := init_untabled P (VfhStar.new param raw) now
  have e1 := congrArg VfhStar.windowDiameter h
  have e2 := congrArg VfhStar.centerX h
  have e3 := congrArg VfhStar.centerY h
  have e4 := congrArg VfhStar.cellWidth h
  have e5 := congrArg VfhStar.robotRadius h
  have e6 := congrArg VfhStar.zeroSafetyDistance h
  have e7 := congrArg VfhStar.maxSafetyDistance h
  exact ⟨e1, e2, e3, e4, e5, e6, e7⟩

theorem floor_sixty_half : (⌊((60 : Int) : ℚ) / 2⌋ : Int) = 30 := by
  rw [Int.floor_eq_iff]; norm_num

theorem ceil_sixty_half : (⌈((60 : Int) : ℚ) / 2⌉ : Int) = 30 := by
  rw [Int.ceil_eq_iff]; norm_num

theorem init_default_fields (P : Platform) (raw : VfhStar) (now : ℚ) :
    (init P (VfhStar.new Param.default raw) now).windowDiameter = 60
    ∧ (init P (VfhStar.new Param.default raw) now).centerX = 30
    ∧ (init P (VfhStar.new Param.default raw) now).centerY = 30
    ∧ (init P (VfhStar.new Param.default raw) now).cellWidth = 1 / 10
    ∧ (init P (VfhStar.new Param.default raw) now).robotRadius = 2 / 10
    ∧ (init P (VfhStar.new Param.default raw) now).zeroSafetyDistance = 1 / 100
    ∧ (init P (VfhStar.new Param.default raw) now).maxSafetyDistance = 3 / 10 := by
  obtain ⟨e1, e2, e3, e4, e5, e6, e7⟩ := init_fields P Param.default raw now
  have hw : Param.default.windowDiameter = 60 := rfl
  rw [hw] at e1 e2 e3
  exact ⟨e1, e2.trans floor_sixty_half, e3.trans floor_sixty_half, e4, e5, e6, e7⟩

/-- Under the default parameters the safety distance is `0` at every speed in
`[0, maxSpeed]`: the `int` return type truncates it. -/
theorem getSafetyDistance_default (s : VfhStar) (v : ℚ)
    (hz : s.zeroSafetyDistance = 1 / 100) (hm : s.maxSafetyDistance = 3 / 10)
    (h0 : 0 ≤ v) (h1 : v ≤ 4 / 10) : getSafetyDistance s v = 0 := by
  unfold getSafetyDistance
  simp only [hz, hm, DoubleCompare_neg_iff]
  have hd : ¬ (1 / 100 + v * (3 / 10 - 1 / 100) < (0 : ℚ)) := by
    intro h; nlinarith
  rw [if_neg hd]
  exact toInt_eq_zero _ (by nlinarith) (by nlinarith)

/-- Every direction `init` computes for a cell in front of the centre row lies
in `[0, M_PI]`, for an `atan2` that maps the first quadrant into `[0, π/2]`. -/
theorem initDirection_front_bounds (P : Platform)
    (hatan : ∀ a b : ℚ, 0 < a → 0 < b → 0 ≤ P.atan2 a b ∧ P.atan2 a b ≤ HPi)
    (cx cy : Int) (x y : Nat) (hy : (y : Int) < cy) (old : ℚ) :
    0 ≤ initDirection P cx cy x y old ∧ initDirection P cx cy x y old ≤ M_PI := by
  have hpi := M_PI_pos
  have hyq : (0 : ℚ) < ((cy - (y : Int) : Int) : ℚ) := by
    have : (0 : Int) < cy - (y : Int) := by omega
    exact_mod_cast this
  unfold initDirection
  rw [if_pos hy, if_pos hy, if_pos hy]
  by_cases h1 : (x : Int) < cx
  · rw [if_pos h1]
    have hxq : (0 : ℚ) < ((cx - (x : Int) : Int) : ℚ) := by
      have : (0 : Int) < cx - (x : Int) := by omega
      exact_mod_cast this
    obtain ⟨ha, hb⟩ := hatan _ _ hyq hxq
    unfold HPi at hb
    constructor <;> linarith
  · rw [if_neg h1]
    by_cases h2 : (x : Int) = cx
    · rw [if_pos h2]
      constructor <;> linarith
    · rw [if_neg h2]
      have h3 : (x : Int) > cx := by omega
      rw [if_pos h3]
      have hxq : (0 : ℚ) < (((x : Int) - cx : Int) : ℚ) := by
        have : (0 : Int) < (x : Int) - cx := by omega
        exact_mod_cast this
      obtain ⟨ha, hb⟩ := hatan _ _ hyq hxq
      unfold HPi at hb
      constructor <;> linarith

/-- The scan `aheadScan` reads 10 m at every index from `0` to `7`. -/
theorem rdScan_aheadScan (P : Platform) (idx : Int) (h0 : 0 ≤ idx) (h1 : idx ≤ 7) :
    rdScan P aheadScan idx = 10 := by
  have hlt : idx.toNat < 361 := by omega
  unfold rdScan
  rw [dif_pos ⟨h0, hlt⟩]
  unfold aheadScan
  have hne : ¬ (idx.toNat = 180) := by omega
  simp only [hne, if_false]

/-- The `atan2` of the reference platform maps the first quadrant into
`[0, π/2]`. -/
theorem refPlatform_atan2_range (a b : ℚ) (ha : 0 < a) (hb : 0 < b) :
    0 ≤ refPlatform.atan2 a b ∧ refPlatform.atan2 a b ≤ HPi := by
  have hH : (0 : ℚ) ≤ HPi := by unfold HPi; linarith [M_PI_pos]
  show 0 ≤ refAtan2 a b ∧ refAtan2 a b ≤ HPi
  unfold refAtan2
  rw [if_pos hb, if_pos (le_of_lt ha)]
  unfold refAtanPos
  exact ⟨le_min hH (le_max_left _ _), min_le_left _ _⟩

/-- With `cannotTurnToGoal()` answering `true` the increment of `update` is
negative. -/
theorem speedIncrement_neg (s : VfhStar) (d : ℚ) (hacc : 0 ≤ s.maxAcceleration) :
    speedIncrement s d true < 0 := by
  unfold speedIncrement
  simp only [DoubleCompare_nonpos_iff, if_true]
  by_cases hc : d > 3 / 10 ∨ d < 0
  · rw [if_pos hc]
    have h1 : ¬ (|(1 / 100 : ℚ)| ≤ 1 / 10000) := by
      rw [abs_of_nonneg (by norm_num : (0 : ℚ) ≤ 1 / 100)]; norm_num
    rw [if_neg h1]; norm_num
  · rw [if_neg hc]
    have hd : 0 ≤ d := by
      by_contra h
      exact hc (Or.inr (not_le.mp h))
    have hprod : 0 ≤ s.maxAcceleration * d := mul_nonneg hacc hd
    by_cases h2 : |s.maxAcceleration * d| ≤ 1 / 10000
    · rw [if_pos h2]; norm_num
    · rw [if_neg h2]
      rw [abs_of_nonneg hprod] at h2
      have : (0 : ℚ) < s.maxAcceleration * d := by
        have := not_le.mp h2
        linarith
      linarith

/-- Whenever `cannotTurnToGoal()` holds while the last command is not positive,
`update` returns a negative linear command: nothing clamps it at `0`. -/
theorem update_negative_of_cannotTurn (P : Platform) (s : VfhStar) (t : Tick)
    (hacc : 0 ≤ s.maxAcceleration)
    (hc : cannotTurnToGoal P (updateDirection P s t) = true)
    (hl : s.lastChosenLinearX ≤ 0) :
    (update P s t).2.chosenLinearX < 0 := by
  rw [update_chosenLinearX_eq, hc]
  have h := speedIncrement_neg (updateDirection P s t) (t.diffSeconds s)
    (by rw [updateDirection_maxAcceleration]; exact hacc)
  exact lt_of_le_of_lt (min_le_left _ _) (by linarith)

/-- On a tick that reports a safety violation the linear command of `update` is
the smaller of `0` and the last command plus the signed increment. -/
theorem update_chosenLinearX_of_violation (P : Platform) (s : VfhStar) (t : Tick)
    (h : safetyViolation P s t) :
    (update P s t).2.chosenLinearX
      = min (s.lastChosenLinearX
          + speedIncrement (updateDirection P s t) (t.diffSeconds s)
              (cannotTurnToGoal P (updateDirection P s t))) 0 := by
  rw [update_chosenLinearX_eq, (updateDirection_of_violation P s t h).2.2]

/-! ## The table `cellDistance` and a boxed-in robot under the default parameters -/

theorem initCell_cellDistance (P : Platform) (acc : VfhStar × SectorVars) (x y a c : Nat) :
    (initCell P acc x y).1.cellDistance a c
      = if a = x ∧ c = y then
          P.sqrt ((((acc.1.centerX - (x : Int) : Int) : ℚ)) ^ 2
              + (((acc.1.centerY - (y : Int) : Int) : ℚ)) ^ 2) * acc.1.cellWidth
        else acc.1.cellDistance a c := by
  unfold initCell
  simp only
  rw [foldl_keep (fun r : VfhStar × SectorVars => r.1.cellDistance) (initTable P x y)
    (fun _ _ => rfl)]
  rfl

theorem untabled_cellWidth {a b : VfhStar} (h : a.untabled = b.untabled) :
    a.cellWidth = b.cellWidth := by
  have e := congrArg VfhStar.cellWidth h
  exact e

/-- After the cell loops of `init` the entry `(a, c)` of `cellDistance` inside
the window is the distance of the cell from the centre. -/
theorem initLoops_cellDistance (P : Platform) (s : VfhStar) (a c : Nat) :
    (initLoops P s).1.cellDistance a c
      = if a < s.windowDiameter.toNat ∧ c < s.windowDiameter.toNat then
          P.sqrt ((((s.centerX - (a : Int) : Int) : ℚ)) ^ 2
              + (((s.centerY - (c : Int) : Int) : ℚ)) ^ 2) * s.cellWidth
        else s.cellDistance a c := by
  unfold initLoops
  exact (foldl_cells_get (fun r : VfhStar × SectorVars => r.1.cellDistance)
    (fun r x y => initCell P r x y)
    (fun r => r.1.untabled = s.untabled)
    (fun x y _ => P.sqrt ((((s.centerX - (x : Int) : Int) : ℚ)) ^ 2
              + (((s.centerY - (y : Int) : Int) : ℚ)) ^ 2) * s.cellWidth)
    (fun b x y hb => (initCell_untabled P b x y).trans hb)
    (fun b x y a c hb => by
      have hb' : b.1.untabled = s.untabled := hb
      show (initCell P b x y).1.cellDistance a c = _
      rw [initCell_cellDistance, (untabled_center hb').1, (untabled_center hb').2,
        untabled_cellWidth hb'])
    s.windowDiameter.toNat s.windowDiameter.toNat (s, SectorVars.zero) rfl).2 a c

/-- The table `cellDistance` right after `init`. -/
theorem init_cellDistance (P : Platform) (s : VfhStar) (now : ℚ) (a c : Nat)
    (ha : a < s.windowDiameter.toNat) (hc : c < s.windowDiameter.toNat) :
    (init P s now).cellDistance a c
      = P.sqrt ((((⌊(s.windowDiameter : ℚ) / 2⌋ - (a : Int) : Int) : ℚ)) ^ 2
          + (((⌊(s.windowDiameter : ℚ) / 2⌋ - (c : Int) : Int) : ℚ)) ^ 2) * s.cellWidth := by
  have h := initLoops_cellDistance P (initHead P s) a c
  have hw : (initHead P s).windowDiameter = s.windowDiameter := rfl
  rw [hw, if_pos ⟨ha, hc⟩] at h
  exact h

theorem rdScan_constScan (P : Platform) (d : ℚ) (idx : Int) (h0 : 0 ≤ idx) (h1 : idx ≤ 7) :
    rdScan P (constScan d) idx = d := by
  have hlt : idx.toNat < 361 := by omega
  unfold rdScan
  rw [dif_pos ⟨h0, hlt⟩]
  rfl

/-- A tick on which every ray reads 5 cm reports a safety violation in every
object at rest whose window has 60 cells, whose tables hold the default
geometry at the cell `(29, 29)` and whose safety parameters are the default
ones: that cell, one cell diagonally in front of the centre, is hit inside the
robot radius. -/
theorem boxed_violation_of_tables (P : Platform) (s : VfhStar)
    (hsqrt : 0 < P.sqrt 2 ∧ P.sqrt 2 < 2)
    (hw : s.windowDiameter = 60) (hcx : s.centerX = 30)
    (hcw : s.cellWidth = 1 / 10) (hrr : s.robotRadius = 2 / 10)
    (hz : s.zeroSafetyDistance = 1 / 100) (hm : s.maxSafetyDistance = 3 / 10)
    (hl : s.lastChosenLinearX = 0)
    (hdir0 : 0 ≤ s.cellDirection 29 29) (hdir1 : s.cellDirection 29 29 ≤ M_PI)
    (hdist : s.cellDistance 29 29 = P.sqrt 2 * (1 / 10)) :
    safetyViolation P s boxedTick := by
  unfold safetyViolation
  by_contra hne
  have htrue := (Bool.not_eq_false _).mp hne
  have hw' : (updateInputs s boxedTick).windowDiameter = 60 := hw
  have hall := (buildPrimary_true_iff P _ _ _).mp htrue 29 29
    (by rw [hw']; decide) (by rw [hw', ceil_sixty_half]; decide)
  apply hall
  have i0 : 0 ≤ rint (s.cellDirection 29 29 * 2) := rint_nonneg _ (by linarith)
  have i1 : rint (s.cellDirection 29 29 * 2) ≤ 7 := by
    apply rint_le_of_lt
    push_cast
    have h35 : M_PI < 7 / 2 := by norm_num [M_PI]
    linarith
  constructor
  · show DoubleCompare (s.cellDistance 29 29 + s.cellWidth / 2)
      (rdScan P (constScan (1 / 20)) (rint (s.cellDirection 29 29 * 2))) > 0
    rw [rdScan_constScan P _ _ i0 i1, DoubleCompare_pos_iff, hdist, hcw]
    linarith [hsqrt.1]
  · have hs0 : poseSpeed (updateInputs s boxedTick) boxedTick.currentLinearX = 0 := by
      show poseSpeed s 0 = 0
      unfold poseSpeed
      simp [DoubleCompare_neg_iff, hl]
    rw [hs0]
    have hsd : getSafetyDistance (updateInputs s boxedTick) 0 = 0 :=
      getSafetyDistance_default _ 0 hz hm le_rfl (by norm_num)
    show DoubleCompare (s.cellDistance 29 29)
        (s.robotRadius + ((getSafetyDistance (updateInputs s boxedTick) 0 : Int) : ℚ)) < 0
      ∧ ¬ (((29 : Nat) : Int) = s.centerX ∧ ((29 : Nat) : Int) = s.centerY)
    rw [hsd, DoubleCompare_neg_iff, hdist, hrr, hcx]
    constructor
    · push_cast; linarith [hsqrt.2]
    · intro h; exact absurd h.1 (by decide)

theorem init_lastChosenLinearX (P : Platform) (param : Param) (raw : VfhStar) (now : ℚ) :
    (init P (VfhStar.new param raw) now).lastChosenLinearX = 0 := by
  have h := init_untabled P (VfhStar.new param raw) now
  have e := congrArg VfhStar.lastChosenLinearX h
  exact e

/-- Under the default parameters, right after `init`, the tick on which every
ray reads 5 cm reports a safety violation. -/
theorem default_boxed_violation (P : Platform) (raw : VfhStar) (now : ℚ)
    (hatan : ∀ a b : ℚ, 0 < a → 0 < b → 0 ≤ P.atan2 a b ∧ P.atan2 a b ≤ HPi)
    (hsqrt : 0 < P.sqrt 2 ∧ P.sqrt 2 < 2) :
    safetyViolation P (init P (VfhStar.new Param.default raw) now) boxedTick := by
  obtain ⟨e1, e2, _, e4, e5, e6, e7⟩ := init_default_fields P raw now
  have hw : (VfhStar.new Param.default raw).windowDiameter = 60 := rfl
  have hcw : (VfhStar.new Param.default raw).cellWidth = 1 / 10 := rfl
  have hdir := init_cellDirection P (VfhStar.new Param.default raw) now 29 29
    (by rw [hw]; decide) (by rw [hw]; decide)
  rw [hw, floor_sixty_half] at hdir
  have hdist := init_cellDistance P (VfhStar.new Param.default raw) now 29 29
    (by rw [hw]; decide) (by rw [hw]; decide)
  rw [hw, floor_sixty_half, hcw] at hdist
  have hdist' : (init P (VfhStar.new Param.default raw) now).cellDistance 29 29
      = P.sqrt 2 * (1 / 10) := by
    rw [hdist]; norm_num
  obtain ⟨d0, d1⟩ := initDirection_front_bounds P hatan 30 30 29 29 (by decide) 0
  rw [← hdir] at d0 d1
  exact boxed_violation_of_tables P _ hsqrt e1 e2 e4 e5 e6 e7
    (init_lastChosenLinearX P _ raw now) d0 d1 hdist'

theorem refPlatform_sqrt_two : 0 < refPlatform.sqrt 2 ∧ refPlatform.sqrt 2 < 2 := by
  decide!

/-! ## Kinematic helpers -/

theorem getMaxTurnrate_eq (s : VfhStar) (v : ℚ) :
    getMaxTurnrate s v
      = max 0 (s.zeroMaxTurnrate - v * (s.zeroMaxTurnrate - s.maxMaxTurnrate)) := by
  unfold getMaxTurnrate
  simp only [DoubleCompare_neg_iff]
  split_ifs with h
  · rw [max_eq_left (le_of_lt h)]
  · rw [max_eq_right (not_lt.mp h)]

/-- The clamp of `setMotion`: replacing a turn rate beyond `mx` by
`copysign(mx, turnrate)` is the clamp to `[-mx, mx]`. -/
theorem clamp_copysign (mx t : ℚ) (hmx : 0 ≤ mx) :
    (if |t| > mx then copysign mx t else t) = max (-mx) (min mx t) := by
  unfold copysign
  by_cases h : |t| > mx
  · rw [if_pos h, abs_of_nonneg hmx]
    by_cases ht : t < 0
    · rw [if_pos ht]
      have h1 : t < -mx := by
        rw [abs_of_neg ht] at h; linarith
      rw [min_eq_right (by linarith), max_eq_left (le_of_lt h1)]
    · rw [if_neg ht]
      have h1 : mx < t := by
        rw [abs_of_nonneg (not_lt.mp ht)] at h; exact h
      rw [min_eq_left (le_of_lt h1), max_eq_right (by linarith)]
  · rw [if_neg h]
    obtain ⟨h1, h2⟩ := abs_le.mp (not_lt.mp h)
    rw [min_eq_right h2, max_eq_right h1]

/-! ## The masked histogram and the first loop of `selectDirection` -/

theorem maskedValue_cases (s : VfhStar) (pl pr : ℚ) (x : Nat) (h : ℚ) :
    (maskedValue s pl pr x h = 0 ∨ maskedValue s pl pr x h = 1)
    ∧ (maskedValue s pl pr x h = 0 → h = 0) := by
  unfold maskedValue
  simp only [DoubleCompare_eq_zero_iff]
  split_ifs with hc
  · exact ⟨Or.inl rfl, fun _ => hc.1⟩
  · exact ⟨Or.inr rfl, fun h1 => absurd h1 (by norm_num)⟩

/-- The last loop of `buildMaskedPolarHistogram`: every bin below
`histogramSize` receives `maskedValue` of its old content, for the angles
`phi_left`, `phi_right` the cell loop has computed. -/
theorem buildMasked_histogram_get (P : Platform) (s : VfhStar) (v : ℚ) :
    ∃ (s1 : VfhStar) (pl pr : ℚ), ∀ i,
      (buildMaskedPolarHistogram P s v).histogram[i]?
        = (s.histogram[i]?).map (fun a =>
            if i < s.histogramSize.toNat then maskedValue s1 pl pr i a else a) := by
  unfold buildMaskedPolarHistogram
  exact ⟨_, _, _, fun i => (foldl_set_range P _ s.histogram s.histogramSize.toNat).2 i⟩

/-- The first loop of `selectDirection` leaves `start = -1` exactly when no bin
of the forward half compares equal to `1`. -/
theorem findStart_eq_none_iff (P : Platform) (s : VfhStar) :
    findStart P s = none
      ↔ ∀ i : Nat, i < s.histogramSize.toNat / 2 → rd P s.histogram i ≠ 1 := by
  unfold findStart
  rw [List.find?_eq_none]
  simp only [List.mem_range, decide_eq_true_eq, DoubleCompare_eq_zero_iff]

theorem selectDirection_of_none (P : Platform) (s : VfhStar) (h : findStart P s = none) :
    selectDirection P s
      = { s with
          candidateAngle := []
          candidateSpeed := []
          pickedDirection := s.desiredDirection
          lastPickedDirection := s.desiredDirection
          maxSpeedForPickedDirection := s.currentMaxSpeed } := by
  have h' : findStart P { s with candidateAngle := [], candidateSpeed := [] } = none := h
  unfold selectDirection
  simp only [h']

theorem buildPrimary_goal (P : Platform) (s : VfhStar) (l : Scan) (v : ℚ) :
    (buildPrimaryPolarHistogram P s l v).1.desiredDirection = s.desiredDirection
    ∧ (buildPrimaryPolarHistogram P s l v).1.currentMaxSpeed = s.currentMaxSpeed := by
  unfold buildPrimaryPolarHistogram
  simp only
  split <;> exact ⟨rfl, rfl⟩

theorem buildBinary_goal (P : Platform) (s : VfhStar) (v : ℚ) :
    (buildBinaryPolarHistogram P s v).desiredDirection = s.desiredDirection
    ∧ (buildBinaryPolarHistogram P s v).currentMaxSpeed = s.currentMaxSpeed :=
  ⟨rfl, rfl⟩

theorem buildMasked_goal (P : Platform) (s : VfhStar) (v : ℚ) :
    (buildMaskedPolarHistogram P s v).desiredDirection = s.desiredDirection
    ∧ (buildMaskedPolarHistogram P s v).currentMaxSpeed = s.currentMaxSpeed :=
  ⟨rfl, rfl⟩

theorem maskedState_desiredDirection (P : Platform) (s : VfhStar) (t : Tick) :
    (maskedState P s t).desiredDirection = t.goalDirection + HPi
    ∧ (maskedState P s t).currentMaxSpeed = s.currentMaxSpeed := by
  unfold maskedState
  rw [(buildMasked_goal P _ _).1, (buildMasked_goal P _ _).2, (buildBinary_goal P _ _).1,
    (buildBinary_goal P _ _).2, (buildPrimary_goal P _ _ _).1, (buildPrimary_goal P _ _ _).2]
  exact ⟨rfl, rfl⟩

theorem update_of_safe (P : Platform) (s : VfhStar) (t : Tick) (h : ¬ safetyViolation P s t) :
    updateDirection P s t = selectDirection P (maskedState P s t) :=
  updateDirection_eq_of_safe P s t h

/-! ## The loop of `selectCandidateAngle` -/

/-- A loop that keeps the first element of strictly smallest cost below the
starting bound `m0`: if no element beats `m0` the state is unchanged, otherwise
the list splits at the element kept. -/
theorem foldl_first_min (cost : ℚ → ℚ) (L : List ℚ) (m0 p0 c0 : ℚ) :
    ((∀ c ∈ L, m0 ≤ cost c) →
      L.foldl (fun (acc : ℚ × ℚ × ℚ) ca =>
        if cost ca < acc.1 then (cost ca, ca, ca) else acc) (m0, p0, c0) = (m0, p0, c0))
    ∧ ((∃ c ∈ L, cost c < m0) →
      ∃ L1 x L2, L = L1 ++ x :: L2
        ∧ L.foldl (fun (acc : ℚ × ℚ × ℚ) ca =>
            if cost ca < acc.1 then (cost ca, ca, ca) else acc) (m0, p0, c0) = (cost x, x, x)
        ∧ cost x < m0
        ∧ (∀ c ∈ L1, cost x < cost c)
        ∧ (∀ c ∈ L2, cost x ≤ cost c)) := by
  induction L generalizing m0 p0 c0 with
  | nil =>
    refine ⟨fun _ => rfl, fun h => ?_⟩
    obtain ⟨c, hc, _⟩ := h
    exact absurd hc (List.not_mem_nil c)
  | cons a L ih =>
    constructor
    · intro h
      have ha : ¬ cost a < m0 := not_lt.mpr (h a (List.mem_cons_self _ _))
      rw [List.foldl_cons]
      simp only [if_neg ha]
      exact (ih m0 p0 c0).1 (fun c hc => h c (List.mem_cons_of_mem _ hc))
    · intro h
      rw [List.foldl_cons]
      by_cases ha : cost a < m0
      · simp only [if_pos ha]
        by_cases hrest : ∀ c ∈ L, cost a ≤ cost c
        · refine ⟨[], a, L, rfl, (ih (cost a) a a).1 hrest, ha, ?_, hrest⟩
          intro c hc
          exact absurd hc (List.not_mem_nil c)
        · have hex : ∃ c ∈ L, cost c < cost a := by
            by_contra hcon
            apply hrest
            intro c hc
            by_contra hlt
            exact hcon ⟨c, hc, not_le.mp hlt⟩
          obtain ⟨L1, x, L2, hL, hf, hx, h1, h2⟩ := (ih (cost a) a a).2 hex
          refine ⟨a :: L1, x, L2, by rw [hL]; rfl, hf, lt_trans hx ha, ?_, h2⟩
          intro c hc
          rcases List.mem_cons.mp hc with rfl | hc
          · exact hx
          · exact h1 c hc
      · simp only [if_neg ha]
        have hex : ∃ c ∈ L, cost c < m0 := by
          obtain ⟨c, hc, hlt⟩ := h
          rcases List.mem_cons.mp hc with rfl | hc
          · exact absurd hlt ha
          · exact ⟨c, hc, hlt⟩
        obtain ⟨L1, x, L2, hL, hf, hx, h1, h2⟩ := (ih m0 p0 c0).2 hex
        refine ⟨a :: L1, x, L2, by rw [hL]; rfl, hf, hx, ?_, h2⟩
        intro c hc
        rcases List.mem_cons.mp hc with rfl | hc
        · exact lt_of_lt_of_le hx (not_lt.mp ha)
        · exact h1 c hc

/-- The loop of `selectCandidateAngle`, with the cost written as
`candidateCost`. -/
theorem selectCandidateAngle_of_nonempty (s : VfhStar) (hne : s.candidateAngle ≠ []) :
    selectCandidateAngle s
      = { s with
          pickedDirection := (s.candidateAngle.foldl (fun (acc : ℚ × ℚ × ℚ) ca =>
              if candidateCost s ca < acc.1 then (candidateCost s ca, ca, ca) else acc)
            (DBL_MAX, HPi, s.maxSpeedForPickedDirection)).2.1
          maxSpeedForPickedDirection := (s.candidateAngle.foldl (fun (acc : ℚ × ℚ × ℚ) ca =>
              if candidateCost s ca < acc.1 then (candidateCost s ca, ca, ca) else acc)
            (DBL_MAX, HPi, s.maxSpeedForPickedDirection)).2.2
          lastPickedDirection := (s.candidateAngle.foldl (fun (acc : ℚ × ℚ × ℚ) ca =>
              if candidateCost s ca < acc.1 then (candidateCost s ca, ca, ca) else acc)
            (DBL_MAX, HPi, s.maxSpeedForPickedDirection)).2.1 } := by
  have hlen : ¬ s.candidateAngle.length ≤ 0 := by
    intro h
    exact hne (List.length_eq_zero.mp (Nat.le_zero.mp h))
  unfold selectCandidateAngle
  rw [if_neg hlen]
  simp only [DoubleCompare_neg_iff, candidateCost]

/-- With a candidate whose cost is below `DBL_MAX`, `selectCandidateAngle`
picks the first candidate of smallest cost and stores that angle in
`pickedDirection`, in `lastPickedDirection` and in
`maxSpeedForPickedDirection`. -/
theorem selectCandidateAngle_picks (s : VfhStar)
    (hfin : ∃ c ∈ s.candidateAngle, candidateCost s c < DBL_MAX) :
    ∃ L1 x L2, s.candidateAngle = L1 ++ x :: L2
      ∧ (selectCandidateAngle s).pickedDirection = x
      ∧ (selectCandidateAngle s).lastPickedDirection = x
      ∧ (selectCandidateAngle s).maxSpeedForPickedDirection = x
      ∧ (∀ c ∈ L1, candidateCost s x < candidateCost s c)
      ∧ (∀ c ∈ L2, candidateCost s x ≤ candidateCost s c) := by
  have hne : s.candidateAngle ≠ [] := by
    obtain ⟨c, hc, _⟩ := hfin
    exact List.ne_nil_of_mem hc
  obtain ⟨L1, x, L2, hL, hf, _, h1, h2⟩ :=
    (foldl_first_min (candidateCost s) s.candidateAngle DBL_MAX HPi
      s.maxSpeedForPickedDirection).2 hfin
  refine ⟨L1, x, L2, hL, ?_, ?_, ?_, h1, h2⟩
  · rw [selectCandidateAngle_of_nonempty s hne]
    simp only [hf]
  · rw [selectCandidateAngle_of_nonempty s hne]
    simp only [hf]
  · rw [selectCandidateAngle_of_nonempty s hne]
    simp only [hf]

/-! ## The candidate vectors of `selectDirection` -/

theorem candidateStep_lengths (P : Platform) (s : VfhStar) (acc : List ℚ × List ℚ)
    (b : Int × ℚ) (h : acc.1.length = acc.2.length) :
    (candidateStep P s acc b).1.length = (candidateStep P s acc b).2.length := by
  unfold candidateStep
  simp only
  split_ifs <;> simp [h]

theorem selectCandidateAngle_candidates (s : VfhStar) :
    (selectCandidateAngle s).candidateAngle = s.candidateAngle
    ∧ (selectCandidateAngle s).candidateSpeed = s.candidateSpeed := by
  unfold selectCandidateAngle
  split <;> exact ⟨rfl, rfl⟩

/-- `selectDirection` leaves the two candidate vectors with the same length. -/
theorem selectDirection_candidate_lengths (P : Platform) (s : VfhStar) :
    (selectDirection P s).candidateAngle.length = (selectDirection P s).candidateSpeed.length := by
  have hfold : ∀ (L : List (Int × ℚ)) (acc : List ℚ × List ℚ),
      acc.1.length = acc.2.length →
      (L.foldl (candidateStep P { s with candidateAngle := [], candidateSpeed := [] }) acc).1.length
        = (L.foldl (candidateStep P { s with candidateAngle := [], candidateSpeed := [] })
            acc).2.length := by
    intro L
    induction L with
    | nil => intro acc h; exact h
    | cons b L ih =>
      intro acc h
      rw [List.foldl_cons]
      exact ih _ (candidateStep_lengths P _ acc b h)
  unfold selectDirection
  simp only
  split
  · rfl
  · rw [(selectCandidateAngle_candidates _).1, (selectCandidateAngle_candidates _).2]
    exact hfold _ _ rfl

/-! ## The histogram size chosen by `init` -/

theorem rint_sub_le (q : ℚ) : |((rint q : Int) : ℚ) - q| ≤ 1 / 2 := by
  have h1 := Int.floor_le q
  have h2 := Int.lt_floor_add_one q
  unfold rint
  split_ifs with a b c
  · rw [abs_le]; constructor <;> linarith
  · rw [abs_le]; push_cast; constructor <;> linarith
  · rw [abs_le]; constructor <;> linarith
  · rw [abs_le]; push_cast; constructor <;> linarith

theorem init_histogramSize (P : Platform) (s : VfhStar) (now : ℚ) :
    (init P s now).histogramSize = rint (DPi / s.sectorAngle)
    ∧ (init P s now).sectorAngle = s.sectorAngle := by
  have h := init_untabled P s now
  have e1 := congrArg VfhStar.histogramSize h
  have e2 := congrArg VfhStar.sectorAngle h
  exact ⟨e1, e2⟩

/-- After `init` both histograms have `histogramSize = rint(DPi / sectorAngle)`
entries, and for a positive sector angle that many sectors cover the full
circle to within half a sector. -/
theorem init_histogram_size (P : Platform) (s : VfhStar) (now : ℚ) (hsa : 0 < s.sectorAngle) :
    (init P s now).histogramSize = rint (DPi / s.sectorAngle)
    ∧ ((init P s now).histogram.length : Int) = (init P s now).histogramSize
    ∧ ((init P s now).lastBinaryHistogram.length : Int) = (init P s now).histogramSize
    ∧ |((init P s now).histogramSize : ℚ) * s.sectorAngle - DPi| ≤ s.sectorAngle / 2 := by
  obtain ⟨hs, _⟩ := init_histogramSize P s now
  have inv := init_histInv P s now
  have hq : 0 ≤ DPi / s.sectorAngle :=
    div_nonneg (by unfold DPi; linarith [M_PI_pos]) (le_of_lt hsa)
  have hnn : 0 ≤ (init P s now).histogramSize := by
    rw [hs]; exact rint_nonneg _ hq
  refine ⟨hs, ?_, ?_, ?_⟩
  · rw [inv.histogram_length]; exact Int.toNat_of_nonneg hnn
  · rw [inv.last_length]; exact Int.toNat_of_nonneg hnn
  · rw [hs]
    have h := rint_sub_le (DPi / s.sectorAngle)
    have e : ((rint (DPi / s.sectorAngle) : Int) : ℚ) * s.sectorAngle - DPi
        = (((rint (DPi / s.sectorAngle) : Int) : ℚ) - DPi / s.sectorAngle) * s.sectorAngle := by
      field_simp
    rw [e, abs_mul, abs_of_pos hsa]
    calc |((rint (DPi / s.sectorAngle) : Int) : ℚ) - DPi / s.sectorAngle| * s.sectorAngle
        ≤ 1 / 2 * s.sectorAngle := mul_le_mul_of_nonneg_right h (le_of_lt hsa)
      _ = s.sectorAngle / 2 := by ring


/-! ## The base magnitudes of `init` -/

theorem initCell_cellBaseMag (P : Platform) (acc : VfhStar × SectorVars) (x y a c : Nat) :
    (initCell P acc x y).1.cellBaseMag a c
      = if a = x ∧ c = y then
          (3000 - (P.sqrt ((((acc.1.centerX - (x : Int) : Int) : ℚ)) ^ 2
              + (((acc.1.centerY - (y : Int) : Int) : ℚ)) ^ 2) * acc.1.cellWidth) * 1000) ^ 4
            / 100000000
        else acc.1.cellBaseMag a c := by
  unfold initCell
  simp only
  rw [foldl_keep (fun r : VfhStar × SectorVars => r.1.cellBaseMag) (initTable P x y)
    (fun _ _ => rfl)]
  rfl

/-- After the cell loops of `init` the entry `(a, c)` of `cellBaseMag` inside
the window is the fourth power `init` computes from the distance of the cell. -/
theorem initLoops_cellBaseMag (P : Platform) (s : VfhStar) (a c : Nat) :
    (initLoops P s).1.cellBaseMag a c
      = if a < s.windowDiameter.toNat ∧ c < s.windowDiameter.toNat then
          (3000 - (P.sqrt ((((s.centerX - (a : Int) : Int) : ℚ)) ^ 2
              + (((s.centerY - (c : Int) : Int) : ℚ)) ^ 2) * s.cellWidth) * 1000) ^ 4
            / 100000000
        else s.cellBaseMag a c := by
  unfold initLoops
  exact (foldl_cells_get (fun r : VfhStar × SectorVars => r.1.cellBaseMag)
    (fun r x y => initCell P r x y)
    (fun r => r.1.untabled = s.untabled)
    (fun x y _ => (3000 - (P.sqrt ((((s.centerX - (x : Int) : Int) : ℚ)) ^ 2
              + (((s.centerY - (y : Int) : Int) : ℚ)) ^ 2) * s.cellWidth) * 1000) ^ 4
            / 100000000)
    (fun b x y hb => (initCell_untabled P b x y).trans hb)
    (fun b x y a c hb => by
      have hb' : b.1.untabled = s.untabled := hb
      show (initCell P b x y).1.cellBaseMag a c = _
      rw [initCell_cellBaseMag, (untabled_center hb').1, (untabled_center hb').2,
        untabled_cellWidth hb'])
    s.windowDiameter.toNat s.windowDiameter.toNat (s, SectorVars.zero) rfl).2 a c

/-- The table `cellBaseMag` right after `init`, in terms of `cellDistance`. -/
theorem init_cellBaseMag (P : Platform) (s : VfhStar) (now : ℚ) (a c : Nat)
    (ha : a < s.windowDiameter.toNat) (hc : c < s.windowDiameter.toNat) :
    (init P s now).cellBaseMag a c
      = (3000 - (init P s now).cellDistance a c * 1000) ^ 4 / 100000000 := by
  rw [init_cellDistance P s now a c ha hc]
  have h := initLoops_cellBaseMag P (initHead P s) a c
  have hw : (initHead P s).windowDiameter = s.windowDiameter := rfl
  rw [hw, if_pos ⟨ha, hc⟩] at h
  exact h

/-- For `y ≤ x` the fourth powers are ordered the same way exactly when
`x = y` or `0 ≤ x + y`. -/
theorem pow_four_le_iff (x y : ℚ) (h : y ≤ x) : y ^ 4 ≤ x ^ 4 ↔ (x = y ∨ 0 ≤ x + y) := by
  have e : x ^ 4 - y ^ 4 = (x - y) * ((x + y) * (x ^ 2 + y ^ 2)) := by ring
  constructor
  · intro hp
    by_contra hn
    push_neg at hn
    obtain ⟨hne, hneg⟩ := hn
    have hlt : y < x := lt_of_le_of_ne h (Ne.symm hne)
    have hsq : 0 < x ^ 2 + y ^ 2 := by
      have hx : x ≠ 0 ∨ y ≠ 0 := by
        by_contra hc
        push_neg at hc
        rw [hc.1, hc.2] at hlt
        exact lt_irrefl _ hlt
      rcases hx with hx | hy
      · have := pow_pos (abs_pos.mpr hx) 2
        have h2 : |x| ^ 2 = x ^ 2 := sq_abs x
        nlinarith [sq_nonneg y]
      · have := pow_pos (abs_pos.mpr hy) 2
        have h2 : |y| ^ 2 = y ^ 2 := sq_abs y
        nlinarith [sq_nonneg x]
    have : (x - y) * ((x + y) * (x ^ 2 + y ^ 2)) < 0 :=
      mul_neg_of_pos_of_neg (by linarith) (mul_neg_of_neg_of_pos hneg hsq)
    linarith
  · rintro (rfl | hs)
    · exact le_rfl
    · have : 0 ≤ (x - y) * ((x + y) * (x ^ 2 + y ^ 2)) :=
        mul_nonneg (by linarith) (mul_nonneg hs (by positivity))
      linarith

/-! ## The laser index of a cell -/

theorem init_windowDiameter (P : Platform) (s : VfhStar) (now : ℚ) :
    (init P s now).windowDiameter = s.windowDiameter := by
  have e := congrArg VfhStar.windowDiameter (init_untabled P s now)
  exact e

theorem rint_neg_two : rint ((-1 : ℚ) * 2) = -2 := by decide!

/-- On a window of even diameter `2k`, every cell `calculateCellsMagnitude`
visits lies in front of the centre row and its laser index
`rint(cellDirection · 2)` lies in `[0, 7]`, for an `atan2` that maps the first
quadrant into `[0, π/2]`. -/
theorem even_window_laser_index (P : Platform)
    (hatan : ∀ a b : ℚ, 0 < a → 0 < b → 0 ≤ P.atan2 a b ∧ P.atan2 a b ≤ HPi)
    (s : VfhStar) (now : ℚ) (k x y : Nat) (hw : s.windowDiameter = 2 * (k : Int))
    (hxy : (x, y) ∈ cellsXY (init P s now).windowDiameter.toNat
        (⌈((init P s now).windowDiameter : ℚ) / 2⌉).toNat) :
    0 ≤ rint ((init P s now).cellDirection x y * 2)
    ∧ rint ((init P s now).cellDirection x y * 2) ≤ 7 := by
  rw [mem_cellsXY, init_windowDiameter, hw] at hxy
  have hc : (⌈((2 * (k : Int) : Int) : ℚ) / 2⌉ : Int) = k := by
    rw [Int.ceil_eq_iff]; push_cast; constructor <;> linarith
  have hf : (⌊((2 * (k : Int) : Int) : ℚ) / 2⌋ : Int) = k := by
    rw [Int.floor_eq_iff]; push_cast; constructor <;> linarith
  rw [hc] at hxy
  obtain ⟨hx, hy⟩ := hxy
  have hx' : x < 2 * k := by omega
  have hy' : y < k := by omega
  have hdir := init_cellDirection P s now x y (by rw [hw]; omega) (by rw [hw]; omega)
  rw [hw, hf] at hdir
  obtain ⟨d0, d1⟩ := initDirection_front_bounds P hatan k k x y (by omega) 0
  rw [← hdir] at d0 d1
  refine ⟨rint_nonneg _ (by linarith), ?_⟩
  apply rint_le_of_lt
  have h35 : M_PI < 7 / 2 := by norm_num [M_PI]
  push_cast
  linarith

/-! ## The sector lists of `init` -/

theorem foldl_inv {α β : Type} (I : β → Prop) (f : β → α → β)
    (h : ∀ b a, I b → I (f b a)) (l : List α) (b : β) (hb : I b) : I (l.foldl f b) := by
  induction l generalizing b with
  | nil => exact hb
  | cons a l ih => exact ih _ (h b a hb)

/-- One pass of the table loop of `init` stores, for its cell and table, either
the empty list or the single value of the loop counter after the sector loop. -/
theorem initTable_sector (P : Platform) (x y : Nat) (acc : VfhStar × SectorVars) (t : Nat)
    (sa : ℚ) (h : acc.1.sectorAngle = sa
      ∧ ∀ k a c, acc.1.cellSector k a c = []
          ∨ acc.1.cellSector k a c = [max (toInt (DPi / sa)) 0]) :
    (initTable P x y acc t).1.sectorAngle = sa
    ∧ ∀ k a c, (initTable P x y acc t).1.cellSector k a c = []
        ∨ (initTable P x y acc t).1.cellSector k a c = [max (toInt (DPi / sa)) 0] := by
  obtain ⟨h1, h2⟩ := h
  refine ⟨h1, fun k a c => ?_⟩
  obtain ⟨b, hb⟩ : ∃ b : Bool, (initTable P x y acc t).1.cellSector
      = set3 acc.1.cellSector t x y
          (if b then [max (toInt (DPi / acc.1.sectorAngle)) 0] else []) := ⟨_, rfl⟩
  rw [hb, h1]
  unfold set3
  by_cases hk : k = t ∧ a = x ∧ c = y
  · rw [if_pos hk]
    cases b
    · exact Or.inl rfl
    · exact Or.inr rfl
  · rw [if_neg hk]
    exact h2 k a c

theorem initCell_sector (P : Platform) (acc : VfhStar × SectorVars) (x y : Nat)
    (sa : ℚ) (h : acc.1.sectorAngle = sa
      ∧ ∀ k a c, acc.1.cellSector k a c = []
          ∨ acc.1.cellSector k a c = [max (toInt (DPi / sa)) 0]) :
    (initCell P acc x y).1.sectorAngle = sa
    ∧ ∀ k a c, (initCell P acc x y).1.cellSector k a c = []
        ∨ (initCell P acc x y).1.cellSector k a c = [max (toInt (DPi / sa)) 0] := by
  unfold initCell
  exact foldl_inv
    (fun r : VfhStar × SectorVars => r.1.sectorAngle = sa
      ∧ ∀ k a c, r.1.cellSector k a c = []
          ∨ r.1.cellSector k a c = [max (toInt (DPi / sa)) 0])
    (initTable P x y) (fun b t hb => initTable_sector P x y b t sa hb) _ _ h

/-- Right after `init` every list of the table `cellSector` is empty or holds
the single value `(int)(DPi / sectorAngle)`, the loop counter after the sector
loop. -/
theorem init_cellSector (P : Platform) (s : VfhStar) (now : ℚ) (k x y : Nat) :
    (init P s now).cellSector k x y = []
    ∨ (init P s now).cellSector k x y = [max (toInt (DPi / s.sectorAngle)) 0] := by
  have h := foldl_inv
    (fun r : VfhStar × SectorVars => r.1.sectorAngle = s.sectorAngle
      ∧ ∀ k a c, r.1.cellSector k a c = []
          ∨ r.1.cellSector k a c = [max (toInt (DPi / s.sectorAngle)) 0])
    (fun acc x => (List.range (initHead P s).windowDiameter.toNat).foldl
      (fun acc y => initCell P acc x y) acc)
    (fun b x hb => foldl_inv _ (fun acc y => initCell P acc x y)
      (fun b y hb => initCell_sector P b x y s.sectorAngle hb) _ b hb)
    (List.range (initHead P s).windowDiameter.toNat) (initHead P s, SectorVars.zero)
    ⟨rfl, fun _ _ _ => Or.inl rfl⟩
  exact h.2 k x y

/-! ## The border walk of `selectDirection` -/

/-- With a start sector found, `selectDirection` builds its candidates from the
borders `borderWalk` records. -/
theorem selectDirection_of_some (P : Platform) (s : VfhStar) (start : Nat)
    (h : findStart P s = some start) :
    selectDirection P s
      = selectCandidateAngle
          { s with
            candidateAngle := ((borderWalk P s start).border.foldl
              (candidateStep P { s with candidateAngle := [], candidateSpeed := [] }) ([], [])).1
            candidateSpeed := ((borderWalk P s start).border.foldl
              (candidateStep P { s with candidateAngle := [], candidateSpeed := [] }) ([], [])).2 } := by
  have h' : findStart P { s with candidateAngle := [], candidateSpeed := [] } = some start := h
  unfold selectDirection
  simp only [h']
  rfl

theorem freeAt_add_length (h : List ℚ) (i : Nat) : freeAt h (i + h.length) ↔ freeAt h i := by
  unfold freeAt; rw [Nat.add_mod_right]

theorem occupiedAt_add_length (h : List ℚ) (i : Nat) :
    occupiedAt h (i + h.length) ↔ occupiedAt h i := by
  unfold occupiedAt; rw [Nat.add_mod_right]

/-- In a non-empty histogram with entries in `{0, 1}` every sector is either
free or occupied, and not both. -/
theorem free_or_occupied (h : List ℚ) (hne : 0 < h.length) (hbin : ∀ v ∈ h, v = 0 ∨ v = 1)
    (i : Nat) : (freeAt h i ∧ ¬ occupiedAt h i) ∨ (occupiedAt h i ∧ ¬ freeAt h i) := by
  have hk : i % h.length < h.length := Nat.mod_lt _ hne
  unfold freeAt occupiedAt
  rw [List.getElem?_eq_getElem hk]
  rcases hbin _ (List.getElem_mem hk) with e | e
  · left; rw [e]; simp
  · right; rw [e]; simp

theorem not_free_iff_occupied (h : List ℚ) (hne : 0 < h.length)
    (hbin : ∀ v ∈ h, v = 0 ∨ v = 1) (i : Nat) : ¬ freeAt h i ↔ occupiedAt h i := by
  rcases free_or_occupied h hne hbin i with ⟨hf, ho⟩ | ⟨ho, hf⟩
  · exact ⟨fun c => absurd hf c, fun c => absurd c ho⟩
  · exact ⟨fun _ => ho, fun _ => hf⟩

/-- The bin the border walk reads at the index `i`. -/
theorem rd_walk_index (P : Platform) (s : VfhStar) (i : Nat) (v : ℚ)
    (hlen : s.histogram.length = s.histogramSize.toNat)
    (hv : s.histogram[i % s.histogram.length]? = some v) :
    rd P s.histogram ((i % s.histogramSize.toNat : Nat) : Int) = v := by
  rw [rd_natCast, ← hlen, List.getD_eq_getElem?_getD, hv]
  rfl

/-- A pass of the border walk over a free sector: an opening is now under way
and no border is recorded. -/
theorem walkStep_of_free (P : Platform) (s : VfhStar) (w : Walk) (i : Nat)
    (hlen : s.histogram.length = s.histogramSize.toNat) (hf : freeAt s.histogram i) :
    (walkStep P s w i).left = false ∧ (walkStep P s w i).border = w.border := by
  have hr := rd_walk_index P s i 0 hlen hf
  unfold walkStep
  simp only [hr, DoubleCompare_eq_zero_iff]
  have h01 : ¬ ((0 : ℚ) = 1) := by norm_num
  cases hl : w.left <;> simp [hl, h01]

/-- A pass of the border walk over an occupied sector: the opening under way,
if there is one, is closed and recorded. -/
theorem walkStep_of_occupied (P : Platform) (s : VfhStar) (w : Walk) (i : Nat)
    (hlen : s.histogram.length = s.histogramSize.toNat) (ho : occupiedAt s.histogram i) :
    (walkStep P s w i).left = true
    ∧ (walkStep P s w i).border.length = w.border.length + (if w.left then 0 else 1) := by
  have hr := rd_walk_index P s i 1 hlen ho
  unfold walkStep
  simp only [hr, DoubleCompare_eq_zero_iff]
  have h10 : ¬ ((1 : ℚ) = 0) := by norm_num
  cases hl : w.left <;> simp [hl, h10]

/-- A sum over one period of a periodic function does not depend on where the
period starts. -/
theorem sum_range_shift (g : Nat → Nat) (n : Nat) (hg : ∀ i, g (i + n) = g i) (s : Nat) :
    Finset.sum (Finset.range n) (fun i => g (s + i)) = Finset.sum (Finset.range n) g := by
  induction s with
  | zero => simp
  | succ s ih =>
    rw [← ih]
    have h1 := Finset.sum_range_succ (fun i => g (s + i)) n
    have h2 := Finset.sum_range_succ' (fun i => g (s + i)) n
    simp only [Nat.add_zero] at h2
    rw [hg s] at h1
    have h3 : Finset.sum (Finset.range n) (fun i => g (s + 1 + i))
        = Finset.sum (Finset.range n) (fun i => g (s + (i + 1))) :=
      Finset.sum_congr rfl (fun i _ => by rw [Nat.add_assoc, Nat.add_comm 1 i])
    rw [h3]
    omega

/-- The border walk after the passes at `start`, …, `start + m`, started at an
occupied sector: no opening is under way exactly when the last sector passed is
occupied, and the borders recorded, plus the opening under way, count the
sectors passed at which a free sector follows an occupied one. -/
theorem borderWalk_steps (P : Platform) (s : VfhStar) (start : Nat)
    (hlen : s.histogram.length = s.histogramSize.toNat) (hne : 0 < s.histogram.length)
    (hbin : ∀ v ∈ s.histogram, v = 0 ∨ v = 1) (hst : occupiedAt s.histogram start) (m : Nat) :
    ((((List.range (m + 1)).map (fun j => start + j)).foldl (walkStep P s)
          { newborder := (0, 0), left := true, border := [] }).left = true
        ↔ occupiedAt s.histogram (start + m))
    ∧ (((List.range (m + 1)).map (fun j => start + j)).foldl (walkStep P s)
          { newborder := (0, 0), left := true, border := [] }).border.length
        + (if (((List.range (m + 1)).map (fun j => start + j)).foldl (walkStep P s)
              { newborder := (0, 0), left := true, border := [] }).left then 0 else 1)
      = Finset.sum (Finset.range m) (fun i =>
          if occupiedAt s.histogram (start + i) ∧ freeAt s.histogram (start + i + 1)
          then 1 else 0) := by
  induction m with
  | zero =>
    obtain ⟨h1, h2⟩ := walkStep_of_occupied P s
      { newborder := (0, 0), left := true, border := [] } start hlen hst
    have hr : (List.range (0 + 1)).map (fun j => start + j) = [start] := rfl
    rw [hr]
    simp only [List.foldl_cons, List.foldl_nil, Nat.add_zero, Finset.range_zero,
      Finset.sum_empty]
    refine ⟨⟨fun _ => hst, fun _ => h1⟩, ?_⟩
    simp only [h1, h2]
    rfl
  | succ m ih =>
    rw [List.range_succ, List.map_append, List.foldl_append]
    simp only [List.map_cons, List.map_nil, List.foldl_cons, List.foldl_nil]
    generalize ((List.range (m + 1)).map (fun j => start + j)).foldl (walkStep P s)
      { newborder := (0, 0), left := true, border := [] } = w at ih ⊢
    obtain ⟨ih1, ih2⟩ := ih
    rw [Finset.sum_range_succ, ← ih2]
    have hidx : start + (m + 1) = start + m + 1 := by omega
    rcases free_or_occupied s.histogram hne hbin (start + (m + 1)) with ⟨hf, hno⟩ | ⟨ho, hnf⟩
    · obtain ⟨e1, e2⟩ := walkStep_of_free P s w (start + (m + 1)) hlen hf
      refine ⟨⟨fun c => by rw [e1] at c; exact absurd c (by simp), fun c => absurd c hno⟩, ?_⟩
      simp only [e1, e2]
      rw [hidx] at hf
      cases hl : w.left
      · have hnot : ¬ occupiedAt s.histogram (start + m) := fun c => by
          have := ih1.mpr c
          rw [hl] at this
          exact absurd this (by simp)
        simp [hnot]
      · have hocc : occupiedAt s.histogram (start + m) := ih1.mp hl
        simp [hocc, hf]
    · obtain ⟨e1, e2⟩ := walkStep_of_occupied P s w (start + (m + 1)) hlen ho
      refine ⟨⟨fun _ => ho, fun _ => e1⟩, ?_⟩
      simp only [e1, e2]
      rw [hidx] at hnf
      simp [hnf]

/-- From a first sector `a` at most one number of sectors makes a maximal free
run, and one does exactly when `a` is free and the sector before it is not. -/
theorem runs_from_sector (h : List ℚ) (a : Nat) :
    Finset.sum (Finset.range (h.length + 1))
        (fun len => if isMaximalFreeRun h a len then 1 else 0)
      = if freeAt h a ∧ ¬ freeAt h (a + h.length - 1) then 1 else 0 := by
  by_cases hc : freeAt h a ∧ ¬ freeAt h (a + h.length - 1)
  · rw [if_pos hc]
    obtain ⟨hfa, hpre⟩ := hc
    have hn : 0 < h.length := by
      rcases Nat.eq_zero_or_pos h.length with h0 | h0
      · unfold freeAt at hfa
        rw [List.length_eq_zero.mp h0] at hfa
        simp at hfa
      · exact h0
    have hex : ∃ l, ¬ freeAt h (a + l) :=
      ⟨h.length - 1, by rwa [show a + (h.length - 1) = a + h.length - 1 by omega]⟩
    have hl0 : ¬ freeAt h (a + Nat.find hex) := Nat.find_spec hex
    have hmin : ∀ j < Nat.find hex, freeAt h (a + j) :=
      fun j hj => not_not.mp (Nat.find_min hex hj)
    have hle : Nat.find hex ≤ h.length - 1 :=
      Nat.find_min' hex (by rwa [show a + (h.length - 1) = a + h.length - 1 by omega])
    have h1 : 1 ≤ Nat.find hex := by
      rcases Nat.eq_zero_or_pos (Nat.find hex) with h0 | h0
      · rw [h0] at hl0
        exact absurd hfa hl0
      · exact h0
    rw [Finset.sum_eq_single (Nat.find hex)]
    · rw [if_pos ⟨h1, hmin, hpre, hl0⟩]
    · intro l _ hne
      rw [if_neg]
      rintro ⟨_, hall, _, hend⟩
      apply hne
      have h2 : Nat.find hex ≤ l := Nat.find_min' hex hend
      have h3 : ¬ Nat.find hex < l := fun hlt => hl0 (hall _ hlt)
      omega
    · intro hnot
      exfalso
      apply hnot
      rw [Finset.mem_range]
      omega
  · rw [if_neg hc]
    apply Finset.sum_eq_zero
    intro l _
    rw [if_neg]
    rintro ⟨h1, hall, hpre, _⟩
    exact hc ⟨hall 0 (by omega), hpre⟩

/-- In a non-empty histogram with entries in `{0, 1}` the maximal circular runs
of free sectors are as many as the sectors at which a free sector follows an
occupied one. -/
theorem maximalFreeRuns_eq_edges (h : List ℚ) (hne : 0 < h.length)
    (hbin : ∀ v ∈ h, v = 0 ∨ v = 1) :
    maximalFreeRuns h
      = Finset.sum (Finset.range h.length)
          (fun a => if occupiedAt h a ∧ freeAt h (a + 1) then 1 else 0) := by
  have e1 : maximalFreeRuns h
      = Finset.sum (Finset.range h.length)
          (fun a => if freeAt h a ∧ ¬ freeAt h (a + h.length - 1) then 1 else 0) := by
    unfold maximalFreeRuns
    rw [Finset.card_filter, Finset.sum_product]
    exact Finset.sum_congr rfl (fun a _ => runs_from_sector h a)
  have hper : ∀ i, (fun a => if freeAt h a ∧ ¬ freeAt h (a + h.length - 1) then 1 else 0)
        (i + h.length)
      = (fun a => if freeAt h a ∧ ¬ freeAt h (a + h.length - 1) then 1 else 0) i := by
    intro i
    have h2 : i + h.length + h.length - 1 = (i + h.length - 1) + h.length := by omega
    simp only [freeAt_add_length, h2]
  rw [e1, ← sum_range_shift _ h.length hper 1]
  apply Finset.sum_congr rfl
  intro i _
  have h3 : 1 + i + h.length - 1 = i + h.length := by omega
  have h4 : 1 + i = i + 1 := by omega
  simp only [h3, freeAt_add_length, not_free_iff_occupied h hne hbin]
  simp only [h4, and_comm]

/-! ## What `buildPrimaryPolarHistogram` writes -/

/-- A loop over the cells of `L` that replaces the list of each cell, in the
table `k`, by its image under `F`, when a second pass of `F` changes nothing. -/
theorem foldl_fill_lists (k : Nat) (F : Nat → Nat → List Int → List Int)
    (hF : ∀ a b l, F a b (F a b l) = F a b l) (L : List (Nat × Nat))
    (t : Nat → Nat → Nat → List Int) (c a b : Nat) :
    (L.foldl (fun t (p : Nat × Nat) => set3 t k p.1 p.2 (F p.1 p.2 (t k p.1 p.2))) t) c a b
      = if c = k ∧ (a, b) ∈ L then F a b (t c a b) else t c a b := by
  induction L generalizing t with
  | nil => simp
  | cons p L ih =>
    rw [List.foldl_cons, ih]
    obtain ⟨x, y⟩ := p
    by_cases hc : c = k
    · subst hc
      by_cases hp : a = x ∧ b = y
      · obtain ⟨rfl, rfl⟩ := hp
        have hs : set3 t c a b (F a b (t c a b)) c a b = F a b (t c a b) := by
          simp [set3]
        have hm : (a, b) ∈ (a, b) :: L := List.mem_cons_self _ _
        simp only [hs, hF, hm, and_true, if_true, ite_self]
      · have hne : (a, b) ≠ (x, y) := fun e => hp ⟨congrArg Prod.fst e, congrArg Prod.snd e⟩
        have hs : set3 t c x y (F x y (t c x y)) c a b = t c a b := by
          simp [set3, hp]
        have hm : (a, b) ∈ (x, y) :: L ↔ (a, b) ∈ L := by
          rw [List.mem_cons]
          exact ⟨fun e => e.resolve_left hne, Or.inr⟩
        simp only [hs, hm]
    · have hs : set3 t k x y (F x y (t k x y)) c a b = t c a b := by
        simp [set3, hc]
      simp only [hs, hc, false_and, if_false]

/-- When no safety violation is found, `buildPrimaryPolarHistogram` overwrites
every entry of the lists `cellSector[speedIndex][x][y]` of the cells its loop
visits with the magnitude of the cell, converted to `int`, and leaves every
other list alone. -/
theorem buildPrimary_cellSector (P : Platform) (s : VfhStar) (l : Scan) (v : ℚ)
    (h : (buildPrimaryPolarHistogram P s l v).2 = true) (k x y : Nat) :
    (buildPrimaryPolarHistogram P s l v).1.cellSector k x y
      = if k = (getSpeedIndex s v).toNat
            ∧ (x, y) ∈ cellsYX (⌈(s.windowDiameter : ℚ) / 2⌉ + 1).toNat s.windowDiameter.toNat
        then (s.cellSector k x y).map
          (fun _ => toInt ((buildPrimaryPolarHistogram P s l v).1.cellMag x y))
        else s.cellSector k x y := by
  unfold buildPrimaryPolarHistogram at h ⊢
  simp only at h ⊢
  split
  · rename_i hc
    rw [if_pos hc] at h
    exact absurd h (by simp)
  · have e := foldl_fill_lists (getSpeedIndex s v).toNat
      (fun a b l0 => l0.map (fun _ => toInt ((calculateCellsMagnitude P
        { s with histogram := s.histogram.map (fun _ => 0) } l v).1.cellMag a b)))
      (fun a b l0 => by simp)
      (cellsYX (⌈(s.windowDiameter : ℚ) / 2⌉ + 1).toNat s.windowDiameter.toNat)
      s.cellSector k x y
    exact e
/-! ## The claims -/

/-- C1 (the code departs from the claim).  The claim: in every reachable state
and on every tick `0 ≤ chosenLinearX ≤ currentMaxSpeed`.  The code, on the
first tick after `init` (`smallParam`, reference platform) with an empty field
and the goal 20 cm to the robot's right: `cannotTurnToGoal()` holds, the
increment is negated and `update` returns `chosenLinearX = -1/100`. -/
theorem linear_command_negative :
    (update refPlatform smallInit rightGoalTick).2.chosenLinearX = -1 / 100
    ∧ ¬ (0 ≤ (update refPlatform smallInit rightGoalTick).2.chosenLinearX
          ∧ (update refPlatform smallInit rightGoalTick).2.chosenLinearX
              ≤ smallInit.currentMaxSpeed) := by
  decide!

/-- C2 (the code departs from the claim).  The claim: on a tick that reports a
safety violation `update` returns `chosenLinearX = 0`.  The code, on the second
tick `boxedRightTick`, 250 ms after `clearTick`: the tick reports a safety
violation, the elapsed time is `1/4`, below the 0.3 s of the first-tick branch,
`lastChosenLinearX` is `1/100`, the goal lies inside the blocked circle, and
`update` returns `chosenLinearX = 1/100 − (1/10)·(1/4) = −3/200`, a negative
command. -/
theorem violation_command_negative :
    safetyViolation refPlatform afterClear boxedRightTick
    ∧ boxedRightTick.diffSeconds afterClear = 1 / 4
    ∧ afterClear.lastChosenLinearX = 1 / 100
    ∧ (update refPlatform afterClear boxedRightTick).2.chosenLinearX = -3 / 200
    ∧ (update refPlatform afterClear boxedRightTick).2.chosenLinearX < 0 := by
  decide!

/-- C3 (the code departs from the claim).  The claim: with the default
parameters after `init`, the scan whose sample 180 reads 5 cm and whose other
samples read 10 m makes `calculateCellsMagnitude` and
`buildPrimaryPolarHistogram` report a safety violation at every speed in
`[0, maxSpeed]`.  The code: for that scan and every such speed both return
`true`, no violation, on every platform whose `atan2` maps the first quadrant
into `[0, π/2]`: the laser index `rint(cellDirection · 2)` of a cell in front
lies between `0` and `7`, so sample 180 is never read. -/
theorem obstacle_ahead_not_detected (P : Platform) (raw : VfhStar) (now speed : ℚ)
    (hatan : ∀ a b : ℚ, 0 < a → 0 < b → 0 ≤ P.atan2 a b ∧ P.atan2 a b ≤ HPi)
    (h0 : 0 ≤ speed) (h1 : speed ≤ Param.default.maxSpeed) :
    (calculateCellsMagnitude P (init P (VfhStar.new Param.default raw) now) aheadScan speed).2
        = true
    ∧ (buildPrimaryPolarHistogram P (init P (VfhStar.new Param.default raw) now)
        aheadScan speed).2 = true := by
  obtain ⟨e1, _, _, e4, e5, e6, e7⟩ := init_default_fields P raw now
  have hmax : Param.default.maxSpeed = 4 / 10 := rfl
  rw [hmax] at h1
  have key : ∀ x y : Nat,
      x < (init P (VfhStar.new Param.default raw) now).windowDiameter.toNat →
      y < (⌈((init P (VfhStar.new Param.default raw) now).windowDiameter : ℚ) / 2⌉).toNat →
      ¬ (cellHit P (init P (VfhStar.new Param.default raw) now) aheadScan x y
          ∧ cellUnsafe (init P (VfhStar.new Param.default raw) now)
              ((init P (VfhStar.new Param.default raw) now).robotRadius
                + (getSafetyDistance (init P (VfhStar.new Param.default raw) now) speed : ℚ))
              x y) := by
    intro x y hx hy hhu
    obtain ⟨hh, hu⟩ := hhu
    rw [e1] at hx hy
    rw [ceil_sixty_half] at hy
    have hx60 : x < 60 := by simpa using hx
    have hy30 : y < 30 := by simpa using hy
    have hdir := init_cellDirection P (VfhStar.new Param.default raw) now x y
      (show x < (60 : Int).toNat by simpa using hx60)
      (show y < (60 : Int).toNat by simp; omega)
    have hw : (VfhStar.new Param.default raw).windowDiameter = 60 := rfl
    rw [hw, floor_sixty_half] at hdir
    obtain ⟨d0, d1⟩ := initDirection_front_bounds P hatan 30 30 x y (by omega) 0
    rw [← hdir] at d0 d1
    have i0 : 0 ≤ rint ((init P (VfhStar.new Param.default raw) now).cellDirection x y * 2) :=
      rint_nonneg _ (by linarith)
    have i1 : rint ((init P (VfhStar.new Param.default raw) now).cellDirection x y * 2) ≤ 7 := by
      apply rint_le_of_lt
      have := M_PI_lt_four
      push_cast
      have h35 : M_PI < 7 / 2 := by norm_num [M_PI]
      linarith
    unfold cellHit at hh
    rw [rdScan_aheadScan P _ i0 i1, DoubleCompare_pos_iff, e4] at hh
    unfold cellUnsafe at hu
    rw [DoubleCompare_neg_iff, e5, getSafetyDistance_default _ speed e6 e7 h0 h1] at hu
    have := hu.1
    push_cast at this
    linarith
  exact ⟨(calculateCellsMagnitude_true_iff P _ aheadScan speed).mpr key,
    (buildPrimary_true_iff P _ aheadScan speed).mpr key⟩

/-- Witness of C3: the reference platform, the all-zero raw object, speed
0.2 m/s. -/
theorem obstacle_ahead_not_detected_witness :
    ((∀ a b : ℚ, 0 < a → 0 < b → 0 ≤ refPlatform.atan2 a b ∧ refPlatform.atan2 a b ≤ HPi)
      ∧ (0 : ℚ) ≤ 1 / 5 ∧ (1 / 5 : ℚ) ≤ Param.default.maxSpeed)
    ∧ (buildPrimaryPolarHistogram refPlatform
        (init refPlatform (VfhStar.new Param.default zeroObject) 0) aheadScan (1 / 5)).2 = true :=
  ⟨⟨refPlatform_atan2_range, by norm_num, by norm_num [Param.default]⟩,
   (obstacle_ahead_not_detected refPlatform zeroObject 0 (1 / 5) refPlatform_atan2_range
      (by norm_num) (by norm_num [Param.default])).2⟩

/-- C4 (the code departs from the claim).  The claim: on a tick that reports a
safety violation while the robot is at rest, `update` returns
`chosenAngularZ = getMaxTurnrate(0)`, which is 80° in radians under the default
parameters.  The code: in every state reachable with the default parameters and
on every tick, `update` returns `chosenAngularZ = 0`, while `getMaxTurnrate(0)`
is 80° in radians, which is not `0`. -/
theorem spin_in_place_turnrate_lost (P : Platform) (s : VfhStar) (t : Tick)
    (hr : Reachable P Param.default s) :
    (update P s t).2.chosenAngularZ = 0
    ∧ getMaxTurnrate s 0 = DegreeToRadian 80
    ∧ (update P s t).2.chosenAngularZ ≠ getMaxTurnrate s 0 := by
  have hz : s.zeroMaxTurnrate = DegreeToRadian 80 := (reachable_turnrates P _ s hr).1
  have hpos : 0 < DegreeToRadian 80 := DegreeToRadian_pos 80 (by norm_num)
  have hg : getMaxTurnrate s 0 = DegreeToRadian 80 := by
    rw [getMaxTurnrate_zero s (by rw [hz]; exact le_of_lt hpos), hz]
  refine ⟨update_chosenAngularZ_eq P s t, hg, ?_⟩
  rw [update_chosenAngularZ_eq, hg]
  exact ne_of_lt hpos

/-- Witness of C4: the state right after `init` with the default parameters is
reachable and at rest, the boxed-in tick reports a safety violation there, and
`update` returns `chosenAngularZ = 0`. -/
theorem spin_in_place_turnrate_lost_witness :
    (Reachable refPlatform Param.default
        (init refPlatform (VfhStar.new Param.default zeroObject) 0)
      ∧ safetyViolation refPlatform
          (init refPlatform (VfhStar.new Param.default zeroObject) 0) boxedTick
      ∧ (init refPlatform (VfhStar.new Param.default zeroObject) 0).lastChosenLinearX = 0
      ∧ boxedTick.currentLinearX = 0)
    ∧ (update refPlatform (init refPlatform (VfhStar.new Param.default zeroObject) 0)
        boxedTick).2.chosenAngularZ = 0 :=
  ⟨⟨Reachable.init zeroObject 0,
    default_boxed_violation refPlatform zeroObject 0 refPlatform_atan2_range
      refPlatform_sqrt_two,
    init_lastChosenLinearX refPlatform Param.default zeroObject 0, rfl⟩,
   (spin_in_place_turnrate_lost refPlatform _ boxedTick (Reachable.init zeroObject 0)).1⟩

/-- C5.  For every state (reachable from `init` or not) and every tick, the
angular output of `update` satisfies
`|chosenAngularZ| ≤ getMaxTurnrate(0)`. -/
theorem angular_within_max_turnrate (P : Platform) (s : VfhStar) (t : Tick) :
    |(update P s t).2.chosenAngularZ| ≤ getMaxTurnrate s 0
    ∧ |(update P s t).2.chosenAngularZ| ≤ getMaxTurnrate (update P s t).1 0 := by
  rw [update_chosenAngularZ_eq, abs_zero]
  exact ⟨getMaxTurnrate_nonneg s 0, getMaxTurnrate_nonneg _ 0⟩

/-- Counterexample to C6 as stated: on the second tick `boxedLaterTick`, 50 ms
after `clearTick`, the tick reports a safety violation and the command drops
from `1/100` to `0`, which is more than
`maxAcceleration · dt + 1/10000 = 51/10000`. -/
theorem budget_both_ways_counterexample :
    safetyViolation refPlatform afterClear boxedLaterTick
    ∧ 0 ≤ boxedLaterTick.diffSeconds afterClear
    ∧ boxedLaterTick.diffSeconds afterClear ≤ 3 / 10
    ∧ ¬ (|(update refPlatform afterClear boxedLaterTick).2.chosenLinearX
            - afterClear.lastChosenLinearX|
          ≤ afterClear.maxAcceleration * boxedLaterTick.diffSeconds afterClear + 1 / 10000) := by
  decide!

/-- C6, amended.  For every tick whose elapsed time `dt` satisfies
`0 ≤ dt ≤ 0.3`, with `maxAcceleration ≥ 0`: the linear command rises by at most
the budget, `chosenLinearX − lastChosenLinearX ≤ maxAcceleration · dt + 1/10000`;
and whenever the speed cap of the picked direction is not below
`lastChosenLinearX` minus the budget, the command changes by at most the budget
in either direction. -/
theorem linear_change_within_budget (P : Platform) (s : VfhStar) (t : Tick)
    (hacc : 0 ≤ s.maxAcceleration) (h0 : 0 ≤ t.diffSeconds s) (h1 : t.diffSeconds s ≤ 3 / 10) :
    (update P s t).2.chosenLinearX - s.lastChosenLinearX
        ≤ s.maxAcceleration * t.diffSeconds s + 1 / 10000
    ∧ (s.lastChosenLinearX - (s.maxAcceleration * t.diffSeconds s + 1 / 10000)
          ≤ (update P s t).1.maxSpeedForPickedDirection →
        |(update P s t).2.chosenLinearX - s.lastChosenLinearX|
          ≤ s.maxAcceleration * t.diffSeconds s + 1 / 10000) := by
  have hinc := speedIncrement_abs_le (updateDirection P s t) (t.diffSeconds s)
    (cannotTurnToGoal P (updateDirection P s t))
    (by rw [updateDirection_maxAcceleration]; exact hacc) h0 h1
  rw [updateDirection_maxAcceleration] at hinc
  obtain ⟨hlo, hhi⟩ := abs_le.mp hinc
  have hcap : (update P s t).1.maxSpeedForPickedDirection
      = (updateDirection P s t).maxSpeedForPickedDirection := rfl
  rw [update_chosenLinearX_eq, hcap]
  constructor
  · have := min_le_left
      (s.lastChosenLinearX + speedIncrement (updateDirection P s t) (t.diffSeconds s)
        (cannotTurnToGoal P (updateDirection P s t)))
      (updateDirection P s t).maxSpeedForPickedDirection
    linarith
  · intro hc
    rw [abs_le]
    constructor
    · have := le_min
        (show s.lastChosenLinearX - (s.maxAcceleration * t.diffSeconds s + 1 / 10000)
            ≤ s.lastChosenLinearX + speedIncrement (updateDirection P s t) (t.diffSeconds s)
                (cannotTurnToGoal P (updateDirection P s t)) by linarith) hc
      linarith
    · have := min_le_left
        (s.lastChosenLinearX + speedIncrement (updateDirection P s t) (t.diffSeconds s)
          (cannotTurnToGoal P (updateDirection P s t)))
        (updateDirection P s t).maxSpeedForPickedDirection
      linarith

/-- Witness of C6, amended: the second tick `boxedLaterTick` after `clearTick`;
the command falls to `0`, it does not rise. -/
theorem linear_change_within_budget_witness :
    (0 ≤ afterClear.maxAcceleration ∧ 0 ≤ boxedLaterTick.diffSeconds afterClear
      ∧ boxedLaterTick.diffSeconds afterClear ≤ 3 / 10)
    ∧ (update refPlatform afterClear boxedLaterTick).2.chosenLinearX
        - afterClear.lastChosenLinearX
        ≤ afterClear.maxAcceleration * boxedLaterTick.diffSeconds afterClear + 1 / 10000 :=
  ⟨by decide!,
   (linear_change_within_budget refPlatform afterClear boxedLaterTick
      (by decide!) (by decide!) (by decide!)).1⟩

/-- C7.  Hold and brake: when a tick reports a safety violation, `update`
leaves the object with `pickedDirection` equal to the `lastPickedDirection`
held before the tick, with `lastPickedDirection` unchanged and with the speed
cap `maxSpeedForPickedDirection` equal to `0`; and `selectCandidateAngle`
entered with an empty candidate list does the same. -/
theorem hold_and_brake (P : Platform) (s : VfhStar) (t : Tick) (c : VfhStar) :
    (safetyViolation P s t →
      (update P s t).1.pickedDirection = s.lastPickedDirection
      ∧ (update P s t).1.lastPickedDirection = s.lastPickedDirection
      ∧ (update P s t).1.maxSpeedForPickedDirection = 0)
    ∧ (c.candidateAngle = [] →
      (selectCandidateAngle c).pickedDirection = c.lastPickedDirection
      ∧ (selectCandidateAngle c).lastPickedDirection = c.lastPickedDirection
      ∧ (selectCandidateAngle c).maxSpeedForPickedDirection = 0) := by
  constructor
  · intro hv
    exact updateDirection_of_violation P s t hv
  · intro hc
    unfold selectCandidateAngle
    rw [if_pos (by rw [hc]; exact le_rfl)]
    exact ⟨rfl, rfl, rfl⟩

/-- Witness of C7: the boxed-in tick right after `init` reports a safety
violation, and the object right after `init` has no candidates. -/
theorem hold_and_brake_witness :
    (safetyViolation refPlatform smallInit boxedTick ∧ smallInit.candidateAngle = [])
    ∧ ((update refPlatform smallInit boxedTick).1.pickedDirection = smallInit.lastPickedDirection
      ∧ (update refPlatform smallInit boxedTick).1.lastPickedDirection
          = smallInit.lastPickedDirection
      ∧ (update refPlatform smallInit boxedTick).1.maxSpeedForPickedDirection = 0)
    ∧ ((selectCandidateAngle smallInit).pickedDirection = smallInit.lastPickedDirection
      ∧ (selectCandidateAngle smallInit).lastPickedDirection = smallInit.lastPickedDirection
      ∧ (selectCandidateAngle smallInit).maxSpeedForPickedDirection = 0) :=
  ⟨⟨by decide!, by decide!⟩,
   (hold_and_brake refPlatform smallInit boxedTick smallInit).1 (by decide!),
   (hold_and_brake refPlatform smallInit boxedTick smallInit).2 (by decide!)⟩

/-- C8.  In every state reachable from `init` by calls of `update`,
`lastBinaryHistogram` holds only `0` and `1`; and for every primary histogram
of the allocated size and every speed, every entry of the histogram is `0` or
`1` right after `buildBinaryPolarHistogram`. -/
theorem binary_histogram_entries (P : Platform) (param : Param) (s : VfhStar)
    (hr : Reachable P param s) :
    (∀ a ∈ s.lastBinaryHistogram, a = 0 ∨ a = 1)
    ∧ ∀ (primary : List ℚ) (speed : ℚ), primary.length = s.histogram.length →
        ∀ a ∈ (buildBinaryPolarHistogram P { s with histogram := primary } speed).histogram,
          a = 0 ∨ a = 1 := by
  have inv := reachable_histInv P param s hr
  refine ⟨inv.last_binary, fun primary speed hlen => ?_⟩
  exact (buildBinary_binary P { s with histogram := primary } speed
    (hlen.trans inv.histogram_length) inv.last_length inv.last_binary).1

/-- Witness of C8: the object right after `init` is reachable; its saved
histogram and the thresholded image of a primary histogram of 72 bins of weight
`3000000` hold only `0` and `1`. -/
theorem binary_histogram_entries_witness :
    Reachable refPlatform smallParam smallInit
    ∧ (List.replicate 72 (3000000 : ℚ)).length = smallInit.histogram.length
    ∧ (∀ a ∈ smallInit.lastBinaryHistogram, a = 0 ∨ a = 1)
    ∧ ∀ a ∈ (buildBinaryPolarHistogram refPlatform
          { smallInit with histogram := List.replicate 72 3000000 } (1 / 10)).histogram,
        a = 0 ∨ a = 1 :=
  ⟨Reachable.init zeroObject 0, by decide!,
   (binary_histogram_entries refPlatform smallParam smallInit (Reachable.init zeroObject 0)).1,
   (binary_histogram_entries refPlatform smallParam smallInit (Reachable.init zeroObject 0)).2
     (List.replicate 72 3000000) (1 / 10) (by decide!)⟩

/-- C9.  The hysteresis rule: in a histogram of `histogramSize` bins, for every
bin `i`, `buildBinaryPolarHistogram` sets `histogram[i]` to `1` if the primary
value exceeds `getObsBinaryHistogram(v)`, otherwise to `0` if it lies below
`getFreeBinaryHistogram(v)`, otherwise to the previous binary value; and on
return `lastBinaryHistogram` equals the new histogram. -/
theorem hysteresis_rule (P : Platform) (s : VfhStar) (v : ℚ) (i : Nat)
    (hH : s.histogram.length = s.histogramSize.toNat)
    (hL : s.lastBinaryHistogram.length = s.histogramSize.toNat)
    (hi : i < s.histogramSize.toNat) :
    (buildBinaryPolarHistogram P s v).histogram[i]?
        = some (if s.histogram.getD i 0 > getObsBinaryHistogram s v then 1
                else if s.histogram.getD i 0 < getFreeBinaryHistogram s v then 0
                else s.lastBinaryHistogram.getD i 0)
    ∧ (buildBinaryPolarHistogram P s v).lastBinaryHistogram
        = (buildBinaryPolarHistogram P s v).histogram := by
  constructor
  · rw [(buildBinary_bin P s v i hH hL hi).1]
    simp only [binaryValue, DoubleCompare_pos_iff, DoubleCompare_neg_iff, gt_iff_lt]
  · apply List.ext_getElem?
    intro j
    by_cases hj : j < s.histogramSize.toNat
    · rw [(buildBinary_bin P s v j hH hL hj).1, (buildBinary_bin P s v j hH hL hj).2]
    · rw [List.getElem?_eq_none (by rw [buildBinary_last_length, hL]; exact not_lt.mp hj),
        List.getElem?_eq_none (by rw [buildBinary_histogram_length, hH]; exact not_lt.mp hj)]

/-- Witness of C9: three bins with the primary values `5`, `1`, `3`, the
thresholds `4` (obstacle) and `2` (free) and the previous values `0`, `1`, `1`;
the middle case keeps the previous `1` of bin 2. -/
theorem hysteresis_rule_witness :
    (({ zeroObject with
          histogramSize := 3, histogram := [5, 1, 3], lastBinaryHistogram := [0, 1, 1]
          zeroObsBinaryHistogram := 4, zeroFreeBinaryHistogram := 2 } : VfhStar).histogram.length
        = (3 : Int).toNat
      ∧ ([0, 1, 1] : List ℚ).length = (3 : Int).toNat ∧ 2 < (3 : Int).toNat)
    ∧ (buildBinaryPolarHistogram refPlatform
          { zeroObject with
            histogramSize := 3, histogram := [5, 1, 3], lastBinaryHistogram := [0, 1, 1]
            zeroObsBinaryHistogram := 4, zeroFreeBinaryHistogram := 2 } 0).histogram[2]?
        = some 1 :=
  ⟨⟨by decide, by decide, by decide⟩,
   ((hysteresis_rule refPlatform
      { zeroObject with
        histogramSize := 3, histogram := [5, 1, 3], lastBinaryHistogram := [0, 1, 1]
        zeroObsBinaryHistogram := 4, zeroFreeBinaryHistogram := 2 } 0 2
      (by decide) (by decide) (by decide)).1).trans (by decide!)⟩

/-- C10 (the code departs from the claim).  The claim: without a safety
violation every bin listed in `cellSector[speedIndex][x][y]` receives a cell
magnitude and the `cellSector` table is left unchanged.  The code, right after
`init` (`smallParam`, reference platform), every ray reading 25 cm, speed `0`:
no violation; the cell `(5, 2)` is occupied (`cellMag ≠ 0`) and its list is
`[72]`; the histogram is left with all 72 bins `0`; and the list of the cell
is overwritten with the truncated magnitude `[594188]`. -/
theorem primary_histogram_not_written :
    (buildPrimaryPolarHistogram refPlatform smallInit (constScan (1 / 4)) 0).2 = true
    ∧ getSpeedIndex smallInit 0 = 0
    ∧ smallInit.cellSector 0 5 2 = [72]
    ∧ (buildPrimaryPolarHistogram refPlatform smallInit (constScan (1 / 4)) 0).1.cellMag 5 2 ≠ 0
    ∧ (buildPrimaryPolarHistogram refPlatform smallInit (constScan (1 / 4)) 0).1.histogram
        = List.replicate 72 0
    ∧ (buildPrimaryPolarHistogram refPlatform smallInit (constScan (1 / 4)) 0).1.cellSector 0 5 2
        = [594188] := by
  decide!

/-- C11.  Masking only blocks: in a histogram of `histogramSize` bins, for
every sector `i`, after `buildMaskedPolarHistogram` the entry `histogram[i]`
is `0` or `1`; it is `0` only if it was `0` before masking, and a sector that
was occupied (`1`) stays occupied, whatever the cell loop computed for
`phi_left` and `phi_right`. -/
theorem masking_only_blocks (P : Platform) (s : VfhStar) (v : ℚ) (i : Nat)
    (hH : s.histogram.length = s.histogramSize.toNat) (hi : i < s.histogramSize.toNat) :
    ∃ r, (buildMaskedPolarHistogram P s v).histogram[i]? = some r
      ∧ (r = 0 ∨ r = 1)
      ∧ (r = 0 → s.histogram.getD i 0 = 0)
      ∧ (s.histogram.getD i 0 = 1 → r = 1) := by
  obtain ⟨s1, pl, pr, hget⟩ := buildMasked_histogram_get P s v
  have hiH : i < s.histogram.length := hH ▸ hi
  have e1 : s.histogram[i]? = some s.histogram[i] := List.getElem?_eq_getElem hiH
  have g1 : s.histogram.getD i 0 = s.histogram[i] := by
    rw [List.getD_eq_getElem?_getD, e1]; rfl
  obtain ⟨hc, hz⟩ := maskedValue_cases s1 pl pr i s.histogram[i]
  refine ⟨maskedValue s1 pl pr i s.histogram[i], ?_, hc, ?_, ?_⟩
  · rw [hget, e1]
    simp only [Option.map_some', if_pos hi]
  · intro h0
    rw [g1]; exact hz h0
  · intro h1
    rcases hc with h0 | h
    · have := hz h0
      rw [g1, this] at h1
      exact absurd h1 (by norm_num)
    · exact h

/-- Witness of C11: the histogram with the sectors 1..11 free, at sector 0
(occupied) and speed `0`. -/
theorem masking_only_blocks_witness :
    (narrowOpeningState.histogram.length = narrowOpeningState.histogramSize.toNat
      ∧ 0 < narrowOpeningState.histogramSize.toNat)
    ∧ ∃ r, (buildMaskedPolarHistogram refPlatform narrowOpeningState 0).histogram[0]? = some r
      ∧ (r = 0 ∨ r = 1)
      ∧ (r = 0 → narrowOpeningState.histogram.getD 0 0 = 0)
      ∧ (narrowOpeningState.histogram.getD 0 0 = 1 → r = 1) :=
  ⟨by decide!,
   masking_only_blocks refPlatform narrowOpeningState 0 0 (by decide!) (by decide!)⟩

/-- C12.  If no sector with index in `[0, histogramSize/2)` of the masked
histogram is occupied, `selectDirection` picks the desired direction
(`pickedDirection = lastPickedDirection = desiredDirection`), sets the speed
cap to `currentMaxSpeed` and leaves both candidate vectors empty; and on a tick
of `update` without safety violation whose masked histogram is such, the desired
direction is `goalDirection + π/2`. -/
theorem unobstructed_picks_desired (P : Platform) (c : VfhStar) (s : VfhStar) (t : Tick) :
    ((∀ i : Nat, i < c.histogramSize.toNat / 2 → rd P c.histogram i ≠ 1) →
      (selectDirection P c).pickedDirection = c.desiredDirection
      ∧ (selectDirection P c).lastPickedDirection = c.desiredDirection
      ∧ (selectDirection P c).desiredDirection = c.desiredDirection
      ∧ (selectDirection P c).maxSpeedForPickedDirection = c.currentMaxSpeed
      ∧ (selectDirection P c).candidateAngle = []
      ∧ (selectDirection P c).candidateSpeed = [])
    ∧ (¬ safetyViolation P s t →
      (∀ i : Nat, i < (maskedState P s t).histogramSize.toNat / 2 →
        rd P (maskedState P s t).histogram i ≠ 1) →
      (update P s t).1.pickedDirection = t.goalDirection + HPi
      ∧ (update P s t).1.lastPickedDirection = t.goalDirection + HPi
      ∧ (update P s t).1.desiredDirection = t.goalDirection + HPi
      ∧ (update P s t).1.maxSpeedForPickedDirection = s.currentMaxSpeed
      ∧ (update P s t).1.candidateAngle = []
      ∧ (update P s t).1.candidateSpeed = []) := by
  have key : ∀ c : VfhStar,
      (∀ i : Nat, i < c.histogramSize.toNat / 2 → rd P c.histogram i ≠ 1) →
      (selectDirection P c).pickedDirection = c.desiredDirection
      ∧ (selectDirection P c).lastPickedDirection = c.desiredDirection
      ∧ (selectDirection P c).desiredDirection = c.desiredDirection
      ∧ (selectDirection P c).maxSpeedForPickedDirection = c.currentMaxSpeed
      ∧ (selectDirection P c).candidateAngle = []
      ∧ (selectDirection P c).candidateSpeed = [] := by
    intro c h
    rw [selectDirection_of_none P c ((findStart_eq_none_iff P c).mpr h)]
    exact ⟨rfl, rfl, rfl, rfl, rfl, rfl⟩
  refine ⟨key c, fun hs hfree => ?_⟩
  have hu : (update P s t).1.pickedDirection = (updateDirection P s t).pickedDirection
      ∧ (update P s t).1.lastPickedDirection = (updateDirection P s t).lastPickedDirection
      ∧ (update P s t).1.desiredDirection = (updateDirection P s t).desiredDirection
      ∧ (update P s t).1.maxSpeedForPickedDirection
          = (updateDirection P s t).maxSpeedForPickedDirection
      ∧ (update P s t).1.candidateAngle = (updateDirection P s t).candidateAngle
      ∧ (update P s t).1.candidateSpeed = (updateDirection P s t).candidateSpeed :=
    ⟨rfl, rfl, rfl, rfl, rfl, rfl⟩
  obtain ⟨u1, u2, u3, u4, u5, u6⟩ := hu
  obtain ⟨k1, k2, k3, k4, k5, k6⟩ := key (maskedState P s t) hfree
  obtain ⟨md, mc⟩ := maskedState_desiredDirection P s t
  rw [u1, u2, u3, u4, u5, u6, update_of_safe P s t hs, k1, k2, k3, k4, k5, k6, md, mc]
  exact ⟨rfl, rfl, rfl, rfl, rfl, rfl⟩

/-- Witness of C12: the masked histogram with the sectors 0..36 free, and the
tick `clearTick` right after `init`. -/
theorem unobstructed_picks_desired_witness :
    ((∀ i : Nat, i < ({ smallInit with histogram := openingHistogram 0 36 } : VfhStar).histogramSize.toNat / 2 →
          rd refPlatform ({ smallInit with histogram := openingHistogram 0 36 } : VfhStar).histogram i ≠ 1)
      ∧ ¬ safetyViolation refPlatform smallInit clearTick
      ∧ (∀ i : Nat, i < (maskedState refPlatform smallInit clearTick).histogramSize.toNat / 2 →
          rd refPlatform (maskedState refPlatform smallInit clearTick).histogram i ≠ 1))
    ∧ (selectDirection refPlatform
        { smallInit with histogram := openingHistogram 0 36 }).candidateAngle = []
    ∧ (update refPlatform smallInit clearTick).1.pickedDirection = clearTick.goalDirection + HPi :=
  ⟨by decide!,
   ((unobstructed_picks_desired refPlatform { smallInit with histogram := openingHistogram 0 36 }
      smallInit clearTick).1 (by decide!)).2.2.2.2.1,
   ((unobstructed_picks_desired refPlatform { smallInit with histogram := openingHistogram 0 36 }
      smallInit clearTick).2 (by decide!) (by decide!)).1⟩

/-- C13 (the code departs from the claim).  The claim: an opening whose border
angles `a`, `b` satisfy `10° ≤ |DeltaAngle(a, b)| < 80°` yields exactly one
candidate, at the midpoint; with sector angle 5° and the sectors 1..11 free,
one candidate at 30°.  The code, on that histogram (`narrowOpeningState`):
sector 0 is occupied, the opening spans 50°, and `selectDirection` produces no
candidate at all and brakes (speed cap `0`): the borders are stored in a
`std::pair<int, int>`, so both 5° and 55° in radians are truncated to `0`. -/
theorem narrow_opening_yields_no_candidate :
    rd refPlatform narrowOpeningState.histogram 0 = 1
    ∧ DegreeToRadian 10
        ≤ |DeltaAngle (1 * narrowOpeningState.sectorAngle) (11 * narrowOpeningState.sectorAngle)|
    ∧ |DeltaAngle (1 * narrowOpeningState.sectorAngle) (11 * narrowOpeningState.sectorAngle)|
        < DegreeToRadian 80
    ∧ 1 * narrowOpeningState.sectorAngle
        + (11 * narrowOpeningState.sectorAngle - 1 * narrowOpeningState.sectorAngle) / 2
        = DegreeToRadian 30
    ∧ toInt (1 * narrowOpeningState.sectorAngle) = 0
    ∧ toInt (11 * narrowOpeningState.sectorAngle) = 0
    ∧ (selectDirection refPlatform narrowOpeningState).candidateAngle = []
    ∧ (selectDirection refPlatform narrowOpeningState).candidateSpeed = []
    ∧ (selectDirection refPlatform narrowOpeningState).maxSpeedForPickedDirection = 0 := by
  decide!

/-- C14 (the code departs from the claim).  The claim: every angle
`selectDirection` puts in `candidateAngle` lies in `[0, 2π)`.  The code, on the
masked histogram with the sectors 1..30 free and the goal direction `1 + 3π/2`
(`wideOpeningFarGoal`): the desired direction `1 + 2π` lies in the wide opening
and is pushed as the fourth candidate as it is, not normalised, so the list
holds an angle that is not below `2π`; the two vectors have the same length. -/
theorem desired_direction_pushed_raw :
    wideOpeningFarGoal.desiredDirection = 1 + DPi
    ∧ (selectDirection refPlatform wideOpeningFarGoal).candidateAngle
        = [1, NormalizeAnglePositive (0 + DegreeToRadian 40),
            NormalizeAnglePositive (2 - DegreeToRadian 40), 1 + DPi]
    ∧ ¬ (∀ c ∈ (selectDirection refPlatform wideOpeningFarGoal).candidateAngle,
          0 ≤ c ∧ c < DPi)
    ∧ (selectDirection refPlatform wideOpeningFarGoal).candidateAngle.length
        = (selectDirection refPlatform wideOpeningFarGoal).candidateSpeed.length := by
  decide!

/-- Counterexample to C15 as stated: with `desiredDirectionWeight` equal to the
largest finite double and the single candidate `4`, the cost of the candidate
is not below the starting value `DBL_MAX` of `minweight`, the loop never
assigns, and `pickedDirection` is left at `π/2`, which is not in the list. -/
theorem pick_minimal_counterexample :
    heavyWeightState.candidateAngle ≠ []
    ∧ ¬ (candidateCost heavyWeightState 4 < DBL_MAX)
    ∧ (selectCandidateAngle heavyWeightState).pickedDirection = HPi
    ∧ (selectCandidateAngle heavyWeightState).pickedDirection
        ∉ heavyWeightState.candidateAngle := by
  decide!

/-- C15, amended.  For every non-empty candidate list in which some candidate
has a cost below `DBL_MAX`, `selectCandidateAngle` sets `pickedDirection` to a
member `x` of the list whose cost
`desiredDirectionWeight·|DeltaAngle(desiredDirection, c)| +
currentDirectionWeight·|DeltaAngle(lastPickedDirection, c)|` is minimal over
the list; every candidate before `x` in list order (the prefix `L1`) has a
strictly larger cost, so among candidates of equal minimal cost the first is
picked; and `lastPickedDirection` is set to the picked angle. -/
theorem picks_first_minimal (s : VfhStar) (_hne : s.candidateAngle ≠ [])
    (hfin : ∃ c ∈ s.candidateAngle, candidateCost s c < DBL_MAX) :
    ∃ L1 x L2, s.candidateAngle = L1 ++ x :: L2
      ∧ (selectCandidateAngle s).pickedDirection = x
      ∧ (selectCandidateAngle s).lastPickedDirection = x
      ∧ (∀ c ∈ s.candidateAngle, candidateCost s x ≤ candidateCost s c)
      ∧ (∀ c ∈ L1, candidateCost s x < candidateCost s c) := by
  obtain ⟨L1, x, L2, hL, hp, hl, _, h1, h2⟩ := selectCandidateAngle_picks s hfin
  refine ⟨L1, x, L2, hL, hp, hl, ?_, h1⟩
  intro c hc
  rw [hL] at hc
  rcases List.mem_append.mp hc with hc | hc
  · exact le_of_lt (h1 c hc)
  · rcases List.mem_cons.mp hc with rfl | hc
    · exact le_rfl
    · exact h2 c hc

/-- Witness of C15, amended: the candidates `1`, `2`, `2` with the desired and
the last picked direction both `π/2`; the first `2` is picked. -/
theorem picks_first_minimal_witness :
    (threeCandidates.candidateAngle ≠ []
      ∧ ∃ c ∈ threeCandidates.candidateAngle, candidateCost threeCandidates c < DBL_MAX)
    ∧ (∃ L1 x L2, threeCandidates.candidateAngle = L1 ++ x :: L2
      ∧ (selectCandidateAngle threeCandidates).pickedDirection = x
      ∧ (selectCandidateAngle threeCandidates).lastPickedDirection = x
      ∧ (∀ c ∈ threeCandidates.candidateAngle,
          candidateCost threeCandidates x ≤ candidateCost threeCandidates c)
      ∧ (∀ c ∈ L1, candidateCost threeCandidates x < candidateCost threeCandidates c))
    ∧ (selectCandidateAngle threeCandidates).pickedDirection = 2 :=
  ⟨by decide!, picks_first_minimal threeCandidates (by decide!) (by decide!), by decide!⟩

/-- C16 (the code departs from the claim).  The claim: after
`selectCandidateAngle` the speed cap equals `candidateSpeed[k]`, the cap paired
with the picked candidate, and never exceeds `currentMaxSpeed`.  The code, on
the masked histogram with the sectors 1..30 free (`wideOpeningState`):
`selectDirection` generates three candidates, all with the speed cap `2/5`;
`selectCandidateAngle` picks the third, the angle `2 − 40°` in radians, and
stores that angle in `maxSpeedForPickedDirection`, which so exceeds
`currentMaxSpeed = 2/5`. -/
theorem speed_cap_is_the_angle :
    (selectDirection refPlatform wideOpeningState).candidateAngle
        = [1, NormalizeAnglePositive (0 + DegreeToRadian 40),
            NormalizeAnglePositive (2 - DegreeToRadian 40)]
    ∧ (selectDirection refPlatform wideOpeningState).candidateSpeed = [2 / 5, 2 / 5, 2 / 5]
    ∧ (selectDirection refPlatform wideOpeningState).pickedDirection
        = NormalizeAnglePositive (2 - DegreeToRadian 40)
    ∧ (selectDirection refPlatform wideOpeningState).maxSpeedForPickedDirection
        = NormalizeAnglePositive (2 - DegreeToRadian 40)
    ∧ (selectDirection refPlatform wideOpeningState).maxSpeedForPickedDirection ≠ 2 / 5
    ∧ wideOpeningState.currentMaxSpeed = 2 / 5
    ∧ ¬ ((selectDirection refPlatform wideOpeningState).maxSpeedForPickedDirection
          ≤ wideOpeningState.currentMaxSpeed) := by
  decide!

/-- Counterexample to C17 as stated: with the picked direction exactly `3π/2`
and a positive linear velocity, `setMotion` returns the turn rate `−mx`
(−80° in radians), while the mapping of the claim sends `3π/2` to the clamped
forward-cone value, which is `+mx`. -/
theorem setMotion_three_quarter_counterexample :
    (setMotion threeQuarterState 0 (1 / 10) 0).2 = -DegreeToRadian 80
    ∧ (setMotionSpec threeQuarterState 0 (1 / 10)).2 = DegreeToRadian 80
    ∧ setMotion threeQuarterState 0 (1 / 10) 0 ≠ setMotionSpec threeQuarterState 0 (1 / 10) := by
  decide!

/-- C17, amended.  `setMotion`, as a function of `(actualSpeed, linearX,
pickedDirection)` with `mx = getMaxTurnrate(actualSpeed)`: `linearX ≤ 0` gives
`(0, +mx)`; otherwise a picked direction in `[3π/2, 2π)`, `3π/2` included,
gives `−mx`; one in `[π, 3π/2)` gives `+mx`; every other one gives
`rint(((pickedDirection − π/2) / 75°) · mx)` clamped to `[−mx, +mx]`.  In all
cases `|turnrate| ≤ mx` and the linear velocity returned is `≥ 0`. -/
theorem setMotion_mapping (s : VfhStar) (actualSpeed linearX turnrate : ℚ) :
    setMotion s actualSpeed linearX turnrate
      = (if linearX ≤ 0 then (0, getMaxTurnrate s actualSpeed)
         else if TQCircle ≤ s.pickedDirection ∧ s.pickedDirection < DPi then
           (linearX, -getMaxTurnrate s actualSpeed)
         else if M_PI ≤ s.pickedDirection ∧ s.pickedDirection < TQCircle then
           (linearX, getMaxTurnrate s actualSpeed)
         else
           (linearX,
             max (-getMaxTurnrate s actualSpeed)
               (min (getMaxTurnrate s actualSpeed)
                 ((rint (((s.pickedDirection - HPi) / DegreeToRadian 75)
                    * getMaxTurnrate s actualSpeed) : Int) : ℚ))))
    ∧ |(setMotion s actualSpeed linearX turnrate).2| ≤ getMaxTurnrate s actualSpeed
    ∧ 0 ≤ (setMotion s actualSpeed linearX turnrate).1 := by
  have hmx := getMaxTurnrate_nonneg s actualSpeed
  have heq : setMotion s actualSpeed linearX turnrate
      = (if linearX ≤ 0 then (0, getMaxTurnrate s actualSpeed)
         else if TQCircle ≤ s.pickedDirection ∧ s.pickedDirection < DPi then
           (linearX, -getMaxTurnrate s actualSpeed)
         else if M_PI ≤ s.pickedDirection ∧ s.pickedDirection < TQCircle then
           (linearX, getMaxTurnrate s actualSpeed)
         else
           (linearX,
             max (-getMaxTurnrate s actualSpeed)
               (min (getMaxTurnrate s actualSpeed)
                 ((rint (((s.pickedDirection - HPi) / DegreeToRadian 75)
                    * getMaxTurnrate s actualSpeed) : Int) : ℚ)))) := by
    unfold setMotion
    simp only [DoubleCompare_nonpos_iff, DoubleCompare_nonneg_iff, DoubleCompare_neg_iff]
    by_cases h1 : linearX ≤ 0
    · rw [if_pos h1, if_pos h1]
    · rw [if_neg h1, if_neg h1]
      by_cases h2 : TQCircle ≤ s.pickedDirection ∧ s.pickedDirection < DPi
      · rw [if_pos h2, if_pos h2]
      · rw [if_neg h2, if_neg h2]
        by_cases h3 : M_PI ≤ s.pickedDirection ∧ s.pickedDirection < TQCircle
        · rw [if_pos h3.symm, if_pos h3]
        · have h3' : ¬ (s.pickedDirection < TQCircle ∧ M_PI ≤ s.pickedDirection) :=
            fun h => h3 h.symm
          rw [if_neg h3', if_neg h3]
          have hc := clamp_copysign (getMaxTurnrate s actualSpeed)
            ((rint (((s.pickedDirection - HPi) / DegreeToRadian 75)
              * getMaxTurnrate s actualSpeed) : Int) : ℚ) hmx
          simp only [DoubleCompare_pos_iff]
          by_cases h4 : |((rint (((s.pickedDirection - HPi) / DegreeToRadian 75)
              * getMaxTurnrate s actualSpeed) : Int) : ℚ)| > getMaxTurnrate s actualSpeed
          · rw [if_pos h4] at hc
            rw [if_pos h4, hc]
          · rw [if_neg h4] at hc
            rw [if_neg h4]
            exact congrArg (Prod.mk linearX) hc
  refine ⟨heq, ?_, ?_⟩
  · rw [heq]
    split_ifs
    · rw [abs_of_nonneg hmx]
    · rw [abs_neg, abs_of_nonneg hmx]
    · rw [abs_of_nonneg hmx]
    · exact abs_le.mpr ⟨le_max_left _ _, max_le (by linarith) (min_le_left _ _)⟩
  · rw [heq]
    split_ifs with h1
    · exact le_rfl
    · exact le_of_lt (not_le.mp h1)
    · exact le_of_lt (not_le.mp h1)
    · exact le_of_lt (not_le.mp h1)

/-- Counterexample to C19 as stated: with `zeroMaxTurnrate` 40° and
`maxMaxTurnrate` 80° the turn rate grows with the speed,
`getMaxTurnrate(1) > getMaxTurnrate(0)`. -/
theorem turnrate_monotone_counterexample :
    (0 : ℚ) ≤ 1
    ∧ getMaxTurnrate swappedTurnrates 0 = DegreeToRadian 40
    ∧ getMaxTurnrate swappedTurnrates 1 = DegreeToRadian 80
    ∧ ¬ (getMaxTurnrate swappedTurnrates 1 ≤ getMaxTurnrate swappedTurnrates 0) := by
  decide!

/-- C19, amended.  `getMaxTurnrate(v) = max(0, zeroMaxTurnrate −
v·(zeroMaxTurnrate − maxMaxTurnrate))`, and for every parameter bundle with
`maxMaxTurnrate ≤ zeroMaxTurnrate` it is monotonically non-increasing in the
speed: `v1 ≤ v2` gives `getMaxTurnrate(v2) ≤ getMaxTurnrate(v1)`. -/
theorem turnrate_monotone (s : VfhStar) (v1 v2 : ℚ)
    (hp : s.maxMaxTurnrate ≤ s.zeroMaxTurnrate) (hv : v1 ≤ v2) :
    getMaxTurnrate s v1
        = max 0 (s.zeroMaxTurnrate - v1 * (s.zeroMaxTurnrate - s.maxMaxTurnrate))
    ∧ getMaxTurnrate s v2 ≤ getMaxTurnrate s v1 := by
  refine ⟨getMaxTurnrate_eq s v1, ?_⟩
  rw [getMaxTurnrate_eq, getMaxTurnrate_eq]
  apply max_le_max le_rfl
  have : v1 * (s.zeroMaxTurnrate - s.maxMaxTurnrate)
      ≤ v2 * (s.zeroMaxTurnrate - s.maxMaxTurnrate) :=
    mul_le_mul_of_nonneg_right hv (by linarith)
  linarith

/-- Witness of C19, amended: the default turn rates (80° and 40°) at the speeds
0.1 and 0.3 m/s. -/
theorem turnrate_monotone_witness :
    ((VfhStar.new Param.default zeroObject).maxMaxTurnrate
        ≤ (VfhStar.new Param.default zeroObject).zeroMaxTurnrate
      ∧ (1 / 10 : ℚ) ≤ 3 / 10)
    ∧ getMaxTurnrate (VfhStar.new Param.default zeroObject) (3 / 10)
        ≤ getMaxTurnrate (VfhStar.new Param.default zeroObject) (1 / 10) :=
  ⟨by decide!,
   (turnrate_monotone (VfhStar.new Param.default zeroObject) (1 / 10) (3 / 10)
      (by decide!) (by decide!)).2⟩

/-- C20 (the code departs from the claim).  The claim: the histogram size
`round(2π / sectorAngle)` is also the number of sectors the loop of `init`
enumerates.  The code, with a sector angle of 11° (`elevenDegreeParam`,
reference platform): both histograms have `histogramSize = 33` entries, while
the sector loop runs to `n = (int)(DPi / sectorAngle) = 32`; the loop counter
on exit, 32, is what the cell `(5, 2)` gets in its sector list. -/
theorem sector_loop_bound_truncated :
    0 < elevenDegreeParam.sectorAngle
    ∧ (init refPlatform (VfhStar.new elevenDegreeParam zeroObject) 0).histogramSize = 33
    ∧ (init refPlatform (VfhStar.new elevenDegreeParam zeroObject) 0).histogram.length = 33
    ∧ (init refPlatform (VfhStar.new elevenDegreeParam zeroObject) 0).lastBinaryHistogram.length
        = 33
    ∧ toInt (DPi / (init refPlatform (VfhStar.new elevenDegreeParam zeroObject) 0).sectorAngle)
        = 32
    ∧ (init refPlatform (VfhStar.new elevenDegreeParam zeroObject) 0).cellSector 0 5 2 = [32] := by
  decide!

/-- C21 (the code departs from the claim).  The claim: for a non-empty table of
size `sz` and a speed `≥ 0`, `getMinTurningRadiusIndex(speed)` returns
`min(⌊speed·1000⌋, sz − 1)`, a valid index, and the lookup
`minTurningRadius[index]` of `buildMaskedPolarHistogram` is in bounds.  The
code: for every object and every speed the function returns `sz` itself, which
is never the claimed value and never below `sz`, and the lookup reads past the
end of the table.  Right after `init` (`smallParam`, 401 entries) at 0.2 m/s it
returns `401` where the claim has `200`. -/
theorem min_turning_radius_index_is_size :
    (∀ (P : Platform) (s : VfhStar) (speed : ℚ),
      getMinTurningRadiusIndex s speed = (s.minTurningRadius.length : Int)
      ∧ getMinTurningRadiusIndex s speed
          ≠ min ⌊speed * 1000⌋ ((s.minTurningRadius.length : Int) - 1)
      ∧ ¬ getMinTurningRadiusIndex s speed < (s.minTurningRadius.length : Int)
      ∧ rd P s.minTurningRadius (getMinTurningRadiusIndex s speed)
          = P.wild (s.minTurningRadius.length : Int))
    ∧ smallInit.minTurningRadius.length = 401
    ∧ getMinTurningRadiusIndex smallInit (1 / 5) = 401
    ∧ min ⌊(1 / 5 : ℚ) * 1000⌋ ((smallInit.minTurningRadius.length : Int) - 1) = 200 := by
  refine ⟨?_, by decide!, by decide!, by decide!⟩
  intro P s speed
  have hret : getMinTurningRadiusIndex s speed = (s.minTurningRadius.length : Int) := rfl
  refine ⟨hret, ?_, ?_, ?_⟩
  · rw [hret]
    intro h
    have h2 := min_le_right ⌊speed * 1000⌋ ((s.minTurningRadius.length : Int) - 1)
    omega
  · rw [hret]; exact lt_irrefl _
  · rw [hret]
    unfold rd
    have hneg : ¬ ((s.minTurningRadius.length : Int) < 0) := by omega
    rw [if_neg hneg]
    simp

/-- C22 (the code departs from the claim).  The claim: for every
`windowDiameter ≥ 2`, even or odd, every cell `calculateCellsMagnitude` visits
has a laser index `rint(2 · cellDirection[x][y])` in `[0, 13]`, and the centre
cell, whose direction is the sentinel `−1`, is never consulted.  The code, for
every odd `windowDiameter = 2k + 1` with `k ≥ 1`: the loop bound
`⌈windowDiameter / 2⌉ = k + 1` makes the loop visit the centre cell `(k, k)`,
whose direction is `−1`; its laser index is `−2`, outside `[0, 13]`, and the
read `laserRanges[−2]` falls outside the scan whatever the scan is. -/
theorem centre_cell_consulted_on_odd_window (P : Platform) (s : VfhStar) (now : ℚ) (k : Nat)
    (_hk : 1 ≤ k) (hw : s.windowDiameter = 2 * (k : Int) + 1) :
    (k, k) ∈ cellsXY (init P s now).windowDiameter.toNat
        (⌈((init P s now).windowDiameter : ℚ) / 2⌉).toNat
    ∧ (init P s now).cellDirection k k = -1
    ∧ rint ((init P s now).cellDirection k k * 2) = -2
    ∧ ¬ (0 ≤ rint ((init P s now).cellDirection k k * 2)
          ∧ rint ((init P s now).cellDirection k k * 2) ≤ 13)
    ∧ ∀ l : Scan, rdScan P l (rint ((init P s now).cellDirection k k * 2)) = P.wild (-2) := by
  have hc : (⌈((2 * (k : Int) + 1 : Int) : ℚ) / 2⌉ : Int) = (k : Int) + 1 := by
    rw [Int.ceil_eq_iff]; push_cast; constructor <;> linarith
  have hf : (⌊((2 * (k : Int) + 1 : Int) : ℚ) / 2⌋ : Int) = k := by
    rw [Int.floor_eq_iff]; push_cast; constructor <;> linarith
  have hdir : (init P s now).cellDirection k k = -1 := by
    rw [init_cellDirection P s now k k (by rw [hw]; omega) (by rw [hw]; omega), hw, hf]
    simp [initDirection]
  have hidx : rint ((init P s now).cellDirection k k * 2) = -2 := by
    rw [hdir]; exact rint_neg_two
  refine ⟨?_, hdir, hidx, ?_, ?_⟩
  · rw [mem_cellsXY, init_windowDiameter, hw, hc]
    constructor <;> omega
  · rw [hidx]; omega
  · intro l
    rw [hidx]
    unfold rdScan
    rw [dif_neg (by omega)]

/-- Witness of C22: the default bundle on a window of 3 × 3 cells
(`oddWindowParam`, `k = 1`), reference platform: the centre cell `(1, 1)` is
visited and its laser index is `−2`. -/
theorem centre_cell_consulted_on_odd_window_witness :
    ((1 : Nat) ≤ 1
      ∧ (VfhStar.new oddWindowParam zeroObject).windowDiameter = 2 * ((1 : Nat) : Int) + 1)
    ∧ (1, 1) ∈ cellsXY
        (init refPlatform (VfhStar.new oddWindowParam zeroObject) 0).windowDiameter.toNat
        (⌈((init refPlatform (VfhStar.new oddWindowParam zeroObject) 0).windowDiameter : ℚ)
          / 2⌉).toNat
    ∧ rint ((init refPlatform (VfhStar.new oddWindowParam zeroObject) 0).cellDirection 1 1 * 2)
        = -2 :=
  ⟨⟨le_rfl, rfl⟩,
   (centre_cell_consulted_on_odd_window refPlatform (VfhStar.new oddWindowParam zeroObject) 0 1
      le_rfl rfl).1,
   (centre_cell_consulted_on_odd_window refPlatform (VfhStar.new oddWindowParam zeroObject) 0 1
      le_rfl rfl).2.2.1⟩

/-- C23.  For every histogram of `histogramSize` bins with entries in `{0, 1}`
that has an occupied sector with index in `[0, histogramSize/2)`: the first
loop of `selectDirection` finds a start sector, the left/right edge walk from
it records as many border pairs as the histogram has maximal circular runs of
free sectors, and the walk ends with no opening under way (every pair is
closed). -/
theorem openings_match_free_runs (P : Platform) (s : VfhStar)
    (hlen : s.histogram.length = s.histogramSize.toNat)
    (hbin : ∀ v ∈ s.histogram, v = 0 ∨ v = 1)
    (hocc : ∃ i, i < s.histogramSize.toNat / 2 ∧ occupiedAt s.histogram i) :
    ∃ start, findStart P s = some start
      ∧ (borderWalk P s start).border.length = maximalFreeRuns s.histogram
      ∧ (borderWalk P s start).left = true := by
  obtain ⟨i0, hi0, ho0⟩ := hocc
  have hne : 0 < s.histogram.length := by omega
  have hmodlt : ∀ k, k < s.histogramSize.toNat / 2 → k % s.histogram.length = k := by
    intro k hk
    apply Nat.mod_eq_of_lt
    omega
  cases hfs : findStart P s with
  | none =>
    exfalso
    have hnone := (findStart_eq_none_iff P s).mp hfs i0 hi0
    apply hnone
    have := rd_walk_index P s i0 1 hlen ho0
    rw [← hlen, hmodlt i0 hi0] at this
    exact this
  | some start =>
    refine ⟨start, rfl, ?_⟩
    have hmem := List.mem_of_find?_eq_some hfs
    have hp := List.find?_some hfs
    rw [List.mem_range] at hmem
    simp only [decide_eq_true_eq, DoubleCompare_eq_zero_iff] at hp
    have hst : occupiedAt s.histogram start := by
      unfold occupiedAt
      rw [hmodlt start hmem]
      rw [rd_natCast, List.getD_eq_getElem?_getD] at hp
      have hlt : start < s.histogram.length := by omega
      rw [List.getElem?_eq_getElem hlt] at hp ⊢
      simp only [Option.getD_some] at hp
      rw [hp]
    obtain ⟨w1, w2⟩ := borderWalk_steps P s start hlen hne hbin hst s.histogramSize.toNat
    have hend : occupiedAt s.histogram (start + s.histogramSize.toNat) := by
      rw [← hlen, occupiedAt_add_length]
      exact hst
    have hleft := w1.mpr hend
    have hper : ∀ i,
        (fun a => if occupiedAt s.histogram a ∧ freeAt s.histogram (a + 1) then 1 else 0)
          (i + s.histogram.length)
        = (fun a => if occupiedAt s.histogram a ∧ freeAt s.histogram (a + 1) then 1 else 0)
          i := by
      intro i
      have h2 : i + s.histogram.length + 1 = (i + 1) + s.histogram.length := by omega
      simp only [occupiedAt_add_length, h2, freeAt_add_length]
    have hsum := sum_range_shift
      (fun a => if occupiedAt s.histogram a ∧ freeAt s.histogram (a + 1) then 1 else 0)
      s.histogram.length hper start
    simp only [hleft, if_true, Nat.add_zero] at w2
    refine ⟨?_, hleft⟩
    unfold borderWalk
    rw [w2, maximalFreeRuns_eq_edges s.histogram hne hbin, ← hsum, hlen]

/-- Witness of C23: the histogram of 8 sectors `1 0 0 1 0 1 1 0`
(`eightSectorState`): sector 0 is occupied, the three maximal circular runs of
free sectors are `{1, 2}`, `{4}` and `{7}`, and the walk from sector 0 records
three border pairs. -/
theorem openings_match_free_runs_witness :
    (eightSectorState.histogram.length = eightSectorState.histogramSize.toNat
      ∧ (∀ v ∈ eightSectorState.histogram, v = 0 ∨ v = 1)
      ∧ (∃ i, i < eightSectorState.histogramSize.toNat / 2
          ∧ occupiedAt eightSectorState.histogram i))
    ∧ maximalFreeRuns eightSectorState.histogram = 3
    ∧ (borderWalk refPlatform eightSectorState 0).border.length = 3
    ∧ ∃ start, findStart refPlatform eightSectorState = some start
        ∧ (borderWalk refPlatform eightSectorState start).border.length
            = maximalFreeRuns eightSectorState.histogram
        ∧ (borderWalk refPlatform eightSectorState start).left = true :=
  ⟨⟨by decide!, by decide!, ⟨0, by decide!, by decide!⟩⟩, by decide!, by decide!,
   openings_match_free_runs refPlatform eightSectorState (by decide!) (by decide!)
     ⟨0, by decide!, by decide!⟩⟩

/-- C24 (the code departs from the claim).  The claim: after `init`, sector `i`
is in `cellSector[s][x][y]` exactly when the enlarged interval of the cell
intersects the interval of sector `i`; every stored index lies in
`[0, histogramSize)`; a cell spanning several sectors lists them all.  The
code: for every object, table and cell the list is empty or holds the single
value `(int)(DPi / sectorAngle)`, the loop counter after the sector loop.
Right after `init` (`smallParam`, reference platform, 72 sectors of 5°): the
cell `(5, 2)` has the list `[72]`, and `72` is no histogram index, while its
direction lies in sector 5, which the list lacks; the cell `(0, 1)` has the
empty list, while its direction lies in sector 29. -/
theorem sector_lists_hold_loop_counter :
    (∀ (P : Platform) (s : VfhStar) (now : ℚ) (k x y : Nat),
      (init P s now).cellSector k x y = []
      ∨ (init P s now).cellSector k x y = [max (toInt (DPi / s.sectorAngle)) 0])
    ∧ smallInit.histogramSize = 72
    ∧ smallInit.cellSector 0 5 2 = [72]
    ∧ ¬ (∀ i ∈ smallInit.cellSector 0 5 2, 0 ≤ i ∧ i < smallInit.histogramSize)
    ∧ 0 ≤ smallInit.cellEnlarge 5 2
    ∧ 5 * smallInit.sectorAngle ≤ smallInit.cellDirection 5 2
    ∧ smallInit.cellDirection 5 2 ≤ (5 + 1) * smallInit.sectorAngle
    ∧ (5 : Int) ∉ smallInit.cellSector 0 5 2
    ∧ smallInit.cellSector 0 0 1 = []
    ∧ 0 ≤ smallInit.cellEnlarge 0 1
    ∧ 29 * smallInit.sectorAngle ≤ smallInit.cellDirection 0 1
    ∧ smallInit.cellDirection 0 1 ≤ (29 + 1) * smallInit.sectorAngle := by
  refine ⟨fun P s now k x y => init_cellSector P s now k x y, ?_⟩
  decide!

/-- Counterexample to C25 as stated: on the default grid (reference platform)
the cell `(5, 30)` lies 2.5 m from the centre and the corner cell `(0, 0)` more
than 4.2 m, so `cellDistance[(5, 30)] ≤ cellDistance[(0, 0)]`; the base
magnitudes are `625` and more than `23000`: the nearer cell has the smaller
one. -/
theorem base_magnitude_far_cells_counterexample :
    (init refPlatform (VfhStar.new Param.default zeroObject) 0).cellDistance 5 30 = 5 / 2
    ∧ 42 / 10 < (init refPlatform (VfhStar.new Param.default zeroObject) 0).cellDistance 0 0
    ∧ (init refPlatform (VfhStar.new Param.default zeroObject) 0).cellBaseMag 5 30 = 625
    ∧ 23000 < (init refPlatform (VfhStar.new Param.default zeroObject) 0).cellBaseMag 0 0
    ∧ ¬ ((init refPlatform (VfhStar.new Param.default zeroObject) 0).cellDistance 5 30
          ≤ (init refPlatform (VfhStar.new Param.default zeroObject) 0).cellDistance 0 0
        → (init refPlatform (VfhStar.new Param.default zeroObject) 0).cellBaseMag 5 30
          ≥ (init refPlatform (VfhStar.new Param.default zeroObject) 0).cellBaseMag 0 0) := by
  have hw : (VfhStar.new Param.default zeroObject).windowDiameter.toNat = 60 := rfl
  have b1 := init_cellBaseMag refPlatform (VfhStar.new Param.default zeroObject) 0 5 30
    (by rw [hw]; decide) (by rw [hw]; decide)
  have b2 := init_cellBaseMag refPlatform (VfhStar.new Param.default zeroObject) 0 0 0
    (by rw [hw]; decide) (by rw [hw]; decide)
  have d1 : (init refPlatform (VfhStar.new Param.default zeroObject) 0).cellDistance 5 30
      = 5 / 2 := by
    rw [init_cellDistance refPlatform (VfhStar.new Param.default zeroObject) 0 5 30
      (by rw [hw]; decide) (by rw [hw]; decide)]
    decide!
  have d2 : (init refPlatform (VfhStar.new Param.default zeroObject) 0).cellDistance 0 0
      = 42426406871192851 / 10000000000000000 := by
    rw [init_cellDistance refPlatform (VfhStar.new Param.default zeroObject) 0 0 0
      (by rw [hw]; decide) (by rw [hw]; decide)]
    decide!
  rw [b1, b2, d1, d2]
  norm_num

/-- C25, amended.  Right after `init`, for any two cells `a`, `b` of the
`windowDiameter × windowDiameter` grid: `cellBaseMag = ((3 − cellDistance) ·
1000)^4 / 10^8` at both, and when `cellDistance[a] ≤ cellDistance[b]` the
order `cellBaseMag[a] ≥ cellBaseMag[b]` holds exactly when the two distances
are equal or `cellDistance[a] + cellDistance[b] ≤ 6`; in particular it holds
whenever `cellDistance[b] ≤ 3`: the base magnitude is distance-decaying over
the cells within 3 m of the centre. -/
theorem base_magnitude_decays_within_three (P : Platform) (s : VfhStar) (now : ℚ)
    (ax ay bx bY : Nat)
    (ha : ax < s.windowDiameter.toNat ∧ ay < s.windowDiameter.toNat)
    (hb : bx < s.windowDiameter.toNat ∧ bY < s.windowDiameter.toNat)
    (hab : (init P s now).cellDistance ax ay ≤ (init P s now).cellDistance bx bY) :
    (init P s now).cellBaseMag ax ay
        = ((3 - (init P s now).cellDistance ax ay) * 1000) ^ 4 / 10 ^ 8
    ∧ (init P s now).cellBaseMag bx bY
        = ((3 - (init P s now).cellDistance bx bY) * 1000) ^ 4 / 10 ^ 8
    ∧ ((init P s now).cellBaseMag ax ay ≥ (init P s now).cellBaseMag bx bY
        ↔ ((init P s now).cellDistance ax ay = (init P s now).cellDistance bx bY
          ∨ (init P s now).cellDistance ax ay + (init P s now).cellDistance bx bY ≤ 6))
    ∧ ((init P s now).cellDistance bx bY ≤ 3
        → (init P s now).cellBaseMag ax ay ≥ (init P s now).cellBaseMag bx bY) := by
  have ea := init_cellBaseMag P s now ax ay ha.1 ha.2
  have eb := init_cellBaseMag P s now bx bY hb.1 hb.2
  generalize (init P s now).cellDistance ax ay = da at hab ea ⊢
  generalize (init P s now).cellDistance bx bY = db at hab eb ⊢
  generalize (init P s now).cellBaseMag ax ay = ma at ea ⊢
  generalize (init P s now).cellBaseMag bx bY = mb at eb ⊢
  have fa : ma = 10000 * (3 - da) ^ 4 := by rw [ea]; ring
  have fb : mb = 10000 * (3 - db) ^ 4 := by rw [eb]; ring
  have key := pow_four_le_iff (3 - da) (3 - db) (by linarith)
  have iff1 : ma ≥ mb ↔ (da = db ∨ da + db ≤ 6) := by
    rw [fa, fb, ge_iff_le, mul_le_mul_left (by norm_num : (0 : ℚ) < 10000), key]
    constructor
    · rintro (h | h)
      · left; linarith
      · right; linarith
    · rintro (h | h)
      · left; linarith
      · right; linarith
  refine ⟨by rw [fa]; ring, by rw [fb]; ring, iff1, ?_⟩
  intro h3
  exact iff1.mpr (Or.inr (by linarith))

/-- Witness of C25, amended: on the 6 × 6 grid of `smallInit` (all cells within
0.5 m) the centre-row cell `(2, 3)`, 10 cm from the centre, and the corner cell
`(0, 0)`. -/
theorem base_magnitude_decays_within_three_witness :
    (((2 : Nat) < (VfhStar.new smallParam zeroObject).windowDiameter.toNat
        ∧ (3 : Nat) < (VfhStar.new smallParam zeroObject).windowDiameter.toNat)
      ∧ ((0 : Nat) < (VfhStar.new smallParam zeroObject).windowDiameter.toNat
        ∧ (0 : Nat) < (VfhStar.new smallParam zeroObject).windowDiameter.toNat)
      ∧ smallInit.cellDistance 2 3 ≤ smallInit.cellDistance 0 0
      ∧ smallInit.cellDistance 0 0 ≤ 3)
    ∧ smallInit.cellBaseMag 2 3 ≥ smallInit.cellBaseMag 0 0 :=
  ⟨by decide!,
   (base_magnitude_decays_within_three refPlatform (VfhStar.new smallParam zeroObject) 0
      2 3 0 0 (by decide!) (by decide!) (by decide!)).2.2.2 (by decide!)⟩

/-- C26.  For every state and every tick, `update` returns
`chosenAngularZ = NormalizeAngle(0) = 0`.  The call
`setMotion(chosenLinearX0, chosenTurnrate, currentPoseSpeed)` binds
`chosenTurnrate`, which is `0`, to `linearX`: for every object, whatever its
picked direction, every `actualSpeed` and every incoming `turnrate`, `setMotion`
takes the spin branch, hands `0` back in `linearX` and the maximum turn rate in
`turnrate`; and `chosenLinearX` is the unclamped
`min(lastChosenLinearX + speedIncr, maxSpeedForPickedDirection)`. -/
theorem angular_command_always_zero (P : Platform) (s : VfhStar) (t : Tick) :
    (update P s t).2.chosenAngularZ = NormalizeAngle 0
    ∧ (update P s t).2.chosenAngularZ = 0
    ∧ (∀ (c : VfhStar) (actualSpeed turnrate : ℚ),
        setMotion c actualSpeed 0 turnrate = (0, getMaxTurnrate c actualSpeed))
    ∧ (update P s t).2.chosenLinearX
        = min (s.lastChosenLinearX
            + speedIncrement (updateDirection P s t) (t.now - s.lastUpdateTime)
                (cannotTurnToGoal P (updateDirection P s t)))
          (updateDirection P s t).maxSpeedForPickedDirection := by
  refine ⟨?_, update_chosenAngularZ_eq P s t, ?_, update_chosenLinearX_eq P s t⟩
  · rw [update_chosenAngularZ_eq, NormalizeAngle_zero]
  · intro c actualSpeed turnrate
    have h : DoubleCompare 0 0 ≤ 0 := (DoubleCompare_nonpos_iff 0 0).mpr le_rfl
    simp [setMotion, h]

/-- C27.  The primary histogram does not depend on the scan: for every object,
every speed and any two scans that both pass the safety check,
`buildPrimaryPolarHistogram` leaves the same histogram, every bin `0` (the
histogram as the first `std::fill` left it, of unchanged size); what the loop
writes for either scan is the table `cellSector`: in the table `speedIndex` the
list of every visited cell has each of its entries overwritten with the
magnitude of the cell, converted to `int`. -/
theorem primary_histogram_scan_independent (P : Platform) (s : VfhStar) (l1 l2 : Scan) (v : ℚ)
    (h1 : (buildPrimaryPolarHistogram P s l1 v).2 = true)
    (h2 : (buildPrimaryPolarHistogram P s l2 v).2 = true) :
    (buildPrimaryPolarHistogram P s l1 v).1.histogram
        = (buildPrimaryPolarHistogram P s l2 v).1.histogram
    ∧ (buildPrimaryPolarHistogram P s l1 v).1.histogram
        = List.replicate s.histogram.length 0
    ∧ (∀ i : Nat, i < s.histogram.length →
        rd P (buildPrimaryPolarHistogram P s l1 v).1.histogram i = 0
        ∧ rd P (buildPrimaryPolarHistogram P s l2 v).1.histogram i = 0)
    ∧ ∀ l : Scan, l = l1 ∨ l = l2 → ∀ k x y : Nat,
        (buildPrimaryPolarHistogram P s l v).1.cellSector k x y
          = if k = (getSpeedIndex s v).toNat
                ∧ (x, y) ∈ cellsYX (⌈(s.windowDiameter : ℚ) / 2⌉ + 1).toNat
                    s.windowDiameter.toNat
            then (s.cellSector k x y).map
              (fun _ => toInt ((buildPrimaryPolarHistogram P s l v).1.cellMag x y))
            else s.cellSector k x y := by
  have e1 := buildPrimary_histogram_of_safe P s l1 v h1
  have e2 := buildPrimary_histogram_of_safe P s l2 v h2
  have hm : s.histogram.map (fun _ => (0 : ℚ)) = List.replicate s.histogram.length 0 := by
    simp [List.map_const']
  rw [e1, e2, hm]
  refine ⟨rfl, rfl, ?_, ?_⟩
  · intro i hi
    have : rd P (List.replicate s.histogram.length (0 : ℚ)) i = 0 := by
      rw [rd_natCast]
      simp [List.getD_eq_getElem?_getD, hi]
    exact ⟨this, this⟩
  · rintro l (rfl | rfl) k x y
    · exact buildPrimary_cellSector P s l v h1 k x y
    · exact buildPrimary_cellSector P s l v h2 k x y

/-- Witness of C27: right after `init` (`smallParam`, reference platform) at
speed `0`, the scan reading 25 cm everywhere and the scan reading 10 m
everywhere both pass the safety check; they leave different cell magnitudes at
the cell `(5, 2)` and the same histogram. -/
theorem primary_histogram_scan_independent_witness :
    ((buildPrimaryPolarHistogram refPlatform smallInit (constScan (1 / 4)) 0).2 = true
      ∧ (buildPrimaryPolarHistogram refPlatform smallInit (constScan 10) 0).2 = true
      ∧ (buildPrimaryPolarHistogram refPlatform smallInit (constScan (1 / 4)) 0).1.cellMag 5 2
          ≠ (buildPrimaryPolarHistogram refPlatform smallInit (constScan 10) 0).1.cellMag 5 2)
    ∧ (buildPrimaryPolarHistogram refPlatform smallInit (constScan (1 / 4)) 0).1.histogram
        = (buildPrimaryPolarHistogram refPlatform smallInit (constScan 10) 0).1.histogram :=
  ⟨by decide!,
   (primary_histogram_scan_independent refPlatform smallInit (constScan (1 / 4)) (constScan 10) 0
      (by decide!) (by decide!)).1⟩
end Vfh
